import Mathlib

/-!
gomake: architecture/template resolution and file materialisation

A shallow embedding of the `internal/generator` and `internal/cli` packages of
`vagonaizer/gomake`, followed by theorems about it.

Conventions of the embedding

* Go strings are Lean `String`s; the string functions of the Go standard
  library are defined on the underlying character lists.
* A Go `error` is its message (`err.Error()`), so `fmt.Errorf("ctx: %w", err)`
  is string concatenation.  A function returning `error` returns
  `Option String` (`none` is `nil`).
* The operating system is explicit state (`FS`), threaded through every
  function that touches the disk.
* What the repository imports from elsewhere (the template engine, the clock,
  the Unicode tables, the directory walk of `./templates`, the embedded asset
  bundle) is collected in `Env`.
-/

namespace GoMake

/-! ## Go standard library: `strings` -/

/-- Go `strings.HasPrefix`. -/
def HasPrefix (s pre : String) : Bool := pre.data.isPrefixOf s.data

/-- Go `strings.HasSuffix`. -/
def HasSuffix (s suf : String) : Bool := suf.data.isSuffixOf s.data

/-- Go `strings.TrimPrefix`: `s` without the leading `pre`, or `s` itself. -/
def TrimPrefix (s pre : String) : String :=
  if HasPrefix s pre then String.mk (s.data.drop pre.data.length) else s

/-- Go `strings.TrimSuffix`: `s` without the trailing `suf`, or `s` itself. -/
def TrimSuffix (s suf : String) : String :=
  if HasSuffix s suf then String.mk (s.data.take (s.data.length - suf.data.length)) else s

/-- Go `strings.Contains`, as a proposition. -/
def Contains (s sub : String) : Prop := sub.data <:+: s.data

/-- Go `unicode.IsSpace` (the same set as the white space of package `fmt`). -/
def isSpace (c : Char) : Bool :=
  (9 ≤ c.toNat && c.toNat ≤ 13) || c.toNat = 0x20 || c.toNat = 0x85 || c.toNat = 0xA0 ||
  c.toNat = 0x1680 || (0x2000 ≤ c.toNat && c.toNat ≤ 0x200A) || c.toNat = 0x2028 ||
  c.toNat = 0x2029 || c.toNat = 0x202F || c.toNat = 0x205F || c.toNat = 0x3000

/-- The tables of Go's package `unicode` for the runes beyond ASCII. -/
structure UnicodeTables where
  /-- Go `unicode.IsLetter`. -/
  IsLetter : Char → Bool
  /-- Go `unicode.IsDigit`. -/
  IsDigit : Char → Bool
  /-- Go `unicode.To(unicode.TitleCase, r)`. -/
  ToTitleCase : Char → Char

/-- Go `unicode.ToTitle`: in ASCII the title case is the upper case. -/
def ToTitle (u : UnicodeTables) (r : Char) : Char :=
  if r.toNat ≤ 0x7F then
    if 'a' ≤ r ∧ r ≤ 'z' then Char.ofNat (r.toNat - 32) else r
  else u.ToTitleCase r

/-- Go `strings.isSeparator`: ASCII alphanumerics and the underscore are no separators,
every other ASCII rune is one; beyond ASCII letters and digits are none, and of the rest
the spaces are. -/
def isSeparator (u : UnicodeTables) (r : Char) : Bool :=
  if r.toNat ≤ 0x7F then
    if '0' ≤ r ∧ r ≤ '9' then false
    else if 'a' ≤ r ∧ r ≤ 'z' then false
    else if 'A' ≤ r ∧ r ≤ 'Z' then false
    else if r = '_' then false
    else true
  else if u.IsLetter r || u.IsDigit r then false
  else isSpace r

/-- The closure `strings.Title` passes to `strings.Map`, called on the runes in order:
`prev` is the rune of the call before, a space at the start. -/
def titleRunes (u : UnicodeTables) : Char → List Char → List Char
  | _, [] => []
  | prev, r :: rest => (if isSeparator u prev then ToTitle u r else r) :: titleRunes u r rest

/-- Go `strings.Title`. -/
def Title (u : UnicodeTables) (s : String) : String := String.mk (titleRunes u ' ' s.data)

/-! ## Go standard library: `path/filepath` (Unix) -/

/-- Split a character list at every `/` (like `strings.Split(s, "/")`). -/
def splitOnSlash : List Char → List (List Char)
  | [] => [[]]
  | c :: cs =>
    match splitOnSlash cs with
    | [] => [[]]
    | seg :: rest => if c = '/' then [] :: seg :: rest else (c :: seg) :: rest

/-- One step of `filepath.Clean`: `out` is the stack of kept elements, top first. -/
def cleanStep (rooted : Bool) (out : List (List Char)) (seg : List Char) : List (List Char) :=
  if seg = [] ∨ seg = ['.'] then out
  else if seg = ['.', '.'] then
    match out with
    | [] => if rooted then [] else [seg]
    | top :: below => if top = ['.', '.'] then seg :: out else below
  else seg :: out

/-- The path elements that `filepath.Clean` keeps, in order. -/
def cleanSegs (rooted : Bool) (segs : List (List Char)) : List (List Char) :=
  (segs.foldl (cleanStep rooted) []).reverse

/-- Go `filepath.Clean`. -/
def Clean (path : String) : String :=
  if path.data = [] then "."
  else
    let rooted : Bool := path.data.head? = some '/'
    let segs := cleanSegs rooted (splitOnSlash path.data)
    let body := String.mk (List.intercalate ['/'] segs)
    if rooted then "/" ++ body else if segs = [] then "." else body

/-- Go `filepath.Join` of two elements. -/
def Join (a b : String) : String :=
  if a ≠ "" then Clean (a ++ "/" ++ b)
  else if b ≠ "" then Clean b
  else ""

/-- The part of a path up to and including its last `/` (empty when there is none). -/
def uptoLastSlash (cs : List Char) : List Char :=
  (cs.reverse.dropWhile (fun c => c ≠ '/')).reverse

/-- Go `filepath.Dir`. -/
def Dir (path : String) : String := Clean (String.mk (uptoLastSlash path.data))

/-- The proper ancestors of a path, outermost first: `a/b/c` gives `a`, `a/b`. -/
def parents (path : String) : List String :=
  let segs := splitOnSlash path.data
  (((List.range segs.length).tail.map (fun k => String.mk (List.intercalate ['/'] (segs.take k)))).filter
    (fun p => p ≠ ""))

/-! ## The operating system: a filesystem with fallible operations

Paths are the strings the program passes to the `os` package (always the result
of `filepath.Join` or `filepath.Dir`, hence cleaned).  A failing operation leaves
the state as it found it. -/

/-- Filesystem state: the directories, the regular files with their contents, and
the paths at which the process is refused creation and writing. -/
structure FS where
  dirs : List String
  files : List (String × String)
  denied : List String
deriving DecidableEq

/-- Paths that exist as directories in every state: `.`, `/`, `..`, `../..`, and so on. -/
def implicitDir (p : String) : Bool :=
  p ≠ "" && (splitOnSlash p.data).all (fun s => s = [] || s = ['.'] || s = ['.', '.'])

/-- `os.Stat(p)` succeeds and reports a directory. -/
def isDir (fs : FS) (p : String) : Bool := decide (p ∈ fs.dirs) || implicitDir p

/-- `os.Stat(p)` succeeds and reports a regular file. -/
def isFile (fs : FS) (p : String) : Bool := (fs.files.lookup p).isSome

/-- `os.Stat(p)` succeeds. -/
def pathExists (fs : FS) (p : String) : Bool := isDir fs p || isFile fs p

/-- The contents of the regular file at `p`, if there is one. -/
def readFile (fs : FS) (p : String) : Option String := fs.files.lookup p

/-- What `os.Stat` finds at a path: a directory, a regular file, nothing (`ENOENT`), or a
regular file where the path goes on (`ENOTDIR`). -/
inductive StatResult where
  | dir
  | file
  | notExist
  | notDir
deriving DecidableEq

/-- The walk of the kernel along the components of a path, from the directory `cur`: an
empty component is skipped, every other one is looked up in the directory reached; a
regular file is accepted at the very end only. -/
def statFrom (fs : FS) : String → List (List Char) → StatResult
  | _, [] => .dir
  | cur, c :: rest =>
    if c = [] then statFrom fs cur rest
    else if isDir fs (Join cur (String.mk c)) then statFrom fs (Join cur (String.mk c)) rest
    else if isFile fs (Join cur (String.mk c)) then (if rest = [] then .file else .notDir)
    else .notExist

/-- Go `os.Stat(path)` for a path as the user wrote it, cleaned or not. -/
def Stat (fs : FS) (path : String) : StatResult :=
  if path = "" then .notExist
  else statFrom fs (if HasPrefix path "/" then "/" else ".") (splitOnSlash path.data)

/-- Replace the contents bound to `name`, or bind it at the end. -/
def setFile : List (String × String) → String → String → List (String × String)
  | [], name, data => [(name, data)]
  | (k, v) :: rest, name, data =>
    if k = name then (name, data) :: rest else (k, v) :: setFile rest name data

/-- Make sure the directory `p` exists, its parent being in place (`os.Mkdir`, with the
already-a-directory case of `os.MkdirAll` folded in). -/
def mkdirOne (fs : FS) (p : String) : FS × Option String :=
  if isDir fs p then (fs, none)
  else if isFile fs p then (fs, some ("mkdir " ++ p ++ ": not a directory"))
  else if p ∈ fs.denied then (fs, some ("mkdir " ++ p ++ ": permission denied"))
  else ({ fs with dirs := fs.dirs ++ [p] }, none)

/-- Create the listed directories in order, stopping at the first failure. -/
def mkdirChain : FS → List String → FS × Option String
  | fs, [] => (fs, none)
  | fs, p :: ps =>
    match mkdirOne fs p with
    | (fs1, none) => mkdirChain fs1 ps
    | (fs1, some err) => (fs1, some err)

/-- Go `os.MkdirAll`: create `path` and every missing ancestor, outermost first.  The
ancestors created before a failure stay. -/
def MkdirAll (fs : FS) (path : String) : FS × Option String :=
  if path = "" then (fs, some "mkdir : no such file or directory")
  else mkdirChain fs (parents path ++ [path])

/-- The error of the kernel for a path whose directory `dir` is missing: the outermost
ancestor that is no directory decides, a regular file there giving `ENOTDIR`. -/
def missingDirError (fs : FS) (dir : String) : String :=
  match (parents dir ++ [dir]).find? (fun q => !isDir fs q) with
  | some q => if isFile fs q then "not a directory" else "no such file or directory"
  | none => "no such file or directory"

/-- Go `os.WriteFile`: create or truncate the file `name` and write `data`. -/
def WriteFile (fs : FS) (name data : String) : FS × Option String :=
  if isDir fs name then (fs, some ("open " ++ name ++ ": is a directory"))
  else if isFile fs (Dir name) then (fs, some ("open " ++ name ++ ": not a directory"))
  else if !isDir fs (Dir name) then
    (fs, some ("open " ++ name ++ ": " ++ missingDirError fs (Dir name)))
  else if name ∈ fs.denied then (fs, some ("open " ++ name ++ ": permission denied"))
  else ({ fs with files := setFile fs.files name data }, none)

/-! ## `internal/generator`: configuration and template data -/

/-- Go `generator.Config`. -/
structure Config where
  ProjectName : String
  Architecture : String
  TargetDir : String
  WithDocker : Bool
  WithMakefile : Bool
  WithGit : Bool
  License : String
  AutoYes : Bool
deriving DecidableEq

/-- Go `logger.Logger`; its methods only print. -/
structure Logger where
  verbose : Bool
deriving DecidableEq

/-- Go `generator.HexagonalData`. -/
structure HexagonalData where
  CorePorts : List String
  Adapters : List String
  Services : List String
deriving DecidableEq

/-- Go `generator.CleanData`. -/
structure CleanData where
  Entities : List String
  UseCases : List String
  Handlers : List String
deriving DecidableEq

/-- Go `generator.MVCData`. -/
structure MVCData where
  Controllers : List String
  Models : List String
  Views : List String
deriving DecidableEq

/-- Go `generator.BasicData`. -/
structure BasicData where
  Handlers : List String
  Services : List String
deriving DecidableEq

/-- The dynamic type stored in the `ArchData interface{}` field. -/
inductive ArchDataValue where
  | hexagonal (d : HexagonalData)
  | clean (d : CleanData)
  | mvc (d : MVCData)
  | basic (d : BasicData)
deriving DecidableEq

/-- Go `generator.TemplateData`. -/
structure TemplateData where
  ProjectName : String
  Architecture : String
  License : String
  Year : Int
  ProjectTitle : String
  ModuleName : String
  MainPackagePath : String
  WithDocker : Bool
  WithMakefile : Bool
  WithGit : Bool
  ArchData : Option ArchDataValue
deriving DecidableEq

/-- A parsed `text/template` object: its name and its source text. -/
structure Template where
  name : String
  text : String
deriving DecidableEq

/-- One call of the `filepath.WalkDir` callback: the path, whether the entry is a
directory, and the error the walker hands over (`nil` when it could read the entry). -/
structure WalkEntry where
  path : String
  isDir : Bool
  err : Option String
deriving DecidableEq

/-- What the program takes from outside the repository. -/
structure Env where
  /-- The calls `filepath.WalkDir("templates", fn)` makes to `fn`, in order, as long as
  `fn` returns `nil`. -/
  walk : List WalkEntry
  /-- The embedded bundle: `templatesFS.ReadFile`. -/
  readFile : String → Except String String
  /-- The error, if any, of `template.New(name).Parse(content)`. -/
  parseError : String → String → Option String
  /-- The engine: `tmpl.Execute(&buf, data)`, giving the rendered text or the error. -/
  execute : Template → TemplateData → Except String String
  /-- The clock: `time.Now().Year()`. -/
  year : Int
  /-- The tables of package `unicode`, which `strings.Title` consults beyond ASCII. -/
  unicode : UnicodeTables
  /-- Modelled from the spec: `GitGenerator.Initialize` is not part of the source at hand
  (only its caller is).  The spec describes it as a side-effecting external-process
  step that initialises a version-control repository in the project directory and whose
  failure does not undo previously written files. -/
  gitInitialize : Config → String → FS → FS × Option String

/-- The three ways a Go call that builds a value can end. -/
inductive Outcome (α : Type) where
  | ok (val : α)
  | error (msg : String)
  | panic (msg : String)

/-- Go `generator.NewHexagonalData`. -/
def NewHexagonalData (_config : Config) : HexagonalData :=
  { CorePorts := ["Repository", "Cache", "Logger"]
    Adapters := ["HTTP", "Database", "Cache"]
    Services := ["AppService"] }

/-- Go `generator.NewCleanData`. -/
def NewCleanData (_config : Config) : CleanData :=
  { Entities := ["Entity"], UseCases := ["EntityUseCase"], Handlers := ["EntityHandler"] }

/-- Go `generator.NewMVCData`. -/
def NewMVCData (_config : Config) : MVCData :=
  { Controllers := ["BaseController", "HealthController"]
    Models := ["BaseModel"]
    Views := ["Response"] }

/-- Go `generator.NewBasicData`. -/
def NewBasicData (_config : Config) : BasicData :=
  { Handlers := ["HealthHandler"], Services := ["Service"] }

/-- Go `generator.NewTemplateData`. -/
def NewTemplateData (env : Env) (config : Config) : TemplateData :=
  { ProjectName := config.ProjectName
    Architecture := config.Architecture
    License := config.License
    Year := env.year
    WithDocker := config.WithDocker
    WithMakefile := config.WithMakefile
    WithGit := config.WithGit
    ProjectTitle := Title env.unicode config.ProjectName
    ModuleName := config.ProjectName
    MainPackagePath := "cmd/" ++ config.ProjectName
    ArchData :=
      if config.Architecture = "hexagonal" then some (.hexagonal (NewHexagonalData config))
      else if config.Architecture = "clean" then some (.clean (NewCleanData config))
      else if config.Architecture = "mvc" then some (.mvc (NewMVCData config))
      else if config.Architecture = "basic" then some (.basic (NewBasicData config))
      else none }

/-! ## `internal/generator/templates.go` -/

/-- Go `map[string]V` assignment `m[k] = v`. -/
def mapSet {V : Type} : List (String × V) → String → V → List (String × V)
  | [], k, v => [(k, v)]
  | (k1, v1) :: rest, k, v => if k1 = k then (k, v) :: rest else (k1, v1) :: mapSet rest k v

/-- Go `generator.TemplateManager`. -/
structure TemplateManager where
  templates : List (String × Template)
deriving DecidableEq

/-- The template name `loadTemplates` derives from an asset path. -/
def templateNameOf (path : String) : String :=
  TrimSuffix (TrimPrefix path "templates/") ".tmpl"

/-- The callback `loadTemplates` passes to `filepath.WalkDir`. -/
def loadTemplatesVisit (env : Env) (tm : TemplateManager) (e : WalkEntry) :
    Except String TemplateManager :=
  match e.err with
  | some err => .error err
  | none =>
    if e.isDir || !HasSuffix e.path ".tmpl" then .ok tm
    else
      match env.readFile e.path with
      | .error err => .error ("failed to read template " ++ e.path ++ ": " ++ err)
      | .ok content =>
        let templateName := templateNameOf e.path
        match env.parseError templateName content with
        | some err => .error ("failed to parse template " ++ e.path ++ ": " ++ err)
        | none =>
          .ok { templates := mapSet tm.templates templateName ⟨templateName, content⟩ }

/-- The walk itself: the callback is applied to the entries in order, and its first
error ends the walk and is the walk's result. -/
def walkDir (env : Env) : TemplateManager → List WalkEntry → Except String TemplateManager
  | tm, [] => .ok tm
  | tm, e :: rest =>
    match loadTemplatesVisit env tm e with
    | .error err => .error err
    | .ok tm1 => walkDir env tm1 rest

/-- Go `(*TemplateManager).loadTemplates`. -/
def loadTemplates (env : Env) (tm : TemplateManager) : Except String TemplateManager :=
  walkDir env tm env.walk

/-- Go `generator.NewTemplateManager`. -/
def NewTemplateManager (env : Env) : Except String TemplateManager :=
  match loadTemplates env { templates := [] } with
  | .error err => .error ("failed to load templates: " ++ err)
  | .ok tm => .ok tm

/-- Go `(*TemplateManager).RenderTemplate`: the rendered text and the error. -/
def RenderTemplate (env : Env) (tm : TemplateManager) (templateName : String)
    (data : TemplateData) : String × Option String :=
  match tm.templates.lookup templateName with
  | none => ("", some ("template " ++ templateName ++ " not found"))
  | some tmpl =>
    match env.execute tmpl data with
    | .error err => ("", some ("failed to execute template " ++ templateName ++ ": " ++ err))
    | .ok out => (out, none)

/-! ## `internal/generator/structure.go` and `architectures.go` -/

/-- Go `generator.ProjectStructure`. -/
structure ProjectStructure where
  Directories : List String
  Files : List (String × String)
deriving DecidableEq

/-- Go `generator.NewProjectStructure`. -/
def NewProjectStructure : ProjectStructure := { Directories := [], Files := [] }

/-- Go `(*ProjectStructure).AddDirectory`. -/
def ProjectStructure.AddDirectory (ps : ProjectStructure) (path : String) : ProjectStructure :=
  { ps with Directories := ps.Directories ++ [path] }

/-- Go `generator.HexagonalArchitecture`. -/
structure HexagonalArchitecture where
  templateManager : TemplateManager
deriving DecidableEq

/-- Go `generator.CleanArchitecture`. -/
structure CleanArchitecture where
  templateManager : TemplateManager
deriving DecidableEq

/-- Go `generator.MVCArchitecture`. -/
structure MVCArchitecture where
  templateManager : TemplateManager
deriving DecidableEq

/-- Go `generator.BasicArchitecture`. -/
structure BasicArchitecture where
  templateManager : TemplateManager
deriving DecidableEq

/-- Go interface `generator.Architecture`: a value of one of its four implementations. -/
inductive Architecture where
  | hexagonal (h : HexagonalArchitecture)
  | clean (c : CleanArchitecture)
  | mvc (m : MVCArchitecture)
  | basic (b : BasicArchitecture)
deriving DecidableEq

/-- The panic of the four constructors when the template manager cannot be built. -/
def templateManagerPanic (err : String) : String := "Failed to create template manager: " ++ err

/-- Go `generator.NewHexagonalArchitecture`. -/
def NewHexagonalArchitecture (env : Env) : Outcome HexagonalArchitecture :=
  match NewTemplateManager env with
  | .error err => .panic (templateManagerPanic err)
  | .ok tm => .ok { templateManager := tm }

/-- Go `generator.NewCleanArchitecture`. -/
def NewCleanArchitecture (env : Env) : Outcome CleanArchitecture :=
  match NewTemplateManager env with
  | .error err => .panic (templateManagerPanic err)
  | .ok tm => .ok { templateManager := tm }

/-- Go `generator.NewMVCArchitecture`. -/
def NewMVCArchitecture (env : Env) : Outcome MVCArchitecture :=
  match NewTemplateManager env with
  | .error err => .panic (templateManagerPanic err)
  | .ok tm => .ok { templateManager := tm }

/-- Go `generator.NewBasicArchitecture`. -/
def NewBasicArchitecture (env : Env) : Outcome BasicArchitecture :=
  match NewTemplateManager env with
  | .error err => .panic (templateManagerPanic err)
  | .ok tm => .ok { templateManager := tm }

/-- The template manager an architecture value carries. -/
def Architecture.templateManager : Architecture → TemplateManager
  | .hexagonal h => h.templateManager
  | .clean c => c.templateManager
  | .mvc m => m.templateManager
  | .basic b => b.templateManager

/-- Go `GetName` of the four implementations. -/
def Architecture.GetName : Architecture → String
  | .hexagonal _ => "hexagonal"
  | .clean _ => "clean"
  | .mvc _ => "mvc"
  | .basic _ => "basic"

/-- The `dirs` literal of each `GetStructure`. -/
def Architecture.dirs : Architecture → List String
  | .hexagonal _ =>
    ["cmd", "images", "internal/adapters/cache", "internal/adapters/handler",
     "internal/adapters/repository", "internal/adapters/tests/integration",
     "internal/adapters/tests/unit", "internal/config", "internal/core/domain",
     "internal/core/ports", "internal/core/services", "internal/web", "pkg/logger",
     "pkg/utils", "pkg/database", "pkg/initializers"]
  | .clean _ =>
    ["cmd", "app", "domain", "repository", "usecase", "delivery/http",
     "delivery/http/middleware", "infrastructure/database", "infrastructure/repository",
     "pkg/logger", "pkg/utils", "configs", "docs", "scripts"]
  | .mvc _ =>
    ["cmd", "app", "controllers", "models", "views", "middleware", "routes", "database",
     "migrations", "seeders", "pkg/logger", "pkg/utils", "pkg/validators", "configs",
     "public/assets", "storage/logs", "tests"]
  | .basic _ =>
    ["cmd", "internal/app", "internal/handlers", "internal/services", "internal/repository",
     "pkg/logger", "pkg/utils", "pkg/database", "configs", "docs", "scripts", "tests"]

/-- Go `GetStructure` of the four implementations: a new structure to which every element
of `dirs` is added in order. -/
def Architecture.GetStructure (a : Architecture) : ProjectStructure :=
  a.dirs.foldl ProjectStructure.AddDirectory NewProjectStructure

/-- The composite literal `map[string]string{...}` of each `GenerateFiles`, as the list of
its key-value pairs in source order. -/
def Architecture.fileBindings (a : Architecture) (config : Config) : List (String × String) :=
  match a with
  | .hexagonal _ =>
    [("cmd/" ++ config.ProjectName ++ "/main.go", "hexagonal/main.go"),
     (".env", "common/env"),
     ("internal/adapters/cache/cache.go", "hexagonal/cache.go"),
     ("pkg/logger/logger.go", "common/logger"),
     ("pkg/utils/utils.go", "common/utils"),
     ("pkg/database/database.go", "common/database"),
     ("configs/config.go", "common/config")]
  | .clean _ =>
    [("cmd/" ++ config.ProjectName ++ "/main.go", "clean/main.go"),
     (".env", "common/env"),
     ("pkg/logger/logger.go", "common/logger"),
     ("pkg/utils/utils.go", "common/utils"),
     ("pkg/database/database.go", "common/database"),
     ("configs/config.go", "common/config")]
  | .mvc _ =>
    [("cmd/" ++ config.ProjectName ++ "/main.go", "mvc/main.go"),
     (".env", "common/env"),
     ("pkg/logger/logger.go", "common/logger"),
     ("pkg/utils/utils.go", "common/utils"),
     ("pkg/database/database.go", "common/database"),
     ("configs/config.go", "common/config")]
  | .basic _ =>
    [("cmd/" ++ config.ProjectName ++ "/main.go", "basic/main.go"),
     (".env", "common/env"),
     ("pkg/logger/logger.go", "common/logger"),
     ("pkg/utils/utils.go", "common/utils"),
     ("pkg/database/database.go", "common/database"),
     ("configs/config.go", "common/config")]

/-- The map a composite literal builds: the pairs are assigned in order. -/
def mapOfBindings (bindings : List (String × String)) : List (String × String) :=
  bindings.foldl (fun m kv => mapSet m kv.1 kv.2) []

/-- The order in which one `for ... range` statement visits the entries of a map: Go
leaves it unspecified, so it is an input; it visits every entry once. -/
structure MapOrder where
  visit : List (String × String) → List (String × String)
  perm : ∀ l, (visit l).Perm l

/-- The order that visits the entries as they are stored. -/
def MapOrder.stored : MapOrder := { visit := fun l => l, perm := fun l => List.Perm.refl l }

/-- The order that visits the entries last to first. -/
def MapOrder.backwards : MapOrder :=
  { visit := fun l => l.reverse, perm := fun l => List.reverse_perm l }

/-- The body of the `range` loop of `renderAndWriteFiles`, run over the entries in the
order given: render, create the directory, write; the first error is returned at once. -/
def renderAndWriteLoop (env : Env) (tm : TemplateManager) (projectPath : String)
    (data : TemplateData) : FS → List (String × String) → FS × Option String
  | fs, [] => (fs, none)
  | fs, (filePath, templateName) :: rest =>
    match RenderTemplate env tm templateName data with
    | (_, some err) => (fs, some ("failed to render template " ++ templateName ++ ": " ++ err))
    | (content, none) =>
      let fullPath := Join projectPath filePath
      let dir := Dir fullPath
      match MkdirAll fs dir with
      | (fs1, some err) => (fs1, some ("failed to create directory " ++ dir ++ ": " ++ err))
      | (fs1, none) =>
        match WriteFile fs1 fullPath content with
        | (fs2, some err) => (fs2, some ("failed to write file " ++ filePath ++ ": " ++ err))
        | (fs2, none) => renderAndWriteLoop env tm projectPath data fs2 rest

/-- Go `renderAndWriteFiles` (the four implementations have the same body). -/
def renderAndWriteFiles (env : Env) (ord : MapOrder) (tm : TemplateManager)
    (projectPath : String) (files : List (String × String)) (data : TemplateData) (fs : FS) :
    FS × Option String :=
  renderAndWriteLoop env tm projectPath data fs (ord.visit files)

/-- Go `GenerateFiles` of the four implementations. -/
def Architecture.GenerateFiles (a : Architecture) (env : Env) (ord : MapOrder)
    (projectPath : String) (config : Config) (fs : FS) : FS × Option String :=
  let templateData := NewTemplateData env config
  let files := mapOfBindings (a.fileBindings config)
  renderAndWriteFiles env ord a.templateManager projectPath files templateData fs

/-! ## The emitters: `common_files.go`, `makefile_generator.go`, `docker_generator.go`,
`license_generator.go` -/

/-- The text `GenerateGoMod` writes. -/
def goModContent (config : Config) : String :=
  "module " ++ config.ProjectName ++ "\n" ++
  "\n" ++
  "go 1.21\n" ++
  "\n" ++
  "require (\n" ++
  "\tgithub.com/gorilla/mux v1.8.0\n" ++
  "\tgithub.com/lib/pq v1.10.9\n" ++
  ")"

/-- The text `GenerateReadme` writes. -/
def readmeContent (config : Config) : String :=
  "# " ++ config.ProjectName ++ "\n" ++
  "\n" ++
  "A Go application built with " ++ config.Architecture ++ " architecture.\n" ++
  "\n" ++
  "## Getting Started\n" ++
  "\n" ++
  "### Prerequisites\n" ++
  "- Go 1.21 or higher\n" ++
  "- PostgreSQL (optional)\n" ++
  "\n" ++
  "### Installation\n" ++
  "\n" ++
  "1. Clone the repository\n" ++
  "2. Install dependencies:\n" ++
  "```bash\n" ++
  "go mod tidy\n" ++
  "```\n" ++
  "\n" ++
  "3. Run the application:\n" ++
  "```bash\n" ++
  "make run\n" ++
  "```\n" ++
  "\n" ++
  "## Architecture\n" ++
  "\n" ++
  "This project follows the " ++ config.Architecture ++ " architecture pattern.\n" ++
  "\n" ++
  "## API Endpoints\n" ++
  "\n" ++
  "- `GET /health` - Health check\n" ++
  "- `GET /api/v1/users` - Get all users\n" ++
  "- `POST /api/v1/users` - Create a new user\n" ++
  "\n" ++
  "## Development\n" ++
  "\n" ++
  "### Running Tests\n" ++
  "```bash\n" ++
  "make test\n" ++
  "```\n" ++
  "\n" ++
  "### Building\n" ++
  "```bash\n" ++
  "make build\n" ++
  "```\n" ++
  "\n" ++
  "### Docker\n" ++
  "```bash\n" ++
  "make docker-build\n" ++
  "make docker-run\n" ++
  "```\n" ++
  "\n" ++
  "## License\n" ++
  "\n" ++
  "This project is licensed under the " ++ config.License ++ " License."

/-- The text `GenerateGitignore` writes. -/
def gitignoreContent : String :=
  "# Binaries for programs and plugins\n" ++
  "*.exe\n" ++
  "*.exe~\n" ++
  "*.dll\n" ++
  "*.so\n" ++
  "*.dylib\n" ++
  "\n" ++
  "# Test binary, built with go test -c\n" ++
  "*.test\n" ++
  "\n" ++
  "# Output of the go coverage tool\n" ++
  "*.out\n" ++
  "*.cover\n" ++
  "\n" ++
  "# Dependency directories\n" ++
  "vendor/\n" ++
  "\n" ++
  "# Go workspace file\n" ++
  "go.work\n" ++
  "go.work.sum\n" ++
  "\n" ++
  "# Build artifacts\n" ++
  "/bin/\n" ++
  "/dist/\n" ++
  "/build/\n" ++
  "\n" ++
  "# Environment variables\n" ++
  ".env\n" ++
  ".env.local\n" ++
  ".env.*.local\n" ++
  "\n" ++
  "# IDE files\n" ++
  ".vscode/\n" ++
  ".idea/\n" ++
  "*.swp\n" ++
  "*.swo\n" ++
  "\n" ++
  "# OS generated files\n" ++
  ".DS_Store\n" ++
  "Thumbs.db\n" ++
  "\n" ++
  "# Logs\n" ++
  "*.log\n" ++
  "logs/\n" ++
  "\n" ++
  "# Database\n" ++
  "*.db\n" ++
  "*.sqlite\n" ++
  "*.sqlite3\n" ++
  "\n" ++
  "# Temporary files\n" ++
  "tmp/\n" ++
  "temp/"

/-- The text `MakefileGenerator.Generate` writes. -/
def makefileContent (config : Config) : String :=
  "# " ++ config.ProjectName ++ " Makefile\n" ++
  "\n" ++
  ".PHONY: help build run test clean lint fmt install\n" ++
  "\n" ++
  "APP_NAME=" ++ config.ProjectName ++ "\n" ++
  "VERSION?=$(shell git describe --tags --always --dirty 2>/dev/null || echo \"dev\")\n" ++
  "\n" ++
  "help: ## Show this help message\n" ++
  "\t@echo 'Usage: make [target]'\n" ++
  "\t@echo ''\n" ++
  "\t@echo 'Targets:'\n" ++
  "\t@awk 'BEGIN \x7bFS = \":.*?## \"\x7d /^[a-zA-Z_-]+:.*?## / \x7bprintf \"  \\033[36m%-15s\\033[0m %s\\n\", $$1, $$2\x7d' $(MAKEFILE_LIST)\n" ++
  "\n" ++
  "build: ## Build the application\n" ++
  "\t@echo \"Building $(APP_NAME)...\"\n" ++
  "\t@go build -o bin/$(APP_NAME) cmd/$(APP_NAME)/main.go\n" ++
  "\t@echo \"Build complete: bin/$(APP_NAME)\"\n" ++
  "\n" ++
  "run: ## Run the application\n" ++
  "\t@go run cmd/$(APP_NAME)/main.go\n" ++
  "\n" ++
  "test: ## Run tests\n" ++
  "\t@go test -v ./...\n" ++
  "\n" ++
  "test-coverage: ## Run tests with coverage\n" ++
  "\t@go test -v -coverprofile=coverage.out ./...\n" ++
  "\t@go tool cover -html=coverage.out -o coverage.html\n" ++
  "\n" ++
  "clean: ## Clean build artifacts\n" ++
  "\t@rm -rf bin/\n" ++
  "\t@rm -f coverage.out coverage.html\n" ++
  "\n" ++
  "lint: ## Run linter\n" ++
  "\t@golangci-lint run\n" ++
  "\n" ++
  "fmt: ## Format code\n" ++
  "\t@go fmt ./...\n" ++
  "\t@goimports -w .\n" ++
  "\n" ++
  "mod-tidy: ## Tidy go modules\n" ++
  "\t@go mod tidy\n" ++
  "\n" ++
  "deps: ## Download dependencies\n" ++
  "\t@go mod download\n" ++
  "\n" ++
  "docker-build: ## Build Docker image\n" ++
  "\t@docker build -t $(APP_NAME):$(VERSION) .\n" ++
  "\n" ++
  "docker-run: ## Run Docker container\n" ++
  "\t@docker run -p 8080:8080 $(APP_NAME):$(VERSION)\n" ++
  "\n" ++
  "dev: ## Run in development mode with hot reload\n" ++
  "\t@air\n" ++
  "\n" ++
  "install-tools: ## Install development tools\n" ++
  "\t@go install github.com/golangci/golangci-lint/cmd/golangci-lint@latest\n" ++
  "\t@go install golang.org/x/tools/cmd/goimports@latest\n" ++
  "\t@go install github.com/cosmtrek/air@latest\n" ++
  "\n" ++
  "setup: install-tools deps ## Setup development environment\n" ++
  "\t@echo \"Development environment setup complete\"\n" ++
  "\n" ++
  "all: fmt lint test build ## Run all checks and build\n" ++
  "\n" ++
  ".DEFAULT_GOAL := help\n"

/-- The text `generateDockerfile` writes. -/
def dockerfileContent (config : Config) : String :=
  "# Build stage\n" ++
  "FROM golang:1.21-alpine AS builder\n" ++
  "\n" ++
  "WORKDIR /app\n" ++
  "\n" ++
  "# Install dependencies\n" ++
  "RUN apk add --no-cache git\n" ++
  "\n" ++
  "# Copy go mod files\n" ++
  "COPY go.mod go.sum ./\n" ++
  "RUN go mod download\n" ++
  "\n" ++
  "# Copy source code\n" ++
  "COPY . .\n" ++
  "\n" ++
  "# Build the application\n" ++
  "RUN CGO_ENABLED=0 GOOS=linux go build -a -installsuffix cgo -o main cmd/" ++ config.ProjectName ++ "/main.go\n" ++
  "\n" ++
  "# Final stage\n" ++
  "FROM alpine:latest\n" ++
  "\n" ++
  "RUN apk --no-cache add ca-certificates\n" ++
  "WORKDIR /root/\n" ++
  "\n" ++
  "# Copy the binary from builder stage\n" ++
  "COPY --from=builder /app/main .\n" ++
  "\n" ++
  "# Expose port\n" ++
  "EXPOSE 8080\n" ++
  "\n" ++
  "# Health check\n" ++
  "HEALTHCHECK --interval=30s --timeout=3s --start-period=5s --retries=3 \\\n" ++
  "  CMD wget --no-verbose --tries=1 --spider http://localhost:8080/health || exit 1\n" ++
  "\n" ++
  "# Run the binary\n" ++
  "CMD [\"./main\"]\n"

/-- The text `generateDockerCompose` writes. -/
def dockerComposeContent (config : Config) : String :=
  "version: '3.8'\n" ++
  "\n" ++
  "services:\n" ++
  "  app:\n" ++
  "    build: .\n" ++
  "    ports:\n" ++
  "      - \"8080:8080\"\n" ++
  "    environment:\n" ++
  "      - APP_ENV=development\n" ++
  "      - DB_HOST=postgres\n" ++
  "      - DB_PORT=5432\n" ++
  "      - DB_USER=postgres\n" ++
  "      - DB_PASSWORD=password\n" ++
  "      - DB_NAME=" ++ config.ProjectName ++ "_db\n" ++
  "      - REDIS_HOST=redis\n" ++
  "      - REDIS_PORT=6379\n" ++
  "    depends_on:\n" ++
  "      - postgres\n" ++
  "      - redis\n" ++
  "    restart: unless-stopped\n" ++
  "\n" ++
  "  postgres:\n" ++
  "    image: postgres:15-alpine\n" ++
  "    environment:\n" ++
  "      - POSTGRES_USER=postgres\n" ++
  "      - POSTGRES_PASSWORD=password\n" ++
  "      - POSTGRES_DB=" ++ config.ProjectName ++ "_db\n" ++
  "    ports:\n" ++
  "      - \"5432:5432\"\n" ++
  "    volumes:\n" ++
  "      - postgres_data:/var/lib/postgresql/data\n" ++
  "    restart: unless-stopped\n" ++
  "\n" ++
  "  redis:\n" ++
  "    image: redis:7-alpine\n" ++
  "    ports:\n" ++
  "      - \"6379:6379\"\n" ++
  "    volumes:\n" ++
  "      - redis_data:/data\n" ++
  "    restart: unless-stopped\n" ++
  "\n" ++
  "volumes:\n" ++
  "  postgres_data:\n" ++
  "  redis_data:\n"

/-- The text `generateDockerignore` writes. -/
def dockerignoreContent : String :=
  "# Git\n" ++
  ".git\n" ++
  ".gitignore\n" ++
  "\n" ++
  "# Documentation\n" ++
  "README.md\n" ++
  "CHANGELOG.md\n" ++
  "LICENSE\n" ++
  "\n" ++
  "# Development files\n" ++
  ".env\n" ++
  ".env.local\n" ++
  ".env.*.local\n" ++
  "\n" ++
  "# IDE files\n" ++
  ".vscode/\n" ++
  ".idea/\n" ++
  "*.swp\n" ++
  "*.swo\n" ++
  "\n" ++
  "# OS files\n" ++
  ".DS_Store\n" ++
  "Thumbs.db\n" ++
  "\n" ++
  "# Build artifacts\n" ++
  "bin/\n" ++
  "dist/\n" ++
  "build/\n" ++
  "\n" ++
  "# Test files\n" ++
  "coverage.out\n" ++
  "coverage.html\n" ++
  "\n" ++
  "# Temporary files\n" ++
  "tmp/\n" ++
  "temp/\n" ++
  "\n" ++
  "# Node modules (if any)\n" ++
  "node_modules/\n" ++
  "\n" ++
  "# Logs\n" ++
  "*.log\n" ++
  "logs/\n"

/-- Go `(*LicenseGenerator).generateMITLicense`. -/
def generateMITLicense (config : Config) (year : Int) : String :=
  "MIT License\n" ++
  "\n" ++
  "Copyright (c) " ++ toString year ++ " " ++ config.ProjectName ++ "\n" ++
  "\n" ++
  "Permission is hereby granted, free of charge, to any person obtaining a copy\n" ++
  "of this software and associated documentation files (the \"Software\"), to deal\n" ++
  "in the Software without restriction, including without limitation the rights\n" ++
  "to use, copy, modify, merge, publish, distribute, sublicense, and/or sell\n" ++
  "copies of the Software, and to permit persons to whom the Software is\n" ++
  "furnished to do so, subject to the following conditions:\n" ++
  "\n" ++
  "The above copyright notice and this permission notice shall be included in all\n" ++
  "copies or substantial portions of the Software.\n" ++
  "\n" ++
  "THE SOFTWARE IS PROVIDED \"AS IS\", WITHOUT WARRANTY OF ANY KIND, EXPRESS OR\n" ++
  "IMPLIED, INCLUDING BUT NOT LIMITED TO THE WARRANTIES OF MERCHANTABILITY,\n" ++
  "FITNESS FOR A PARTICULAR PURPOSE AND NONINFRINGEMENT. IN NO EVENT SHALL THE\n" ++
  "AUTHORS OR COPYRIGHT HOLDERS BE LIABLE FOR ANY CLAIM, DAMAGES OR OTHER\n" ++
  "LIABILITY, WHETHER IN AN ACTION OF CONTRACT, TORT OR OTHERWISE, ARISING FROM,\n" ++
  "OUT OF OR IN CONNECTION WITH THE SOFTWARE OR THE USE OR OTHER DEALINGS IN THE\n" ++
  "SOFTWARE.\n"

/-- Go `(*LicenseGenerator).generateApacheLicense`. -/
def generateApacheLicense (config : Config) (year : Int) : String :=
  "Apache License\n" ++
  "Version 2.0, January 2004\n" ++
  "http://www.apache.org/licenses/\n" ++
  "\n" ++
  "Copyright " ++ toString year ++ " " ++ config.ProjectName ++ "\n" ++
  "\n" ++
  "Licensed under the Apache License, Version 2.0 (the \"License\");\n" ++
  "you may not use this file except in compliance with the License.\n" ++
  "You may obtain a copy of the License at\n" ++
  "\n" ++
  "    http://www.apache.org/licenses/LICENSE-2.0\n" ++
  "\n" ++
  "Unless required by applicable law or agreed to in writing, software\n" ++
  "distributed under the License is distributed on an \"AS IS\" BASIS,\n" ++
  "WITHOUT WARRANTIES OR CONDITIONS OF ANY KIND, either express or implied.\n" ++
  "See the License for the specific language governing permissions and\n" ++
  "limitations under the License.\n"

/-- Go `(*LicenseGenerator).generateBSDLicense`. -/
def generateBSDLicense (config : Config) (year : Int) : String :=
  "BSD 3-Clause License\n" ++
  "\n" ++
  "Copyright (c) " ++ toString year ++ ", " ++ config.ProjectName ++ "\n" ++
  "All rights reserved.\n" ++
  "\n" ++
  "Redistribution and use in source and binary forms, with or without\n" ++
  "modification, are permitted provided that the following conditions are met:\n" ++
  "\n" ++
  "1. Redistributions of source code must retain the above copyright notice, this\n" ++
  "   list of conditions and the following disclaimer.\n" ++
  "\n" ++
  "2. Redistributions in binary form must reproduce the above copyright notice,\n" ++
  "   this list of conditions and the following disclaimer in the documentation\n" ++
  "   and/or other materials provided with the distribution.\n" ++
  "\n" ++
  "3. Neither the name of the copyright holder nor the names of its\n" ++
  "   contributors may be used to endorse or promote products derived from\n" ++
  "   this software without specific prior written permission.\n" ++
  "\n" ++
  "THIS SOFTWARE IS PROVIDED BY THE COPYRIGHT HOLDERS AND CONTRIBUTORS \"AS IS\"\n" ++
  "AND ANY EXPRESS OR IMPLIED WARRANTIES, INCLUDING, BUT NOT LIMITED TO, THE\n" ++
  "IMPLIED WARRANTIES OF MERCHANTABILITY AND FITNESS FOR A PARTICULAR PURPOSE ARE\n" ++
  "DISCLAIMED. IN NO EVENT SHALL THE COPYRIGHT HOLDER OR CONTRIBUTORS BE LIABLE\n" ++
  "FOR ANY DIRECT, INDIRECT, INCIDENTAL, SPECIAL, EXEMPLARY, OR CONSEQUENTIAL\n" ++
  "DAMAGES (INCLUDING, BUT NOT LIMITED TO, PROCUREMENT OF SUBSTITUTE GOODS OR\n" ++
  "SERVICES; LOSS OF USE, DATA, OR PROFITS; OR BUSINESS INTERRUPTION) HOWEVER\n" ++
  "CAUSED AND ON ANY THEORY OF LIABILITY, WHETHER IN CONTRACT, STRICT LIABILITY,\n" ++
  "OR TORT (INCLUDING NEGLIGENCE OR OTHERWISE) ARISING IN ANY WAY OUT OF THE USE\n" ++
  "OF THIS SOFTWARE, EVEN IF ADVISED OF THE POSSIBILITY OF SUCH DAMAGE.\n"

/-- Go `(*LicenseGenerator).generateGPLLicense`. -/
def generateGPLLicense (config : Config) (year : Int) : String :=
  "GNU GENERAL PUBLIC LICENSE\n" ++
  "Version 3, 29 June 2007\n" ++
  "\n" ++
  "Copyright (C) " ++ toString year ++ " " ++ config.ProjectName ++ "\n" ++
  "\n" ++
  "This program is free software: you can redistribute it and/or modify\n" ++
  "it under the terms of the GNU General Public License as published by\n" ++
  "the Free Software Foundation, either version 3 of the License, or\n" ++
  "(at your option) any later version.\n" ++
  "\n" ++
  "This program is distributed in the hope that it will be useful,\n" ++
  "but WITHOUT ANY WARRANTY; without even the implied warranty of\n" ++
  "MERCHANTABILITY or FITNESS FOR A PARTICULAR PURPOSE.  See the\n" ++
  "GNU General Public License for more details.\n" ++
  "\n" ++
  "You should have received a copy of the GNU General Public License\n" ++
  "along with this program.  If not, see <https://www.gnu.org/licenses/>.\n"

/-- Go `(*CommonFileGenerator).GenerateGoMod`. -/
def GenerateGoMod (config : Config) (projectPath : String) (fs : FS) : FS × Option String :=
  WriteFile fs (Join projectPath "go.mod") (goModContent config)

/-- Go `(*CommonFileGenerator).GenerateReadme`. -/
def GenerateReadme (config : Config) (projectPath : String) (fs : FS) : FS × Option String :=
  WriteFile fs (Join projectPath "README.md") (readmeContent config)

/-- Go `(*CommonFileGenerator).GenerateGitignore`. -/
def GenerateGitignore (_config : Config) (projectPath : String) (fs : FS) : FS × Option String :=
  WriteFile fs (Join projectPath ".gitignore") gitignoreContent

/-- Go `(*MakefileGenerator).Generate`. -/
def MakefileGenerator.Generate (config : Config) (projectPath : String) (fs : FS) :
    FS × Option String :=
  WriteFile fs (Join projectPath "Makefile") (makefileContent config)

/-- Go `(*DockerGenerator).generateDockerfile`. -/
def generateDockerfile (config : Config) (projectPath : String) (fs : FS) : FS × Option String :=
  WriteFile fs (Join projectPath "Dockerfile") (dockerfileContent config)

/-- Go `(*DockerGenerator).generateDockerCompose`. -/
def generateDockerCompose (config : Config) (projectPath : String) (fs : FS) :
    FS × Option String :=
  WriteFile fs (Join projectPath "docker-compose.yml") (dockerComposeContent config)

/-- Go `(*DockerGenerator).generateDockerignore`. -/
def generateDockerignore (_config : Config) (projectPath : String) (fs : FS) :
    FS × Option String :=
  WriteFile fs (Join projectPath ".dockerignore") dockerignoreContent

/-- Go `(*DockerGenerator).Generate`. -/
def DockerGenerator.Generate (config : Config) (projectPath : String) (fs : FS) :
    FS × Option String :=
  match generateDockerfile config projectPath fs with
  | (fs1, some err) => (fs1, some ("failed to generate Dockerfile: " ++ err))
  | (fs1, none) =>
    match generateDockerCompose config projectPath fs1 with
    | (fs2, some err) => (fs2, some ("failed to generate docker-compose.yml: " ++ err))
    | (fs2, none) =>
      match generateDockerignore config projectPath fs2 with
      | (fs3, some err) => (fs3, some ("failed to generate .dockerignore: " ++ err))
      | (fs3, none) => (fs3, none)

/-- The `switch` of `LicenseGenerator.Generate`: the text for a supported identifier. -/
def licenseContent (config : Config) (year : Int) : Option String :=
  if config.License = "MIT" then some (generateMITLicense config year)
  else if config.License = "Apache" then some (generateApacheLicense config year)
  else if config.License = "BSD" then some (generateBSDLicense config year)
  else if config.License = "GPL" then some (generateGPLLicense config year)
  else none

/-- Go `(*LicenseGenerator).Generate`. -/
def LicenseGenerator.Generate (env : Env) (config : Config) (projectPath : String) (fs : FS) :
    FS × Option String :=
  let year := env.year
  match licenseContent config year with
  | none => (fs, some ("unsupported license: " ++ config.License))
  | some content => WriteFile fs (Join projectPath "LICENSE") content

/-! ## `internal/generator/files.go` -/

/-- Go `generator.FileGenerator`.  Its five sub-generators each hold the same `config`
and `logger` and nothing else. -/
structure FileGenerator where
  config : Config
  logger : Logger
deriving DecidableEq

/-- Go `generator.NewFileGenerator`; its error is always `nil`. -/
def NewFileGenerator (config : Config) (logger : Logger) : Except String FileGenerator :=
  .ok { config := config, logger := logger }

/-- Go `(*FileGenerator).GenerateCommonFiles`. -/
def FileGenerator.GenerateCommonFiles (fg : FileGenerator) (projectPath : String) (fs : FS) :
    FS × Option String :=
  match GenerateGoMod fg.config projectPath fs with
  | (fs1, some err) => (fs1, some ("failed to generate go.mod: " ++ err))
  | (fs1, none) =>
    match GenerateReadme fg.config projectPath fs1 with
    | (fs2, some err) => (fs2, some ("failed to generate README.md: " ++ err))
    | (fs2, none) =>
      match GenerateGitignore fg.config projectPath fs2 with
      | (fs3, some err) => (fs3, some ("failed to generate .gitignore: " ++ err))
      | (fs3, none) => (fs3, none)

/-- The Docker step of `GenerateOptionalFiles`. -/
def FileGenerator.dockerStep (fg : FileGenerator) (projectPath : String) (fs : FS) :
    FS × Option String :=
  if fg.config.WithDocker then
    match DockerGenerator.Generate fg.config projectPath fs with
    | (fs1, some err) => (fs1, some ("failed to generate Docker files: " ++ err))
    | (fs1, none) => (fs1, none)
  else (fs, none)

/-- The license step of `GenerateOptionalFiles`. -/
def FileGenerator.licenseStep (fg : FileGenerator) (env : Env) (projectPath : String) (fs : FS) :
    FS × Option String :=
  if fg.config.License ≠ "None" ∧ fg.config.License ≠ "" then
    match LicenseGenerator.Generate env fg.config projectPath fs with
    | (fs1, some err) => (fs1, some ("failed to generate license: " ++ err))
    | (fs1, none) => (fs1, none)
  else (fs, none)

/-- The git step of `GenerateOptionalFiles`. -/
def FileGenerator.gitStep (fg : FileGenerator) (env : Env) (projectPath : String) (fs : FS) :
    FS × Option String :=
  if fg.config.WithGit then
    match env.gitInitialize fg.config projectPath fs with
    | (fs1, some err) => (fs1, some ("failed to initialize git repository: " ++ err))
    | (fs1, none) => (fs1, none)
  else (fs, none)

/-- Go `(*FileGenerator).GenerateOptionalFiles`. -/
def FileGenerator.GenerateOptionalFiles (fg : FileGenerator) (env : Env) (projectPath : String)
    (fs : FS) : FS × Option String :=
  match MakefileGenerator.Generate fg.config projectPath fs with
  | (fs1, some err) => (fs1, some ("failed to generate Makefile: " ++ err))
  | (fs1, none) =>
    match fg.dockerStep projectPath fs1 with
    | (fs2, some err) => (fs2, some err)
    | (fs2, none) =>
      match fg.licenseStep env projectPath fs2 with
      | (fs3, some err) => (fs3, some err)
      | (fs3, none) => fg.gitStep env projectPath fs3

/-! ## `internal/generator/generator.go` -/

/-- Go `generator.Generator`. -/
structure Generator where
  config : Config
  logger : Logger
  arch : Architecture
  fileGen : FileGenerator
deriving DecidableEq

/-- Go `generator.createArchitecture`. -/
def createArchitecture (env : Env) (archType : String) : Outcome Architecture :=
  if archType = "hexagonal" then
    match NewHexagonalArchitecture env with
    | .ok h => .ok (.hexagonal h)
    | .error e => .error e
    | .panic e => .panic e
  else if archType = "clean" then
    match NewCleanArchitecture env with
    | .ok c => .ok (.clean c)
    | .error e => .error e
    | .panic e => .panic e
  else if archType = "mvc" then
    match NewMVCArchitecture env with
    | .ok m => .ok (.mvc m)
    | .error e => .error e
    | .panic e => .panic e
  else if archType = "basic" then
    match NewBasicArchitecture env with
    | .ok b => .ok (.basic b)
    | .error e => .error e
    | .panic e => .panic e
  else .error ("unsupported architecture: " ++ archType)

/-- Go `generator.New`; a `nil` pointer argument is `none`. -/
def New (env : Env) (config : Option Config) (logger : Option Logger) : Outcome Generator :=
  match config with
  | none => .error "config cannot be nil"
  | some config =>
    match logger with
    | none => .error "logger cannot be nil"
    | some logger =>
      match createArchitecture env config.Architecture with
      | .panic e => .panic e
      | .error err => .error ("failed to create architecture: " ++ err)
      | .ok arch =>
        match NewFileGenerator config logger with
        | .error err => .error ("failed to create file generator: " ++ err)
        | .ok fileGen =>
          .ok { config := config, logger := logger, arch := arch, fileGen := fileGen }

/-- The `range` loop of `generateStructure` over `structure.Directories`. -/
def createDirectories (projectPath : String) : FS → List String → FS × Option String
  | fs, [] => (fs, none)
  | fs, dir :: rest =>
    let dirPath := Join projectPath dir
    match MkdirAll fs dirPath with
    | (fs1, some err) => (fs1, some ("failed to create directory " ++ dir ++ ": " ++ err))
    | (fs1, none) => createDirectories projectPath fs1 rest

/-- Go `(*Generator).generateStructure`. -/
def Generator.generateStructure (g : Generator) (projectPath : String) (fs : FS) :
    FS × Option String :=
  let structure_ := g.arch.GetStructure
  createDirectories projectPath fs structure_.Directories

/-- Go `(*Generator).Generate`. -/
def Generator.Generate (g : Generator) (env : Env) (ord : MapOrder) (fs : FS) :
    FS × Option String :=
  let projectPath := Join g.config.TargetDir g.config.ProjectName
  match MkdirAll fs projectPath with
  | (fs1, some err) => (fs1, some ("failed to create project directory: " ++ err))
  | (fs1, none) =>
    match g.generateStructure projectPath fs1 with
    | (fs2, some err) => (fs2, some ("failed to generate structure: " ++ err))
    | (fs2, none) =>
      match g.arch.GenerateFiles env ord projectPath g.config fs2 with
      | (fs3, some err) => (fs3, some ("failed to generate architecture files: " ++ err))
      | (fs3, none) =>
        match g.fileGen.GenerateCommonFiles projectPath fs3 with
        | (fs4, some err) => (fs4, some ("failed to generate common files: " ++ err))
        | (fs4, none) =>
          match g.fileGen.GenerateOptionalFiles env projectPath fs4 with
          | (fs5, some err) => (fs5, some ("failed to generate optional files: " ++ err))
          | (fs5, none) => (fs5, none)

/-! ## `internal/cli`: flags and validation -/

/-- The package-level flag variables of `internal/cli/root.go`. -/
structure Flags where
  architecture : String
  autoYes : Bool
  targetDir : String
  withDocker : Bool
  withMakefile : Bool
  withGit : Bool
  interactive : Bool
  license : String
  verbose : Bool
deriving DecidableEq

/-- Go `cli.availableArchs`. -/
def availableArchs : List String := ["hexagonal", "clean", "mvc", "basic"]

/-- Go `cli.goKeywords` (the keys; every value is `true`). -/
def goKeywords : List String :=
  ["break", "case", "chan", "const", "continue", "default", "defer", "else", "fallthrough",
   "for", "func", "go", "goto", "if", "import", "interface", "map", "package", "range",
   "return", "select", "struct", "switch", "type", "var"]

/-- Go `unicode.ToLower` as far as ASCII results go: the ASCII capitals, and the two other
runes whose lower case is an ASCII letter (U+0130 and the Kelvin sign U+212A).  Every
other rune is left as it is; its lower case is not ASCII either. -/
def toLowerRune (c : Char) : Char :=
  if 'A' ≤ c ∧ c ≤ 'Z' then Char.ofNat (c.toNat + 32)
  else if c.toNat = 0x130 then 'i'
  else if c.toNat = 0x212A then 'k'
  else c

/-- Go `strings.ToLower`. -/
def ToLower (s : String) : String := String.mk (s.data.map toLowerRune)

/-- The class `[a-zA-Z]`. -/
def isLetter (c : Char) : Bool := ('a' ≤ c && c ≤ 'z') || ('A' ≤ c && c ≤ 'Z')

/-- The class `[a-zA-Z0-9]`. -/
def isAlnum (c : Char) : Bool := isLetter c || ('0' ≤ c && c ≤ '9')

/-- The class `[a-zA-Z0-9._/\-]`. -/
def isNameChar (c : Char) : Bool := isAlnum c || c = '.' || c = '_' || c = '/' || c = '-'

/-- The language of `[a-zA-Z0-9._/\-]*[a-zA-Z0-9]$`: some name characters, then one final
alphanumeric. -/
def matchTail : List Char → Bool
  | [] => false
  | [c] => isAlnum c
  | c :: rest => isNameChar c && matchTail rest

/-- Go `moduleNameRegex.MatchString`, for the pattern
`^[a-zA-Z][a-zA-Z0-9._/\-]*[a-zA-Z0-9]$`. -/
def moduleNameRegexMatch (name : String) : Bool :=
  match name.data with
  | [] => false
  | c :: rest => isLetter c && matchTail rest

/-- Go `cli.validateProjectName`. -/
def validateProjectName (name : String) : Option String :=
  if name = "" then some "project name cannot be empty"
  else if name.utf8ByteSize < 2 then some "project name must be at least 2 characters long"
  else if name.utf8ByteSize > 100 then some "project name must be less than 100 characters"
  else if ToLower name ∈ goKeywords then
    some ("project name cannot be a Go keyword: " ++ name)
  else if !moduleNameRegexMatch name then
    some ("invalid project name: " ++ name ++
      ". Must contain only letters, numbers, dots, underscores, and hyphens")
  else if HasPrefix name "." || HasSuffix name "." then
    some "project name cannot start or end with a dot"
  else if HasPrefix name "-" || HasSuffix name "-" then
    some "project name cannot start or end with a hyphen"
  else none

/-- Go `fmt.Sprintf("%v", xs)` for a slice of strings. -/
def formatSlice (xs : List String) : String := "[" ++ " ".intercalate xs ++ "]"

/-- Go `cli.validateArchitecture`. -/
def validateArchitecture (fl : Flags) : Option String :=
  if availableArchs.any (fun arch => arch = fl.architecture) then none
  else some ("invalid architecture: " ++ fl.architecture ++ ". Available: " ++
    formatSlice availableArchs)

/-- Go `os.Remove` of a regular file, its result ignored. -/
def removeFile (fs : FS) (name : String) : FS :=
  { fs with files := fs.files.filter (fun kv => kv.1 ≠ name) }

/-- Whether `p` is `root` or lies below it. -/
def isUnder (root p : String) : Bool := p = root || HasPrefix p (root ++ "/")

/-- Go `os.RemoveAll`: remove `path` and everything below it. -/
def RemoveAll (fs : FS) (path : String) : FS × Option String :=
  if path ∈ fs.denied then (fs, some ("unlinkat " ++ path ++ ": permission denied"))
  else
    ({ fs with
        dirs := fs.dirs.filter (fun d => !isUnder path d)
        files := fs.files.filter (fun kv => !isUnder path kv.1) }, none)

/-- Go `cli.validateTargetDirectory`: it may set the `targetDir` flag, and it probes the
directory by creating and removing the file `.gomake_test`.  Of the errors of `os.Stat`
only `ENOENT` satisfies `os.IsNotExist`; after any other result the probe is made. -/
def validateTargetDirectory (fl : Flags) (fs : FS) : Flags × FS × Option String :=
  if fl.targetDir = "" then ({ fl with targetDir := "." }, fs, none)
  else if Stat fs fl.targetDir = .notExist then
    (fl, fs, some ("target directory does not exist: " ++ fl.targetDir))
  else
    let testFile := Join fl.targetDir ".gomake_test"
    match WriteFile fs testFile "" with
    | (fs1, some _) => (fl, fs1, some ("target directory is not writable: " ++ fl.targetDir))
    | (fs1, none) => (fl, removeFile fs1 testFile, none)

/-- Go `strings.TrimSpace`. -/
def TrimSpace (s : String) : String :=
  String.mk ((s.data.dropWhile isSpace).reverse.dropWhile isSpace).reverse

/-- Go `fmt.Scanln(&response)` on standard input, the list of the lines still to be read:
the word it stores and the input it leaves.  It skips the blanks at the start of the line
and stores the characters up to the next blank; then it reads on to the end of the line,
and the first character there that is no blank ends the call with an error, that
character read and the rest of the line left in the input.  On an empty line it reads
the line and stores nothing, and so it does at the end of the input.  (The caller ignores
the error.) -/
def Scanln (stdin : List String) : String × List String :=
  match stdin with
  | [] => ("", [])
  | line :: rest =>
    let body := line.data.dropWhile isSpace
    if body = [] then ("", rest)
    else
      match (body.dropWhile (fun c => !isSpace c)).dropWhile isSpace with
      | [] => (String.mk (body.takeWhile (fun c => !isSpace c)), rest)
      | _ :: left =>
        (String.mk (body.takeWhile (fun c => !isSpace c)), String.mk left :: rest)

/-- Go `cli.checkProjectExists`.  Standard input is the list of the lines still to be
read. -/
def checkProjectExists (fl : Flags) (projectName : String) (stdin : List String) (fs : FS) :
    List String × FS × Option String :=
  let projectPath := Join fl.targetDir projectName
  if pathExists fs projectPath then
    if fl.autoYes then (stdin, fs, none)
    else
      let scanned := Scanln stdin
      let response := ToLower (TrimSpace scanned.1)
      if response ≠ "y" ∧ response ≠ "yes" then
        (scanned.2, fs, some "project creation cancelled")
      else
        match RemoveAll fs projectPath with
        | (fs1, some err) =>
          (scanned.2, fs1, some ("failed to remove existing directory: " ++ err))
        | (fs1, none) => (scanned.2, fs1, none)
  else (stdin, fs, none)

/-- Go `cli.validateInputs`: the flags, standard input and the filesystem it leaves, and
its error. -/
def validateInputs (fl : Flags) (projectName : String) (stdin : List String) (fs : FS) :
    Flags × List String × FS × Option String :=
  match validateProjectName projectName with
  | some err => (fl, stdin, fs, some err)
  | none =>
    match validateArchitecture fl with
    | some err => (fl, stdin, fs, some err)
    | none =>
      match validateTargetDirectory fl fs with
      | (fl1, fs1, some err) => (fl1, stdin, fs1, some err)
      | (fl1, fs1, none) =>
        match checkProjectExists fl1 projectName stdin fs1 with
        | (stdin1, fs2, some err) => (fl1, stdin1, fs2, some err)
        | (stdin1, fs2, none) => (fl1, stdin1, fs2, none)

/-- The `generator.Config` that `runProjectCommand` builds from the flags. -/
def configOfFlags (fl : Flags) (projectName : String) : Config :=
  { ProjectName := projectName
    Architecture := fl.architecture
    TargetDir := fl.targetDir
    WithDocker := fl.withDocker
    WithMakefile := fl.withMakefile
    WithGit := fl.withGit
    License := fl.license
    AutoYes := fl.autoYes }

/-- The last part of `runProjectCommand`: `generator.New(config, log)`, and `gen.Generate()`
on the generator it returned. -/
def createAndGenerate (env : Env) (ord : MapOrder) (config : Option Config)
    (logger : Option Logger) (fs : FS) : FS × Outcome Unit :=
  match New env config logger with
  | .panic e => (fs, .panic e)
  | .error err => (fs, .error ("failed to create generator: " ++ err))
  | .ok gen =>
    match gen.Generate env ord fs with
    | (fs1, some err) => (fs1, .error ("failed to generate project: " ++ err))
    | (fs1, none) => (fs1, .ok ())

/-! ## `internal/generator/config.go` -/

/-- Go `generator.TemplateConfig`. -/
structure TemplateConfig where
  Name : String
  Description : String
  Directories : List String
  Files : List (String × String)
  Dependencies : List String
  Variables : List (String × String)
deriving DecidableEq

/-- The anonymous struct type of `ConfigFile.Defaults`. -/
structure ConfigDefaults where
  Architecture : String
  License : String
  WithDocker : Bool
  WithMakefile : Bool
  WithGit : Bool
deriving DecidableEq

/-- Go `generator.ConfigFile`. -/
structure ConfigFile where
  Templates : List TemplateConfig
  Defaults : ConfigDefaults
deriving DecidableEq

/-- What `LoadConfig` takes from outside the repository. -/
structure ConfigEnv where
  /-- The environment variable: `os.Getenv("HOME")`. -/
  home : String
  /-- The YAML library: `yaml.Unmarshal(data, &config)` on a zero `ConfigFile`, giving the
  filled value or the error. -/
  unmarshal : String → Except String ConfigFile

/-- Go `filepath.Join` of any number of elements. -/
def JoinAll : List String → String
  | [] => ""
  | e :: rest => if e ≠ "" then Clean ("/".intercalate (e :: rest)) else JoinAll rest

/-- Go `os.ReadFile`. -/
def ReadFile (fs : FS) (name : String) : Except String String :=
  match readFile fs name with
  | some data => .ok data
  | none =>
    if isDir fs name then .error ("read " ++ name ++ ": is a directory")
    else .error ("open " ++ name ++ ": no such file or directory")

/-- Go `generator.getDefaultConfig`. -/
def getDefaultConfig : ConfigFile :=
  { Templates := []
    Defaults :=
      { Architecture := "basic", License := "MIT", WithDocker := false, WithMakefile := false,
        WithGit := false } }

/-- Go `generator.loadConfigFromFile`. -/
def loadConfigFromFile (cenv : ConfigEnv) (fs : FS) (path : String) : Except String ConfigFile :=
  match ReadFile fs path with
  | .error err => .error ("failed to read config file " ++ path ++ ": " ++ err)
  | .ok data =>
    match cenv.unmarshal data with
    | .error err => .error ("failed to parse config file " ++ path ++ ": " ++ err)
    | .ok config => .ok config

/-- The `configPaths` literal of `LoadConfig`. -/
def configPaths (cenv : ConfigEnv) : List String :=
  [".gomake.yml", ".gomake.yaml", JoinAll [cenv.home, ".gomake.yml"],
   JoinAll [cenv.home, ".config", "gomake", "config.yml"]]

/-- The `range` loop of `LoadConfig` over `configPaths`, and the default it falls back to. -/
def loadFirstConfig (cenv : ConfigEnv) (fs : FS) : List String → Except String ConfigFile
  | [] => .ok getDefaultConfig
  | path :: rest =>
    if pathExists fs path then loadConfigFromFile cenv fs path
    else loadFirstConfig cenv fs rest

/-- Go `generator.LoadConfig`. -/
def LoadConfig (cenv : ConfigEnv) (fs : FS) : Except String ConfigFile :=
  loadFirstConfig cenv fs (configPaths cenv)

/-! ## `internal/cli/interactive.go` and `runProjectCommand` -/

/-- Go `reader.ReadString('\n')` on standard input, the list of the lines still to be
read: the next line with its newline, or the error `EOF`. -/
def ReadString (stdin : List String) : List String × Except String String :=
  match stdin with
  | [] => ([], .error "EOF")
  | line :: rest => (rest, .ok (line ++ "\n"))

/-- The value of a string of decimal digits, if it is one. -/
def parseDigits (cs : List Char) : Option Nat :=
  if cs ≠ [] ∧ cs.all (fun c => '0' ≤ c && c ≤ '9') then
    some (cs.foldl (fun n c => 10 * n + (c.toNat - '0'.toNat)) 0)
  else none

/-- Go `strconv.Atoi` on a 64-bit platform: an optional sign, decimal digits, and a value
in the range of `int`. -/
def Atoi (s : String) : Option Int :=
  let signed : Option Int :=
    match s.data with
    | '+' :: ds => (parseDigits ds).map (fun n => (n : Int))
    | '-' :: ds => (parseDigits ds).map (fun n => -(n : Int))
    | ds => (parseDigits ds).map (fun n => (n : Int))
  match signed with
  | some v => if -(2 : Int) ^ 63 ≤ v ∧ v < (2 : Int) ^ 63 then some v else none
  | none => none

/-- Go `cli.askConfirmation`. -/
def askConfirmation (stdin : List String) : List String × Bool :=
  match ReadString stdin with
  | (rest, .error _) => (rest, false)
  | (rest, .ok response) =>
    let response := ToLower (TrimSpace response)
    (rest, response = "y" || response = "yes")

/-- The choice `runInteractiveMode` makes from a numbered menu: the entry at the number
typed, or `fallback` when the line is no number of the menu. -/
def menuChoice (menu : List String) (fallback : String) (line : String) : String :=
  match Atoi (TrimSpace line) with
  | none => fallback
  | some n => if n < 1 ∨ n > menu.length then fallback else menu.getD (n - 1).toNat fallback

/-- Go `cli.runInteractiveMode`: the flags and the project name it leaves, the input left,
and its error. -/
def runInteractiveMode (fl : Flags) (projectName : String) (stdin : List String) :
    Flags × String × List String × Option String :=
  let named : List String × Except String String :=
    if projectName = "" then
      match ReadString stdin with
      | (rest, .error err) => (rest, .error err)
      | (rest, .ok name) => (rest, .ok (TrimSpace name))
    else
      match askConfirmation stdin with
      | (rest, true) => (rest, .ok projectName)
      | (rest, false) =>
        match ReadString rest with
        | (rest1, .error err) => (rest1, .error err)
        | (rest1, .ok name) => (rest1, .ok (TrimSpace name))
  match named with
  | (rest, .error err) => (fl, projectName, rest, some err)
  | (rest, .ok name) =>
    match ReadString rest with
    | (rest1, .error err) => (fl, name, rest1, some err)
    | (rest1, .ok choice) =>
      let fl1 := { fl with architecture := menuChoice availableArchs "basic" choice }
      let (rest2, docker) := askConfirmation rest1
      let (rest3, makefile) := askConfirmation rest2
      let (rest4, git) := askConfirmation rest3
      let fl2 := { fl1 with withDocker := docker, withMakefile := makefile, withGit := git }
      let licenses := ["MIT", "Apache", "BSD", "GPL", "None"]
      match ReadString rest4 with
      | (rest5, .error err) => (fl2, name, rest5, some err)
      | (rest5, .ok licChoice) =>
        ({ fl2 with license := menuChoice licenses "MIT" licChoice }, name, rest5, none)

/-- The flag values `init` registers as defaults: what the flag variables hold when the
command line sets none of them. -/
def defaultFlags : Flags :=
  { architecture := "basic", autoYes := false, targetDir := ".", withDocker := false,
    withMakefile := false, withGit := false, interactive := false, license := "MIT",
    verbose := false }

/-- The part of `runProjectCommand` up to the composite literal `&generator.Config{...}`:
validation, the interactive mode, and the config built from the flag variables. -/
def buildProjectConfig (fl : Flags) (projectName : String) (stdin : List String) (fs : FS) :
    Flags × List String × FS × Except String Config :=
  match validateInputs fl projectName stdin fs with
  | (fl1, stdin1, fs1, some err) => (fl1, stdin1, fs1, .error ("validation failed: " ++ err))
  | (fl1, stdin1, fs1, none) =>
    if fl1.interactive then
      match runInteractiveMode fl1 projectName stdin1 with
      | (fl2, _, stdin2, some err) =>
        (fl2, stdin2, fs1, .error ("interactive mode failed: " ++ err))
      | (fl2, name, stdin2, none) => (fl2, stdin2, fs1, .ok (configOfFlags fl2 name))
    else (fl1, stdin1, fs1, .ok (configOfFlags fl1 projectName))

/-- Go `cli.runProjectCommand`, for `args[0] = projectName`; the logger is the one
`PersistentPreRun` has set. -/
def runProjectCommand (env : Env) (ord : MapOrder) (fl : Flags) (projectName : String)
    (stdin : List String) (fs : FS) : FS × Outcome Unit :=
  match buildProjectConfig fl projectName stdin fs with
  | (_, _, fs1, .error err) => (fs1, .error err)
  | (fl1, _, fs1, .ok config) =>
    createAndGenerate env ord (some config) (some { verbose := fl1.verbose }) fs1

/-! ## Vocabulary of the statements -/

/-- The four names `createArchitecture` knows. -/
def knownArchitectures : List String := ["hexagonal", "clean", "mvc", "basic"]

/-- The keys of a Go map. -/
def mapKeys {V : Type} (m : List (String × V)) : List String := m.map Prod.fst

/-- The entries `loadTemplates` treats as templates: not a directory, path ending in
`.tmpl`. -/
def isTemplateEntry (e : WalkEntry) : Bool := !e.isDir && HasSuffix e.path ".tmpl"

/-- The asset of entry `e` is read from the bundle and parsed without error. -/
def readsAndParses (env : Env) (e : WalkEntry) : Prop :=
  ∃ content, env.readFile e.path = .ok content ∧
    env.parseError (templateNameOf e.path) content = none

/-- Reading the asset of entry `e` fails, or parsing what was read fails. -/
def readOrParseFails (env : Env) (e : WalkEntry) : Prop :=
  (∃ err, env.readFile e.path = .error err) ∨
  (∃ content err, env.readFile e.path = .ok content ∧
    env.parseError (templateNameOf e.path) content = some err)

/-- A path with its proper ancestors: the directories `MkdirAll path` may create. -/
def ancestorsOrSelf (path : String) : List String := parents path ++ [path]

/-- The four identifiers `LicenseGenerator.Generate` knows. -/
def supportedLicenses : List String := ["MIT", "Apache", "BSD", "GPL"]

/-- The title line of each supported license. -/
def licenseTitle (id : String) : String :=
  if id = "MIT" then "MIT License"
  else if id = "Apache" then "Apache License"
  else if id = "BSD" then "BSD 3-Clause License"
  else "GNU GENERAL PUBLIC LICENSE"

/-- The copyright line of each supported license: the year, then the project name. -/
def copyrightLine (id : String) (year : Int) (name : String) : String :=
  if id = "MIT" then "Copyright (c) " ++ toString year ++ " " ++ name ++ "\n"
  else if id = "Apache" then "Copyright " ++ toString year ++ " " ++ name ++ "\n"
  else if id = "BSD" then "Copyright (c) " ++ toString year ++ ", " ++ name ++ "\n"
  else "Copyright (C) " ++ toString year ++ " " ++ name ++ "\n"

/-- A path element that `Clean` keeps: not empty, not `.`, not `..`. -/
def plainName (n : String) : Bool := n.data ≠ [] && n.data ≠ ['.'] && n.data ≠ ['.', '.']

/-- The last element of the slash-separated path `k` is `n`. -/
def lastElementIs (k n : String) : Prop := (splitOnSlash k.data).getLast? = some n.data

/-- The names of the files the emitters write directly under the project root. -/
def topLevelNames : List String :=
  ["go.mod", "README.md", ".gitignore", "Makefile", "Dockerfile", "docker-compose.yml",
   ".dockerignore", "LICENSE"]

/-- The last elements of the output paths of the four `GenerateFiles`. -/
def architectureFileNames : List String :=
  ["main.go", ".env", "cache.go", "logger.go", "utils.go", "database.go", "config.go"]

/-- The step from `fs` to `fs1` creates no directory and leaves every file outside
`paths` as it was. -/
def OnlyWrites (fs fs1 : FS) (paths : List String) : Prop :=
  fs1.dirs = fs.dirs ∧ fs1.denied = fs.denied ∧ ∀ x, x ∉ paths → readFile fs1 x = readFile fs x

/-- The directories of `fs` that lie strictly below `root`. -/
def dirsBelow (fs : FS) (root : String) : List String :=
  fs.dirs.filter (fun d => HasPrefix d (root ++ "/"))

/-- The paths of the directories an architecture declares, under `root`. -/
def declaredDirs (a : Architecture) (root : String) : List String :=
  a.GetStructure.Directories.map (Join root)

/-- The license identifiers with which generation can succeed: the four supported ones,
and the two that switch license emission off. -/
def acceptedLicenses : List String := ["MIT", "Apache", "BSD", "GPL", "None", ""]

/-- The error `Generate` returns when license emission refuses the identifier `id`. -/
def unsupportedLicenseError (id : String) : String :=
  "failed to generate optional files: failed to generate license: unsupported license: " ++ id

/-- The names of the three files the Docker emitter writes. -/
def dockerFileNames : List String := ["Dockerfile", "docker-compose.yml", ".dockerignore"]

/-- The steps of `GenerateOptionalFiles` that precede its git step: the Makefile, Docker
and license steps, with the state and the error they end in. -/
def FileGenerator.optionalFilesBeforeGit (fg : FileGenerator) (env : Env) (projectPath : String)
    (fs : FS) : FS × Option String :=
  match MakefileGenerator.Generate fg.config projectPath fs with
  | (fs1, some err) => (fs1, some ("failed to generate Makefile: " ++ err))
  | (fs1, none) =>
    match fg.dockerStep projectPath fs1 with
    | (fs2, some err) => (fs2, some err)
    | (fs2, none) => fg.licenseStep env projectPath fs2

/-- `GenerateOptionalFiles` with the license step taken out. -/
def FileGenerator.GenerateOptionalFilesWithoutLicense (fg : FileGenerator) (env : Env)
    (projectPath : String) (fs : FS) : FS × Option String :=
  match MakefileGenerator.Generate fg.config projectPath fs with
  | (fs1, some err) => (fs1, some ("failed to generate Makefile: " ++ err))
  | (fs1, none) =>
    match fg.dockerStep projectPath fs1 with
    | (fs2, some err) => (fs2, some err)
    | (fs2, none) => fg.gitStep env projectPath fs2

/-- The flags `validateTargetDirectory` leaves: an empty target directory becomes `.`. -/
def withTargetDir (fl : Flags) : Flags :=
  { fl with targetDir := if fl.targetDir = "" then "." else fl.targetDir }

/-- One phase of a run: from a state to the state it leaves, with its error. -/
abbrev Step := FS → FS × Option String

/-- Run the phases in the order listed; the first error ends the run in the state that
phase left. -/
def runSteps : List Step → FS → FS × Option String
  | [], fs => (fs, none)
  | f :: rest, fs =>
    match f fs with
    | (fs1, some err) => (fs1, some err)
    | (fs1, none) => runSteps rest fs1

/-- A phase whose error is wrapped as `fmt.Errorf(name + ": %w", err)`. -/
def named (name : String) (f : Step) : Step := fun fs =>
  match f fs with
  | (fs1, some err) => (fs1, some (name ++ ": " ++ err))
  | (fs1, none) => (fs1, none)

/-- The phases of `Generate` in the order the statement lists them, each under the
message that names it. -/
def Generator.phases (g : Generator) (env : Env) (ord : MapOrder) : List Step :=
  let projectPath := Join g.config.TargetDir g.config.ProjectName
  [named "failed to create project directory" (fun fs => MkdirAll fs projectPath),
   named "failed to generate structure" (g.generateStructure projectPath),
   named "failed to generate architecture files"
     (g.arch.GenerateFiles env ord projectPath g.config),
   named "failed to generate common files" (g.fileGen.GenerateCommonFiles projectPath),
   named "failed to generate optional files" (g.fileGen.GenerateOptionalFiles env projectPath)]

/-- The steps of `GenerateCommonFiles` in the order the statement lists them. -/
def FileGenerator.commonSteps (fg : FileGenerator) (projectPath : String) : List Step :=
  [named "failed to generate go.mod" (GenerateGoMod fg.config projectPath),
   named "failed to generate README.md" (GenerateReadme fg.config projectPath),
   named "failed to generate .gitignore" (GenerateGitignore fg.config projectPath)]

/-- The steps of `GenerateOptionalFiles` in the order the statement lists them. -/
def FileGenerator.optionalSteps (fg : FileGenerator) (env : Env) (projectPath : String) :
    List Step :=
  [named "failed to generate Makefile" (MakefileGenerator.Generate fg.config projectPath),
   fg.dockerStep projectPath, fg.licenseStep env projectPath, fg.gitStep env projectPath]

/-- Nothing of `fs` is removed in `fs1`: every directory and every file is still there. -/
def Grows (fs fs1 : FS) : Prop :=
  fs.dirs ⊆ fs1.dirs ∧ ∀ x, isFile fs x = true → isFile fs1 x = true

/-- A filesystem operation of a run, or the point at which the run gives up before
touching the filesystem. -/
inductive Op where
  | mkdir (path : String)
  | write (name data : String)
  | abort
deriving DecidableEq

/-- What an operation does to a state. -/
def Op.run : Op → FS → FS × Option String
  | .mkdir path, fs => MkdirAll fs path
  | .write name data, fs => WriteFile fs name data
  | .abort, fs => (fs, some "aborted")

/-- Run the operations in order, stopping at the first failure. -/
def runOps : List Op → FS → FS × Option String
  | [], fs => (fs, none)
  | op :: rest, fs =>
    match op.run fs with
    | (fs1, some err) => (fs1, some err)
    | (fs1, none) => runOps rest fs1

/-- The file an operation writes, if it writes one. -/
def Op.writeName : Op → Option String
  | .write name _ => some name
  | _ => none

/-- The files a list of operations writes. -/
def writeNames (ops : List Op) : List String := ops.filterMap Op.writeName

/-- The directories a list of operations may create. -/
def mkdirTargets : List Op → List String
  | [] => []
  | .mkdir path :: rest => ancestorsOrSelf path ++ mkdirTargets rest
  | _ :: rest => mkdirTargets rest

/-- The state `fs1` comes after `fs` in a run: the same refusals, nothing removed, no
directory put where a file was, and no file changed where a directory was. -/
def Extends (fs fs1 : FS) : Prop :=
  fs1.denied = fs.denied ∧ fs.dirs ⊆ fs1.dirs ∧
  (∀ d ∈ fs1.dirs, d ∈ fs.dirs ∨ isFile fs d = false) ∧
  (∀ x, isFile fs x = true → isFile fs1 x = true) ∧
  (∀ x, readFile fs1 x = readFile fs x ∨ isDir fs x = false)

/-- The operation has nothing left to do in `fs`: run there, it succeeds and changes
nothing. -/
def Settled (fs : FS) : Op → Prop
  | .mkdir path => path ≠ "" ∧ ∀ q ∈ ancestorsOrSelf path, isDir fs q = true
  | .write name data =>
    isDir fs name = false ∧ isFile fs (Dir name) = false ∧ isDir fs (Dir name) = true ∧
    name ∉ fs.denied ∧ readFile fs name = some data
  | .abort => False

/-- Two states hold the same file tree: the same directories, and the same files with the
same contents. -/
def SameTree (fs fs1 : FS) : Prop :=
  (∀ d, isDir fs d = isDir fs1 d) ∧ ∀ x, readFile fs x = readFile fs1 x

/-- The two results end in the same state, and both succeed or both fail. -/
def Agree (r r1 : FS × Option String) : Prop := r.1 = r1.1 ∧ (r.2 = none ↔ r1.2 = none)

/-- The operations of one round of the loop of `renderAndWriteFiles`. -/
def entryOps (env : Env) (tm : TemplateManager) (projectPath : String) (data : TemplateData)
    (kv : String × String) : List Op :=
  match RenderTemplate env tm kv.2 data with
  | (_, some _) => [.abort]
  | (content, none) =>
    [.mkdir (Dir (Join projectPath kv.1)), .write (Join projectPath kv.1) content]

/-- The operations of the loop of `renderAndWriteFiles` over the entries given. -/
def renderOps (env : Env) (tm : TemplateManager) (projectPath : String) (data : TemplateData) :
    List (String × String) → List Op
  | [] => []
  | kv :: rest =>
    entryOps env tm projectPath data kv ++ renderOps env tm projectPath data rest

/-- The operations of `GenerateCommonFiles`. -/
def commonOps (fg : FileGenerator) (projectPath : String) : List Op :=
  [.write (Join projectPath "go.mod") (goModContent fg.config),
   .write (Join projectPath "README.md") (readmeContent fg.config),
   .write (Join projectPath ".gitignore") gitignoreContent]

/-- The operations of the Docker step. -/
def dockerOps (fg : FileGenerator) (projectPath : String) : List Op :=
  if fg.config.WithDocker then
    [.write (Join projectPath "Dockerfile") (dockerfileContent fg.config),
     .write (Join projectPath "docker-compose.yml") (dockerComposeContent fg.config),
     .write (Join projectPath ".dockerignore") dockerignoreContent]
  else []

/-- The operations of the license step. -/
def licenseOps (fg : FileGenerator) (env : Env) (projectPath : String) : List Op :=
  if fg.config.License ≠ "None" ∧ fg.config.License ≠ "" then
    match licenseContent fg.config env.year with
    | some body => [.write (Join projectPath "LICENSE") body]
    | none => [.abort]
  else []

/-- The operations of `GenerateOptionalFiles` before its git step. -/
def optionalOps (fg : FileGenerator) (env : Env) (projectPath : String) : List Op :=
  [.write (Join projectPath "Makefile") (makefileContent fg.config)] ++
    (dockerOps fg projectPath ++ (licenseOps fg env projectPath ++ []))

/-- The operations of `Generate` before the git step, in the order it attempts them. -/
def Generator.ops (g : Generator) (env : Env) (ord : MapOrder) : List Op :=
  let projectPath := Join g.config.TargetDir g.config.ProjectName
  [.mkdir projectPath] ++
    (g.arch.GetStructure.Directories.map (fun d => Op.mkdir (Join projectPath d)) ++
      (renderOps env g.arch.templateManager projectPath (NewTemplateData env g.config)
          (ord.visit (mapOfBindings (g.arch.fileBindings g.config))) ++
        (commonOps g.fileGen projectPath ++ (optionalOps g.fileGen env projectPath ++ []))))

/-- The steps of `Generate` with the git step left out of the last one. -/
def Generator.phasesBeforeGit (g : Generator) (env : Env) (ord : MapOrder) : List Step :=
  let projectPath := Join g.config.TargetDir g.config.ProjectName
  [named "failed to create project directory" (fun fs => MkdirAll fs projectPath),
   named "failed to generate structure" (g.generateStructure projectPath),
   named "failed to generate architecture files"
     (g.arch.GenerateFiles env ord projectPath g.config),
   named "failed to generate common files" (g.fileGen.GenerateCommonFiles projectPath),
   named "failed to generate optional files"
     (g.fileGen.optionalFilesBeforeGit env projectPath)]

/-- The last elements of the keys of the map literal of each `GenerateFiles`, in source
order. -/
def Architecture.fileNames : Architecture → List String
  | .hexagonal _ =>
    ["main.go", ".env", "cache.go", "logger.go", "utils.go", "database.go", "config.go"]
  | _ => ["main.go", ".env", "logger.go", "utils.go", "database.go", "config.go"]

/-- Whether writing the file `n` is bound to succeed in a state whose directories are
among `D`, whose files are among `W` and in which the paths `K` are directories. -/
def writeSafe (D W K : List String) (n : String) : Bool :=
  decide (n ∈ W) && !decide (n ∈ D) && !implicitDir n && !decide (Dir n ∈ W) &&
    decide (Dir n ∈ K)

/-- Whether `MkdirAll p` is bound to succeed in such a state and to leave one. -/
def mkdirSafe (D W : List String) (p : String) : Bool :=
  decide (p ≠ "") && (ancestorsOrSelf p).all (fun q => decide (q ∈ D) && !decide (q ∈ W))

/-- Whether the operations are bound to succeed, one after the other, in such a state. -/
def safeOps (D W : List String) : List String → List Op → Bool
  | _, [] => true
  | K, .mkdir p :: rest => mkdirSafe D W p && safeOps D W (K ++ ancestorsOrSelf p) rest
  | K, .write n _ :: rest => writeSafe D W K n && safeOps D W K rest
  | _, .abort :: _ => false

/-- The state has no refusals, its directories are among `D`, its files among `W`, and the
paths `K` are directories in it. -/
def Within (D W K : List String) (fs : FS) : Prop :=
  fs.denied = [] ∧ (∀ d ∈ fs.dirs, d ∈ D) ∧ (∀ x, isFile fs x = true → x ∈ W) ∧
  ∀ k ∈ K, isDir fs k = true

/-- The directories the end-to-end scenario lists, relative to the project root. -/
def scenarioDeclared : List String :=
  ["pkg/logger", "pkg/utils", "pkg/database", "configs", "docs", "scripts", "tests",
   "internal/app", "internal/handlers", "internal/services", "internal/repository"]

/-- The six templates the basic variant refers to. -/
def basicTemplates : List String :=
  ["basic/main.go", "common/env", "common/logger", "common/utils", "common/database",
   "common/config"]

/-! ## Concrete inputs used by the closed theorems -/

/-- The walk entry of a template asset with the given key. -/
def assetEntry (key : String) : WalkEntry :=
  { path := "templates/" ++ key ++ ".tmpl", isDir := false, err := none }

/-- Tables cut down to ASCII: beyond it no rune counts as a letter or a digit and none has
a title case of its own.  The names of the sample inputs are ASCII. -/
def asciiTables : UnicodeTables :=
  { IsLetter := fun _ => false, IsDigit := fun _ => false, ToTitleCase := fun r => r }

/-- An environment in which the six templates of the basic variant are present, read,
parse and render. -/
def sampleEnv : Env :=
  { walk :=
      [⟨"templates", true, none⟩, ⟨"templates/basic", true, none⟩, assetEntry "basic/main.go",
       ⟨"templates/common", true, none⟩, assetEntry "common/config",
       assetEntry "common/database", assetEntry "common/env", assetEntry "common/logger",
       assetEntry "common/utils"]
    readFile := fun p => .ok ("package " ++ p)
    parseError := fun _ _ => none
    execute := fun t d => .ok (t.text ++ " // " ++ d.ProjectName)
    year := 2024
    unicode := asciiTables
    gitInitialize := fun _ _ fs => (fs, none) }

/-- The store `NewTemplateManager` builds in `sampleEnv`. -/
def sampleStore : TemplateManager :=
  { templates :=
      [("basic/main.go", ⟨"basic/main.go", "package templates/basic/main.go.tmpl"⟩),
       ("common/config", ⟨"common/config", "package templates/common/config.tmpl"⟩),
       ("common/database", ⟨"common/database", "package templates/common/database.tmpl"⟩),
       ("common/env", ⟨"common/env", "package templates/common/env.tmpl"⟩),
       ("common/logger", ⟨"common/logger", "package templates/common/logger.tmpl"⟩),
       ("common/utils", ⟨"common/utils", "package templates/common/utils.tmpl"⟩)] }

/-- An environment in which the working directory has no `templates` directory: the walk
reports the failed `lstat` of its root. -/
def noTemplatesEnv : Env :=
  { sampleEnv with
    walk := [⟨"templates", false, some "lstat templates: no such file or directory"⟩] }

/-- An environment like `sampleEnv` in which the asset `common/env` does not parse. -/
def corruptEnv : Env :=
  { sampleEnv with
    parseError := fun name _ =>
      if name = "common/env" then some "template: common/env:1: unexpected EOF" else none }

/-- Three bindings of which the second names a template the sample store lacks. -/
def sampleFiles : List (String × String) :=
  [("a/one.go", "common/env"), ("two.go", "common/missing"), ("three.go", "common/utils")]

/-- The sample filesystem after the first binding of `sampleFiles` has been written. -/
def sampleFSAfterOne : FS :=
  { dirs := ["out", "out/a"]
    files := [("out/a/one.go", "package templates/common/env.tmpl // shopcart")]
    denied := [] }

/-- The configuration of the end-to-end scenario, with target directory `out`. -/
def sampleConfig : Config :=
  { ProjectName := "shopcart", Architecture := "basic", TargetDir := "out",
    WithDocker := false, WithMakefile := false, WithGit := false, License := "MIT",
    AutoYes := true }

/-- A filesystem holding the empty directory `out` and nothing else. -/
def sampleFS : FS := { dirs := ["out"], files := [], denied := [] }

/-- The generator `New` returns for `sampleConfig` in `sampleEnv`. -/
def sampleGenerator : Generator :=
  { config := sampleConfig, logger := ⟨false⟩, arch := .basic ⟨sampleStore⟩,
    fileGen := ⟨sampleConfig, ⟨false⟩⟩ }

/-- The end-to-end configuration with the license identifier `Unknown`. -/
def unknownLicenseConfig : Config := { sampleConfig with License := "Unknown" }

/-- The generator `New` returns for `unknownLicenseConfig` in `sampleEnv`. -/
def unknownLicenseGenerator : Generator :=
  { config := unknownLicenseConfig, logger := ⟨false⟩, arch := .basic ⟨sampleStore⟩,
    fileGen := ⟨unknownLicenseConfig, ⟨false⟩⟩ }

/-- The command-line flags that lead to `unknownLicenseConfig`. -/
def unknownLicenseFlags : Flags :=
  { architecture := "basic", autoYes := true, targetDir := "out", withDocker := false,
    withMakefile := false, withGit := false, interactive := false, license := "Unknown",
    verbose := false }

/-- The state after the project directory of the sample run has been created. -/
def sampleState1 : FS := (MkdirAll sampleFS "out/shopcart").1

/-- The state after the directory structure of the sample run has been created. -/
def sampleState2 : FS := (unknownLicenseGenerator.generateStructure "out/shopcart" sampleState1).1

/-- The state after the architecture files of the sample run have been written. -/
def sampleState3 : FS :=
  (unknownLicenseGenerator.arch.GenerateFiles sampleEnv MapOrder.stored "out/shopcart"
    unknownLicenseConfig sampleState2).1

/-- The state after the common files of the sample run have been written. -/
def sampleState4 : FS :=
  (unknownLicenseGenerator.fileGen.GenerateCommonFiles "out/shopcart" sampleState3).1

/-- The state after the Makefile of the sample run has been written. -/
def sampleState5 : FS :=
  (MakefileGenerator.Generate unknownLicenseConfig "out/shopcart" sampleState4).1

/-- A filesystem holding the project directory of the sample run, in which creating
`internal/handlers` below it is refused. -/
def blockedFS : FS :=
  { dirs := ["out", "out/shopcart"], files := [], denied := ["out/shopcart/internal/handlers"] }

/-- The state `blockedFS` after the first two directories of the basic layout. -/
def blockedFSAfterTwo : FS :=
  { dirs := ["out", "out/shopcart", "out/shopcart/cmd", "out/shopcart/internal",
      "out/shopcart/internal/app"],
    files := [], denied := ["out/shopcart/internal/handlers"] }

/-- The configuration of the end-to-end scenario with Docker files requested. -/
def dockerConfig : Config := { sampleConfig with WithDocker := true }

/-- The file generator of `dockerConfig`. -/
def dockerFileGenerator : FileGenerator := { config := dockerConfig, logger := ⟨false⟩ }

/-- A filesystem holding the empty project directory `out/shopcart`. -/
def projectRootFS : FS := { dirs := ["out", "out/shopcart"], files := [], denied := [] }

/-- The end-to-end configuration with the license switched off and Docker files requested. -/
def noLicenseConfig : Config := { sampleConfig with License := "None", WithDocker := true }

/-- The file generator of `noLicenseConfig`. -/
def noLicenseFileGenerator : FileGenerator := { config := noLicenseConfig, logger := ⟨false⟩ }

/-- The file generator of the end-to-end scenario. -/
def sampleFileGenerator : FileGenerator := { config := sampleConfig, logger := ⟨false⟩ }

/-- A settings document that declares other defaults than the built-in ones. -/
def settingsText : String :=
  "defaults:\n  architecture: hexagonal\n  license: GPL\n  with_docker: true\n" ++
  "  with_makefile: true\n  with_git: true\n"

/-- The value of `settingsText`. -/
def settingsFile : ConfigFile :=
  { Templates := []
    Defaults :=
      { Architecture := "hexagonal", License := "GPL", WithDocker := true, WithMakefile := true,
        WithGit := true } }

/-- An environment whose YAML library reads `settingsText` as `settingsFile` and refuses
every other text. -/
def settingsEnv : ConfigEnv :=
  { home := "/home/dev"
    unmarshal := fun data =>
      if data = settingsText then .ok settingsFile
      else .error "yaml: unmarshal errors" }

/-- A working directory that holds the settings file `.gomake.yml` and nothing else. -/
def settingsFS : FS := { dirs := [], files := [(".gomake.yml", settingsText)], denied := [] }

/-- A working directory whose `.gomake.yml` is no settings document, next to a
`.gomake.yaml` that is one. -/
def brokenSettingsFS : FS :=
  { dirs := [], files := [(".gomake.yml", "defaults: ["), (".gomake.yaml", settingsText)],
    denied := [] }

/-- A name of exactly one hundred letters. -/
def hundredLetters : String := String.mk (List.replicate 100 'a')

/-- The flags of an interactive run for the target directory `out`. -/
def interactiveFlags : Flags := { defaultFlags with targetDir := "out", interactive := true }

/-- The answers of a user who declines the name given and types another one, then takes
the first architecture, no option and the first license. -/
def renamingAnswers : List String := ["n", "../escape", "1", "n", "n", "n", "1"]

/-- The directories of the tree of the end-to-end scenario. -/
def scenarioDirs : List String :=
  ["out", "out/shopcart", "out/shopcart/cmd", "out/shopcart/internal",
   "out/shopcart/internal/app", "out/shopcart/internal/handlers",
   "out/shopcart/internal/services", "out/shopcart/internal/repository",
   "out/shopcart/pkg", "out/shopcart/pkg/logger", "out/shopcart/pkg/utils",
   "out/shopcart/pkg/database", "out/shopcart/configs", "out/shopcart/docs",
   "out/shopcart/scripts", "out/shopcart/tests", "out/shopcart/cmd/shopcart"]

/-- The files of the tree of the end-to-end scenario. -/
def scenarioFiles : List String :=
  ["out/shopcart/cmd/shopcart/main.go", "out/shopcart/.env",
   "out/shopcart/pkg/logger/logger.go", "out/shopcart/pkg/utils/utils.go",
   "out/shopcart/pkg/database/database.go", "out/shopcart/configs/config.go",
   "out/shopcart/go.mod", "out/shopcart/README.md", "out/shopcart/.gitignore",
   "out/shopcart/Makefile", "out/shopcart/LICENSE"]

/-- The configurations of the end-to-end scenario: the two fields it leaves open are
arguments. -/
def scenarioConfig (withMakefile autoYes : Bool) : Config :=
  { ProjectName := "shopcart", Architecture := "basic", TargetDir := "out",
    WithDocker := false, WithMakefile := withMakefile, WithGit := false, License := "MIT",
    AutoYes := autoYes }

/-- A working directory holding the directory `out` and the regular file `f`. -/
def fileFS : FS := { dirs := ["out"], files := [("f", "x")], denied := [] }

/-! ## Theorems -/

theorem createArchitecture_unknown (env : Env) (name : String)
    (h : name ∉ knownArchitectures) :
    createArchitecture env name = .error ("unsupported architecture: " ++ name) := by
  simp only [knownArchitectures, List.mem_cons, List.mem_singleton, not_or, List.mem_nil_iff,
    or_false] at h
  obtain ⟨h1, h2, h3, h4⟩ := h
  simp [createArchitecture, h1, h2, h3, h4]

theorem createArchitecture_known_ok (env : Env) (name : String) (tm : TemplateManager)
    (h : name ∈ knownArchitectures) (htm : NewTemplateManager env = .ok tm) :
    ∃ a, createArchitecture env name = .ok a ∧ a.GetName = name ∧ a.templateManager = tm := by
  simp only [knownArchitectures, List.mem_cons, List.mem_singleton, List.mem_nil_iff,
    or_false] at h
  rcases h with h | h | h | h <;> subst h
  · exact ⟨.hexagonal ⟨tm⟩, by simp [createArchitecture, NewHexagonalArchitecture, htm], rfl, rfl⟩
  · exact ⟨.clean ⟨tm⟩, by simp [createArchitecture, NewCleanArchitecture, htm], rfl, rfl⟩
  · exact ⟨.mvc ⟨tm⟩, by simp [createArchitecture, NewMVCArchitecture, htm], rfl, rfl⟩
  · exact ⟨.basic ⟨tm⟩, by simp [createArchitecture, NewBasicArchitecture, htm], rfl, rfl⟩

theorem createArchitecture_known_panic (env : Env) (name err : String)
    (h : name ∈ knownArchitectures) (htm : NewTemplateManager env = .error err) :
    createArchitecture env name = .panic ("Failed to create template manager: " ++ err) := by
  simp only [knownArchitectures, List.mem_cons, List.mem_singleton, List.mem_nil_iff,
    or_false] at h
  rcases h with h | h | h | h <;> subst h
  · simp [createArchitecture, NewHexagonalArchitecture, htm, templateManagerPanic]
  · simp [createArchitecture, NewCleanArchitecture, htm, templateManagerPanic]
  · simp [createArchitecture, NewMVCArchitecture, htm, templateManagerPanic]
  · simp [createArchitecture, NewBasicArchitecture, htm, templateManagerPanic]

theorem createArchitecture_ok_name (env : Env) (name : String) (a : Architecture)
    (ha : createArchitecture env name = .ok a) : a.GetName = name := by
  by_cases hk : name ∈ knownArchitectures
  · cases htm : NewTemplateManager env with
    | ok tm =>
      obtain ⟨b, hb, hn, _⟩ := createArchitecture_known_ok env name tm hk htm
      rw [hb] at ha
      cases ha
      exact hn
    | error err =>
      rw [createArchitecture_known_panic env name err hk htm] at ha
      cases ha
  · rw [createArchitecture_unknown env name hk] at ha
    cases ha

theorem sampleEnv_loads : NewTemplateManager sampleEnv = .ok sampleStore := by rfl

/-- C1 (as amended): `createArchitecture env name` returns an architecture exactly when
`name` is one of the four known names and the template manager can be built; the
architecture it returns has `GetName () = name`; for a known name with a failing template
load it panics; for every other string it returns the error
`unsupported architecture: <name>`. -/
theorem createArchitecture_spec (env : Env) (name : String) :
    ((∃ a, createArchitecture env name = .ok a) ↔
        (name ∈ knownArchitectures ∧ ∃ tm, NewTemplateManager env = .ok tm)) ∧
    (∀ a, createArchitecture env name = .ok a → a.GetName = name) ∧
    (∀ err, name ∈ knownArchitectures → NewTemplateManager env = .error err →
        createArchitecture env name = .panic ("Failed to create template manager: " ++ err)) ∧
    (name ∉ knownArchitectures →
        createArchitecture env name = .error ("unsupported architecture: " ++ name)) := by
  refine ⟨⟨?_, ?_⟩, ?_, ?_, ?_⟩
  · rintro ⟨a, ha⟩
    by_cases hk : name ∈ knownArchitectures
    · refine ⟨hk, ?_⟩
      cases htm : NewTemplateManager env with
      | ok tm => exact ⟨tm, rfl⟩
      | error err =>
        rw [createArchitecture_known_panic env name err hk htm] at ha
        cases ha
    · rw [createArchitecture_unknown env name hk] at ha
      cases ha
  · rintro ⟨hk, tm, htm⟩
    obtain ⟨a, ha, _⟩ := createArchitecture_known_ok env name tm hk htm
    exact ⟨a, ha⟩
  · exact fun a ha => createArchitecture_ok_name env name a ha
  · intro err hk htm
    exact createArchitecture_known_panic env name err hk htm
  · exact createArchitecture_unknown env name

/-- C1, witness: in `sampleEnv` the name `basic` yields an architecture named `basic`, and
`Basic` (wrong case) is refused. -/
theorem createArchitecture_spec_witness :
    (∃ a, createArchitecture sampleEnv "basic" = .ok a) ∧
    createArchitecture sampleEnv "Basic" = .error "unsupported architecture: Basic" :=
  ⟨(createArchitecture_spec sampleEnv "basic").1.mpr ⟨by decide, ⟨_, sampleEnv_loads⟩⟩,
   (createArchitecture_spec sampleEnv "Basic").2.2.2 (by decide)⟩

/-- C1, counterexample to the claim as stated: `basic` is one of the four names, yet where
the working directory has no `templates` directory `createArchitecture` returns no
architecture (it panics). -/
theorem createArchitecture_known_name_may_panic :
    "basic" ∈ knownArchitectures ∧
    ¬ (∃ a, createArchitecture noTemplatesEnv "basic" = .ok a) ∧
    createArchitecture noTemplatesEnv "basic" =
      .panic ("Failed to create template manager: failed to load templates: " ++
        "lstat templates: no such file or directory") := by
  refine ⟨by decide, ?_, rfl⟩
  rintro ⟨a, ha⟩
  have h : createArchitecture noTemplatesEnv "basic" =
      .panic ("Failed to create template manager: failed to load templates: " ++
        "lstat templates: no such file or directory") := rfl
  rw [h] at ha
  cases ha

/-! ### Strings -/

theorem data_append3 (a b c : String) : (a ++ b ++ c).data = a.data ++ (b.data ++ c.data) := by
  simp [String.data_append, List.append_assoc]

theorem HasPrefix_append (p s : String) : HasPrefix (p ++ s) p = true := by
  simp [HasPrefix, String.data_append]

theorem HasSuffix_append (s q : String) : HasSuffix (s ++ q) q = true := by
  simp [HasSuffix, String.data_append]

theorem TrimPrefix_append (p s : String) : TrimPrefix (p ++ s) p = s := by
  simp [TrimPrefix, HasPrefix_append, String.data_append]

theorem TrimSuffix_append (s q : String) : TrimSuffix (s ++ q) q = s := by
  simp [TrimSuffix, HasSuffix_append, String.data_append]

/-- Normalising the asset path of a key gives the key back. -/
theorem templateNameOf_assetPath (k : String) :
    templateNameOf ("templates/" ++ k ++ ".tmpl") = k := by
  have h : "templates/" ++ k ++ ".tmpl" = "templates/" ++ (k ++ ".tmpl") := by
    apply String.ext
    simp [String.data_append]
  rw [templateNameOf, h, TrimPrefix_append, TrimSuffix_append]

theorem Contains_append_mid (a k b : String) : Contains (a ++ k ++ b) k := by
  unfold Contains
  exact ⟨a.data, b.data, by simp [String.data_append]⟩

theorem Contains_trans_left (a s k : String) (h : Contains s k) : Contains (a ++ s) k := by
  unfold Contains at *
  obtain ⟨x, y, hxy⟩ := h
  exact ⟨a.data ++ x, y, by simp [String.data_append, ← hxy, List.append_assoc]⟩

/-! ### C2: an unknown architecture is refused by `New` -/

/-- C2: for a config whose `Architecture` is not one of the four known names, `New`
returns an error and no generator, whatever the environment and the logger argument; and
the caller that generates only with a generator `New` returned leaves every filesystem
state exactly as it was. -/
theorem New_unknown_architecture (env : Env) (ord : MapOrder) (config : Config)
    (logger : Option Logger) (fs : FS) (h : config.Architecture ∉ knownArchitectures) :
    (∃ msg, New env (some config) logger = .error msg) ∧
    (∀ lg, logger = some lg → New env (some config) logger =
      .error ("failed to create architecture: unsupported architecture: " ++
        config.Architecture)) ∧
    (¬ ∃ g, New env (some config) logger = .ok g) ∧
    (createAndGenerate env ord (some config) logger fs).1 = fs := by
  have hc := createArchitecture_unknown env config.Architecture h
  cases logger with
  | none =>
    refine ⟨⟨_, rfl⟩, ?_, ?_, rfl⟩
    · intro lg hlg
      cases hlg
    · rintro ⟨g, hg⟩
      cases hg
  | some lg =>
    have hN : New env (some config) (some lg) =
        .error ("failed to create architecture: unsupported architecture: " ++
          config.Architecture) := by
      simp only [New, hc]
      rw [← String.append_assoc]
      rfl
    refine ⟨⟨_, hN⟩, fun _ _ => hN, ?_, ?_⟩
    · rintro ⟨g, hg⟩
      rw [hN] at hg
      cases hg
    · simp [createAndGenerate, hN]

/-- C2, witness: the architecture `unknown` on the sample filesystem. -/
theorem New_unknown_architecture_witness :
    (∃ msg, New sampleEnv (some { sampleConfig with Architecture := "unknown" })
      (some ⟨false⟩) = .error msg) ∧
    (createAndGenerate sampleEnv MapOrder.stored
      (some { sampleConfig with Architecture := "unknown" }) (some ⟨false⟩) sampleFS).1 =
      sampleFS :=
  have h := New_unknown_architecture sampleEnv MapOrder.stored
    { sampleConfig with Architecture := "unknown" } (some ⟨false⟩) sampleFS (by decide)
  ⟨h.1, h.2.2.2⟩

/-! ### C5, C6, C7: the template store -/

theorem lookup_eq_none_iff_not_mem_keys {V : Type} (m : List (String × V)) (k : String) :
    m.lookup k = none ↔ k ∉ mapKeys m := by
  induction m with
  | nil => simp [mapKeys]
  | cons kv rest ih =>
    obtain ⟨k1, v1⟩ := kv
    by_cases hk : k = k1
    · subst hk
      simp [List.lookup, mapKeys]
    · have hb : (k == k1) = false := by simpa using hk
      simp only [List.lookup, hb, ih, mapKeys, List.map_cons, List.mem_cons, not_or]
      exact ⟨fun h => ⟨hk, h⟩, fun h => h.2⟩

theorem mem_mapKeys_mapSet {V : Type} (m : List (String × V)) (k : String) (v : V) (x : String) :
    x ∈ mapKeys (mapSet m k v) ↔ x = k ∨ x ∈ mapKeys m := by
  induction m with
  | nil => simp [mapSet, mapKeys]
  | cons kv rest ih =>
    obtain ⟨k1, v1⟩ := kv
    by_cases hk : k1 = k
    · subst hk
      simp [mapSet, mapKeys]
    · simp only [mapSet, hk, if_false]
      simp only [mapKeys, List.map_cons, List.mem_cons] at ih ⊢
      rw [ih]
      tauto

theorem lookup_mapSet_self {V : Type} (m : List (String × V)) (k : String) (v : V) :
    (mapSet m k v).lookup k = some v := by
  induction m with
  | nil => simp [mapSet, List.lookup]
  | cons kv rest ih =>
    obtain ⟨k1, v1⟩ := kv
    by_cases hk : k1 = k
    · subst hk
      simp [mapSet, List.lookup]
    · have hb : (k == k1) = false := by simpa using (Ne.symm hk)
      simp [mapSet, hk, List.lookup, hb, ih]

theorem not_found_ne_execute (n e : String) :
    "template " ++ n ++ " not found" ≠ "failed to execute template " ++ n ++ ": " ++ e := by
  intro h
  have h2 := congrArg (fun s => s.data.head?) h
  simp [String.data_append] at h2

theorem RenderTemplate_missing (env : Env) (tm : TemplateManager) (name : String)
    (data : TemplateData) (h : name ∉ mapKeys tm.templates) :
    RenderTemplate env tm name data = ("", some ("template " ++ name ++ " not found")) := by
  have hl := (lookup_eq_none_iff_not_mem_keys tm.templates name).mpr h
  simp [RenderTemplate, hl]

/-- Running the loop over `pre ++ rest` is running it over `pre` and, when that went
through, over `rest` from the state reached. -/
theorem renderAndWriteLoop_append (env : Env) (tm : TemplateManager) (projectPath : String)
    (data : TemplateData) (pre rest : List (String × String)) (fs : FS) :
    renderAndWriteLoop env tm projectPath data fs (pre ++ rest) =
      match renderAndWriteLoop env tm projectPath data fs pre with
      | (fs1, none) => renderAndWriteLoop env tm projectPath data fs1 rest
      | (fs1, some err) => (fs1, some err) := by
  induction pre generalizing fs with
  | nil => simp [renderAndWriteLoop]
  | cons kv pre ih =>
    obtain ⟨filePath, templateName⟩ := kv
    simp only [List.cons_append, renderAndWriteLoop]
    rcases hr : RenderTemplate env tm templateName data with ⟨content, _ | err⟩
    · simp only
      rcases hm : MkdirAll fs (Dir (Join projectPath filePath)) with ⟨fs1, _ | err⟩
      · simp only
        rcases hw : WriteFile fs1 (Join projectPath filePath) content with ⟨fs2, _ | err⟩
        · simp only
          exact ih fs2
        · simp
      · simp
    · simp

/-- C5: `RenderTemplate` returns the empty string with the error
`template <name> not found` exactly when `name` is not a key of the store (the lookup
compares whole strings); that message contains the key; and when the mapping at which
`GenerateFiles` stops names a missing template, the error `GenerateFiles` returns is that
message wrapped by `failed to render template <name>: `, which still contains the key. -/
theorem RenderTemplate_not_found_iff (env : Env) (tm : TemplateManager) (name : String)
    (data : TemplateData) :
    (RenderTemplate env tm name data = ("", some ("template " ++ name ++ " not found")) ↔
      name ∉ mapKeys tm.templates) ∧
    Contains ("template " ++ name ++ " not found") name ∧
    (∀ (a : Architecture) (ord : MapOrder) (projectPath : String) (config : Config)
        (fs fsPre : FS) (pre post : List (String × String)) (filePath : String),
      a.templateManager = tm →
      ord.visit (mapOfBindings (a.fileBindings config)) = pre ++ (filePath, name) :: post →
      renderAndWriteLoop env tm projectPath (NewTemplateData env config) fs pre =
        (fsPre, none) →
      name ∉ mapKeys tm.templates →
      a.GenerateFiles env ord projectPath config fs =
        (fsPre, some ("failed to render template " ++ name ++ ": " ++
          ("template " ++ name ++ " not found"))) ∧
      Contains ("failed to render template " ++ name ++ ": " ++
          ("template " ++ name ++ " not found")) name) := by
  refine ⟨⟨?_, RenderTemplate_missing env tm name data⟩, Contains_append_mid _ _ _, ?_⟩
  · intro h hk
    rcases hl : tm.templates.lookup name with _ | tmpl
    · exact ((lookup_eq_none_iff_not_mem_keys tm.templates name).mp hl) hk
    · simp only [RenderTemplate, hl] at h
      rcases he : env.execute tmpl data with err | out
      · simp only [he, Prod.mk.injEq, Option.some.injEq, true_and] at h
        exact not_found_ne_execute name err h.symm
      · simp [he] at h
  · intro a ord projectPath config fs fsPre pre post filePath ha hvisit hpre hk
    refine ⟨?_, Contains_trans_left _ _ _ (Contains_append_mid _ _ _)⟩
    simp only [Architecture.GenerateFiles, renderAndWriteFiles, ha, hvisit]
    rw [renderAndWriteLoop_append, hpre]
    simp only [renderAndWriteLoop, RenderTemplate_missing env tm name _ hk]

/-- C5, witness: in the store of `sampleEnv` the key `Basic/main.go` (wrong case) is
missing although `basic/main.go` is present. -/
theorem RenderTemplate_not_found_iff_witness :
    "basic/main.go" ∈ mapKeys sampleStore.templates ∧
    RenderTemplate sampleEnv sampleStore "Basic/main.go"
        (NewTemplateData sampleEnv sampleConfig) =
      ("", some ("template " ++ "Basic/main.go" ++ " not found")) :=
  ⟨by decide, (RenderTemplate_not_found_iff sampleEnv sampleStore "Basic/main.go"
    (NewTemplateData sampleEnv sampleConfig)).1.mpr (by decide)⟩

theorem readsAndParses_or_fails (env : Env) (e : WalkEntry) :
    readsAndParses env e ∨ readOrParseFails env e := by
  unfold readsAndParses readOrParseFails
  rcases hr : env.readFile e.path with err | content
  · exact Or.inr (Or.inl ⟨err, rfl⟩)
  · rcases hp : env.parseError (templateNameOf e.path) content with _ | err
    · exact Or.inl ⟨content, rfl, hp⟩
    · exact Or.inr (Or.inr ⟨content, err, rfl, hp⟩)

theorem not_readsAndParses_of_fails (env : Env) (e : WalkEntry)
    (h : readOrParseFails env e) : ¬ readsAndParses env e := by
  rintro ⟨content, hr, hp⟩
  rcases h with ⟨err, he⟩ | ⟨c, err, hc, he⟩
  · rw [hr] at he
    cases he
  · rw [hr] at hc
    cases hc
    rw [hp] at he
    cases he

/-- An entry that is not a template entry, handed over without error, is skipped. -/
theorem loadTemplatesVisit_skip (env : Env) (tm : TemplateManager) (e : WalkEntry)
    (herr : e.err = none) (h : isTemplateEntry e = false) :
    loadTemplatesVisit env tm e = .ok tm := by
  have h2 : (e.isDir || !HasSuffix e.path ".tmpl") = true := by
    unfold isTemplateEntry at h
    cases hd : e.isDir <;> cases hs : HasSuffix e.path ".tmpl" <;> simp_all
  simp [loadTemplatesVisit, herr, h2]

/-- A template entry that reads and parses is registered under its normalised name. -/
theorem loadTemplatesVisit_register (env : Env) (tm : TemplateManager) (e : WalkEntry)
    (content : String) (herr : e.err = none) (h : isTemplateEntry e = true)
    (hr : env.readFile e.path = .ok content)
    (hp : env.parseError (templateNameOf e.path) content = none) :
    loadTemplatesVisit env tm e =
      .ok { templates := mapSet tm.templates (templateNameOf e.path)
              ⟨templateNameOf e.path, content⟩ } := by
  have h2 : (e.isDir || !HasSuffix e.path ".tmpl") = false := by
    unfold isTemplateEntry at h
    cases hd : e.isDir <;> cases hs : HasSuffix e.path ".tmpl" <;> simp_all
  simp [loadTemplatesVisit, herr, h2, hr, hp]

/-- A template entry whose asset fails to read or to parse makes the callback fail. -/
theorem loadTemplatesVisit_fails (env : Env) (tm : TemplateManager) (e : WalkEntry)
    (h : isTemplateEntry e = true) (hf : readOrParseFails env e) :
    ∃ msg, loadTemplatesVisit env tm e = .error msg := by
  have h2 : (e.isDir || !HasSuffix e.path ".tmpl") = false := by
    unfold isTemplateEntry at h
    cases hd : e.isDir <;> cases hs : HasSuffix e.path ".tmpl" <;> simp_all
  rcases herr : e.err with _ | werr
  · rcases hf with ⟨err, he⟩ | ⟨c, err, hc, he⟩
    · exact ⟨"failed to read template " ++ e.path ++ ": " ++ err,
        by simp [loadTemplatesVisit, herr, h2, he]⟩
    · exact ⟨"failed to parse template " ++ e.path ++ ": " ++ err,
        by simp [loadTemplatesVisit, herr, h2, hc, he]⟩
  · exact ⟨werr, by simp [loadTemplatesVisit, herr]⟩

/-- What one successful callback does to the store. -/
theorem loadTemplatesVisit_ok (env : Env) (tm tm1 : TemplateManager) (e : WalkEntry)
    (h : loadTemplatesVisit env tm e = .ok tm1) :
    e.err = none ∧
    (isTemplateEntry e = false → tm1 = tm) ∧
    (isTemplateEntry e = true → readsAndParses env e ∧
      ∀ k, k ∈ mapKeys tm1.templates ↔ k = templateNameOf e.path ∨ k ∈ mapKeys tm.templates) := by
  rcases herr : e.err with _ | werr
  · refine ⟨rfl, ?_, ?_⟩
    · intro hne
      rw [loadTemplatesVisit_skip env tm e herr hne] at h
      exact (Except.ok.inj h).symm
    · intro ht
      rcases readsAndParses_or_fails env e with hok | hf
      · refine ⟨hok, ?_⟩
        obtain ⟨content, hr, hp⟩ := hok
        rw [loadTemplatesVisit_register env tm e content herr ht hr hp] at h
        have h1 := (Except.ok.inj h).symm
        subst h1
        intro k
        exact mem_mapKeys_mapSet _ _ _ _
      · obtain ⟨msg, hmsg⟩ := loadTemplatesVisit_fails env tm e ht hf
        rw [hmsg] at h
        cases h
  · simp [loadTemplatesVisit, herr] at h

/-- A walk succeeds exactly when every entry is handed over without error and every
template entry reads and parses. -/
theorem walkDir_ok_iff (env : Env) (walk : List WalkEntry) (tm : TemplateManager) :
    (∃ tm1, walkDir env tm walk = .ok tm1) ↔
      ∀ e ∈ walk, e.err = none ∧ (isTemplateEntry e = true → readsAndParses env e) := by
  induction walk generalizing tm with
  | nil => simp [walkDir]
  | cons e rest ih =>
    constructor
    · rintro ⟨tm1, h⟩
      simp only [walkDir] at h
      rcases hv : loadTemplatesVisit env tm e with msg | tm2
      · simp [hv] at h
      · simp only [hv] at h
        have hv2 := loadTemplatesVisit_ok env tm tm2 e hv
        intro x hx
        rcases List.mem_cons.mp hx with hx | hx
        · subst hx
          exact ⟨hv2.1, fun ht => (hv2.2.2 ht).1⟩
        · exact (ih tm2).mp ⟨tm1, h⟩ x hx
    · intro h
      have he := h e (List.mem_cons_self _ _)
      have hrest : ∀ x ∈ rest, x.err = none ∧ (isTemplateEntry x = true → readsAndParses env x) :=
        fun x hx => h x (List.mem_cons_of_mem _ hx)
      cases ht : isTemplateEntry e with
      | false =>
        obtain ⟨tm1, h1⟩ := (ih tm).mpr hrest
        exact ⟨tm1, by simp [walkDir, loadTemplatesVisit_skip env tm e he.1 ht, h1]⟩
      | true =>
        obtain ⟨content, hr, hp⟩ := he.2 ht
        have hreg := loadTemplatesVisit_register env tm e content he.1 ht hr hp
        obtain ⟨tm1, h1⟩ := (ih (TemplateManager.mk (mapSet tm.templates (templateNameOf e.path)
              (Template.mk (templateNameOf e.path) content)))).mpr hrest
        exact ⟨tm1, by simp [walkDir, hreg, h1]⟩

/-- The keys after a successful walk: those held before, and the normalised names of the
template entries walked. -/
theorem walkDir_keys (env : Env) (walk : List WalkEntry) (tm tm1 : TemplateManager)
    (h : walkDir env tm walk = .ok tm1) (k : String) :
    k ∈ mapKeys tm1.templates ↔
      k ∈ mapKeys tm.templates ∨
        ∃ e ∈ walk, isTemplateEntry e = true ∧ templateNameOf e.path = k := by
  induction walk generalizing tm with
  | nil =>
    simp only [walkDir] at h
    have h1 := Except.ok.inj h
    subst h1
    simp
  | cons e rest ih =>
    simp only [walkDir] at h
    rcases hv : loadTemplatesVisit env tm e with msg | tm2
    · simp [hv] at h
    · simp only [hv] at h
      have hv2 := loadTemplatesVisit_ok env tm tm2 e hv
      rw [ih tm2 h]
      cases ht : isTemplateEntry e with
      | false =>
        have h2 := hv2.2.1 ht
        subst h2
        constructor
        · rintro (hk | ⟨x, hx, hxt, hxk⟩)
          · exact Or.inl hk
          · exact Or.inr ⟨x, List.mem_cons_of_mem _ hx, hxt, hxk⟩
        · rintro (hk | ⟨x, hx, hxt, hxk⟩)
          · exact Or.inl hk
          · rcases List.mem_cons.mp hx with hx | hx
            · subst hx
              rw [ht] at hxt
              cases hxt
            · exact Or.inr ⟨x, hx, hxt, hxk⟩
      | true =>
        have h2 := (hv2.2.2 ht).2 k
        constructor
        · rintro (hk | ⟨x, hx, hxt, hxk⟩)
          · rcases h2.mp hk with hk | hk
            · exact Or.inr ⟨e, List.mem_cons_self _ _, ht, hk.symm⟩
            · exact Or.inl hk
          · exact Or.inr ⟨x, List.mem_cons_of_mem _ hx, hxt, hxk⟩
        · rintro (hk | ⟨x, hx, hxt, hxk⟩)
          · exact Or.inl (h2.mpr (Or.inr hk))
          · rcases List.mem_cons.mp hx with hx | hx
            · subst hx
              exact Or.inl (h2.mpr (Or.inl hxk.symm))
            · exact Or.inr ⟨x, hx, hxt, hxk⟩

theorem NewTemplateManager_ok_iff (env : Env) (tm : TemplateManager) :
    NewTemplateManager env = .ok tm ↔ walkDir env { templates := [] } env.walk = .ok tm := by
  unfold NewTemplateManager loadTemplates
  rcases hw : walkDir env { templates := [] } env.walk with msg | tm1
  · simp
  · simp

theorem isTemplateEntry_assetEntry (k : String) : isTemplateEntry (assetEntry k) = true := by
  simp [isTemplateEntry, assetEntry, HasSuffix_append]

/-- C6: key normalisation is a round trip: the asset path `templates/<k>.tmpl` normalises
to `k` for every `k`; visiting that asset registers it under `k` and adds no other key;
after a successful load the keys of the store are exactly the normalised names of the
non-directory entries whose path ends in `.tmpl`; and an entry without that suffix leaves
the store as it is. -/
theorem template_key_roundtrip (env : Env) :
    (∀ k, templateNameOf ("templates/" ++ k ++ ".tmpl") = k) ∧
    (∀ (k : String) (tm : TemplateManager) (content : String),
      env.readFile ("templates/" ++ k ++ ".tmpl") = .ok content →
      env.parseError k content = none →
      ∃ tm1, loadTemplatesVisit env tm (assetEntry k) = .ok tm1 ∧
        tm1.templates.lookup k = some ⟨k, content⟩ ∧
        ∀ x, x ∈ mapKeys tm1.templates ↔ x = k ∨ x ∈ mapKeys tm.templates) ∧
    (∀ tm, NewTemplateManager env = .ok tm →
      ∀ key, key ∈ mapKeys tm.templates ↔
        ∃ e ∈ env.walk, isTemplateEntry e = true ∧ templateNameOf e.path = key) ∧
    (∀ (tm : TemplateManager) (e : WalkEntry), e.err = none →
      HasSuffix e.path ".tmpl" = false → loadTemplatesVisit env tm e = .ok tm) := by
  refine ⟨templateNameOf_assetPath, ?_, ?_, ?_⟩
  · intro k tm content hr hp
    have hn : templateNameOf (assetEntry k).path = k := templateNameOf_assetPath k
    have hreg := loadTemplatesVisit_register env tm (assetEntry k) content rfl
      (isTemplateEntry_assetEntry k) hr (by rw [hn]; exact hp)
    rw [hn] at hreg
    exact ⟨_, hreg, lookup_mapSet_self _ _ _, fun x => mem_mapKeys_mapSet _ _ _ _⟩
  · intro tm htm key
    have hw := (NewTemplateManager_ok_iff env tm).mp htm
    have hk := walkDir_keys env env.walk { templates := [] } tm hw key
    simpa [mapKeys] using hk
  · intro tm e herr hs
    exact loadTemplatesVisit_skip env tm e herr (by simp [isTemplateEntry, hs])

/-- C6, witness: the key `hexagonal/main`, and the keys of the store of `sampleEnv`. -/
theorem template_key_roundtrip_witness :
    templateNameOf ("templates/" ++ "hexagonal/main" ++ ".tmpl") = "hexagonal/main" ∧
    ("common/env" ∈ mapKeys sampleStore.templates ↔
      ∃ e ∈ sampleEnv.walk, isTemplateEntry e = true ∧ templateNameOf e.path = "common/env") :=
  ⟨(template_key_roundtrip sampleEnv).1 "hexagonal/main",
   (template_key_roundtrip sampleEnv).2.2.1 sampleStore sampleEnv_loads "common/env"⟩

/-- C7: template loading is fail-fast: if the asset of any template entry (a non-directory
entry whose path ends in `.tmpl`) fails to read or to parse, `NewTemplateManager` returns
an error and no manager; when it returns a manager every template entry has been read and
parsed; and it returns one exactly when the walk reports no error and every template entry
reads and parses. -/
theorem NewTemplateManager_fail_fast (env : Env) :
    (∀ e ∈ env.walk, isTemplateEntry e = true → readOrParseFails env e →
      ∃ msg, NewTemplateManager env = .error msg) ∧
    (∀ tm, NewTemplateManager env = .ok tm →
      ∀ e ∈ env.walk, isTemplateEntry e = true → readsAndParses env e) ∧
    ((∃ tm, NewTemplateManager env = .ok tm) ↔
      ∀ e ∈ env.walk, e.err = none ∧ (isTemplateEntry e = true → readsAndParses env e)) := by
  have hiff : (∃ tm, NewTemplateManager env = .ok tm) ↔
      ∀ e ∈ env.walk, e.err = none ∧ (isTemplateEntry e = true → readsAndParses env e) := by
    rw [← walkDir_ok_iff env env.walk { templates := [] }]
    exact ⟨fun ⟨tm, h⟩ => ⟨tm, (NewTemplateManager_ok_iff env tm).mp h⟩,
      fun ⟨tm, h⟩ => ⟨tm, (NewTemplateManager_ok_iff env tm).mpr h⟩⟩
  refine ⟨?_, ?_, hiff⟩
  · intro e he ht hf
    rcases hN : NewTemplateManager env with msg | tm
    · exact ⟨msg, rfl⟩
    · exact absurd ((hiff.mp ⟨tm, hN⟩ e he).2 ht) (not_readsAndParses_of_fails env e hf)
  · intro tm htm e he ht
    exact (hiff.mp ⟨tm, htm⟩ e he).2 ht

/-- C7, witness: one corrupt asset among six makes the load fail. -/
theorem NewTemplateManager_fail_fast_witness :
    ∃ msg, NewTemplateManager corruptEnv = .error msg :=
  (NewTemplateManager_fail_fast corruptEnv).1 (assetEntry "common/env") (by decide) (by decide)
    (Or.inr ⟨_, _, rfl, rfl⟩)

/-! ### The filesystem operations -/

theorem lookup_setFile_self (m : List (String × String)) (k v : String) :
    (setFile m k v).lookup k = some v := by
  induction m with
  | nil => simp [setFile, List.lookup]
  | cons kv rest ih =>
    obtain ⟨k1, v1⟩ := kv
    by_cases hk : k1 = k
    · subst hk
      simp [setFile, List.lookup]
    · have hb : (k == k1) = false := by simpa using (Ne.symm hk)
      simp [setFile, hk, List.lookup, hb, ih]

theorem lookup_setFile_ne (m : List (String × String)) (k v x : String) (h : x ≠ k) :
    (setFile m k v).lookup x = m.lookup x := by
  induction m with
  | nil =>
    have hb : (x == k) = false := by simpa using h
    simp [setFile, List.lookup, hb]
  | cons kv rest ih =>
    obtain ⟨k1, v1⟩ := kv
    by_cases hk : k1 = k
    · subst hk
      have hb : (x == k1) = false := by simpa using h
      simp [setFile, List.lookup, hb]
    · by_cases hx : x = k1
      · subst hx
        simp [setFile, hk, List.lookup]
      · have hb : (x == k1) = false := by simpa using hx
        simp [setFile, hk, List.lookup, hb, ih]

theorem isDir_mono (fs fs1 : FS) (p : String) (hsub : fs.dirs ⊆ fs1.dirs)
    (h : isDir fs p = true) : isDir fs1 p = true := by
  unfold isDir at *
  rcases Bool.or_eq_true _ _ |>.mp h with h1 | h1
  · have : p ∈ fs1.dirs := hsub (by simpa using h1)
    simp [this]
  · simp [h1]

/-- What `mkdirOne` can do to a state. -/
theorem mkdirOne_spec (fs : FS) (p : String) :
    (mkdirOne fs p).1.files = fs.files ∧ (mkdirOne fs p).1.denied = fs.denied ∧
    fs.dirs ⊆ (mkdirOne fs p).1.dirs ∧
    (∀ d ∈ (mkdirOne fs p).1.dirs, d ∈ fs.dirs ∨ d = p) ∧
    ((mkdirOne fs p).2 = none → isDir (mkdirOne fs p).1 p = true) := by
  by_cases h1 : isDir fs p = true
  · have e : mkdirOne fs p = (fs, none) := by simp [mkdirOne, h1]
    rw [e]
    exact ⟨rfl, rfl, fun d hd => hd, fun d hd => Or.inl hd, fun _ => h1⟩
  · by_cases h2 : isFile fs p = true
    · have e : mkdirOne fs p = (fs, some ("mkdir " ++ p ++ ": not a directory")) := by
        simp [mkdirOne, h1, h2]
      rw [e]
      exact ⟨rfl, rfl, fun d hd => hd, fun d hd => Or.inl hd, fun h => by cases h⟩
    · by_cases h3 : p ∈ fs.denied
      · have e : mkdirOne fs p = (fs, some ("mkdir " ++ p ++ ": permission denied")) := by
          simp [mkdirOne, h1, h2, h3]
        rw [e]
        exact ⟨rfl, rfl, fun d hd => hd, fun d hd => Or.inl hd, fun h => by cases h⟩
      · have e : mkdirOne fs p = ({ fs with dirs := fs.dirs ++ [p] }, none) := by
          simp [mkdirOne, h1, h2, h3]
        rw [e]
        refine ⟨rfl, rfl, ?_, ?_, ?_⟩
        · intro d hd
          exact List.mem_append_left _ hd
        · intro d hd
          rcases List.mem_append.mp hd with hd | hd
          · exact Or.inl hd
          · exact Or.inr (by simpa using hd)
        · intro _
          simp [isDir]

/-- What `mkdirChain` can do to a state. -/
theorem mkdirChain_spec (chain : List String) (fs : FS) :
    (mkdirChain fs chain).1.files = fs.files ∧ (mkdirChain fs chain).1.denied = fs.denied ∧
    fs.dirs ⊆ (mkdirChain fs chain).1.dirs ∧
    (∀ d ∈ (mkdirChain fs chain).1.dirs, d ∈ fs.dirs ∨ d ∈ chain) ∧
    ((mkdirChain fs chain).2 = none → ∀ q ∈ chain, isDir (mkdirChain fs chain).1 q = true) := by
  induction chain generalizing fs with
  | nil => simp [mkdirChain]
  | cons p ps ih =>
    have h1 := mkdirOne_spec fs p
    rcases hm : mkdirOne fs p with ⟨fs1, _ | err⟩
    · rw [hm] at h1
      simp only [mkdirChain, hm]
      have h2 := ih fs1
      refine ⟨h2.1.trans h1.1, h2.2.1.trans h1.2.1, fun d hd => h2.2.2.1 (h1.2.2.1 hd), ?_, ?_⟩
      · intro d hd
        rcases h2.2.2.2.1 d hd with hd | hd
        · rcases h1.2.2.2.1 d hd with hd | hd
          · exact Or.inl hd
          · exact Or.inr (by simp [hd])
        · exact Or.inr (List.mem_cons_of_mem _ hd)
      · intro hok q hq
        rcases List.mem_cons.mp hq with hq | hq
        · subst hq
          exact isDir_mono fs1 _ q h2.2.2.1 (h1.2.2.2.2 rfl)
        · exact h2.2.2.2.2 hok q hq
    · rw [hm] at h1
      simp only [mkdirChain, hm]
      refine ⟨h1.1, h1.2.1, h1.2.2.1, ?_, ?_⟩
      · intro d hd
        rcases h1.2.2.2.1 d hd with hd | hd
        · exact Or.inl hd
        · exact Or.inr (by simp [hd])
      · intro hok
        cases hok

/-- What `MkdirAll` can do to a state: it keeps the files, keeps the directories there
are, adds only `path` and ancestors of it, and after success `path` is a directory. -/
theorem MkdirAll_spec (fs : FS) (path : String) :
    (MkdirAll fs path).1.files = fs.files ∧ (MkdirAll fs path).1.denied = fs.denied ∧
    fs.dirs ⊆ (MkdirAll fs path).1.dirs ∧
    (∀ d ∈ (MkdirAll fs path).1.dirs, d ∈ fs.dirs ∨ d ∈ ancestorsOrSelf path) ∧
    ((MkdirAll fs path).2 = none → isDir (MkdirAll fs path).1 path = true) := by
  by_cases h : path = ""
  · have e : MkdirAll fs path = (fs, some "mkdir : no such file or directory") := by
      simp [MkdirAll, h]
    rw [e]
    exact ⟨rfl, rfl, fun d hd => hd, fun d hd => Or.inl hd, fun h => by cases h⟩
  · have e : MkdirAll fs path = mkdirChain fs (parents path ++ [path]) := by
      simp [MkdirAll, h]
    rw [e]
    have hc := mkdirChain_spec (parents path ++ [path]) fs
    refine ⟨hc.1, hc.2.1, hc.2.2.1, hc.2.2.2.1, ?_⟩
    intro hok
    exact hc.2.2.2.2 hok path (by simp)

/-- What `WriteFile` can do to a state: it keeps the directories; a failure changes
nothing; after success the file holds the data and every other path reads as before. -/
theorem WriteFile_spec (fs : FS) (name data : String) :
    (WriteFile fs name data).1.dirs = fs.dirs ∧ (WriteFile fs name data).1.denied = fs.denied ∧
    ((WriteFile fs name data).2 ≠ none → (WriteFile fs name data).1 = fs) ∧
    ((WriteFile fs name data).2 = none →
      readFile (WriteFile fs name data).1 name = some data) ∧
    (∀ x, x ≠ name → readFile (WriteFile fs name data).1 x = readFile fs x) := by
  have hfail : ∀ msg : String, WriteFile fs name data = (fs, some msg) →
      (WriteFile fs name data).1.dirs = fs.dirs ∧
      (WriteFile fs name data).1.denied = fs.denied ∧
      ((WriteFile fs name data).2 ≠ none → (WriteFile fs name data).1 = fs) ∧
      ((WriteFile fs name data).2 = none →
        readFile (WriteFile fs name data).1 name = some data) ∧
      (∀ x, x ≠ name → readFile (WriteFile fs name data).1 x = readFile fs x) := by
    intro msg e
    rw [e]
    exact ⟨rfl, rfl, fun _ => rfl, fun h => absurd h (by simp), fun _ _ => rfl⟩
  by_cases h1 : isDir fs name = true
  · exact hfail ("open " ++ name ++ ": is a directory") (by simp [WriteFile, h1])
  · by_cases h2 : isFile fs (Dir name) = true
    · exact hfail ("open " ++ name ++ ": not a directory") (by simp [WriteFile, h1, h2])
    · by_cases h3 : isDir fs (Dir name) = true
      · by_cases h4 : name ∈ fs.denied
        · exact hfail ("open " ++ name ++ ": permission denied")
            (by simp [WriteFile, h1, h2, h3, h4])
        · have e : WriteFile fs name data =
              ({ fs with files := setFile fs.files name data }, none) := by
            simp [WriteFile, h1, h2, h3, h4]
          rw [e]
          refine ⟨rfl, rfl, ?_, ?_, ?_⟩
          · intro hne
            exact absurd rfl hne
          · intro _
            exact lookup_setFile_self _ _ _
          · intro x hx
            exact lookup_setFile_ne _ _ _ _ hx
      · exact hfail ("open " ++ name ++ ": " ++ missingDirError fs (Dir name))
          (by simp [WriteFile, h1, h2, h3])

theorem isFile_eq_readFile (fs : FS) (x : String) : isFile fs x = (readFile fs x).isSome := rfl

theorem readFile_MkdirAll (fs : FS) (path x : String) :
    readFile (MkdirAll fs path).1 x = readFile fs x := by
  unfold readFile
  rw [(MkdirAll_spec fs path).1]

theorem WriteFile_failed (fs fs1 : FS) (name data err : String)
    (h : WriteFile fs name data = (fs1, some err)) : fs1 = fs := by
  have h1 := (WriteFile_spec fs name data).2.2.1
  rw [h] at h1
  exact h1 (by simp)

theorem isFile_WriteFile (fs : FS) (name data x : String) (h : isFile fs x = true) :
    isFile (WriteFile fs name data).1 x = true := by
  by_cases hx : x = name
  · subst hx
    rcases hw : WriteFile fs x data with ⟨fs1, _ | err⟩
    · have h1 := (WriteFile_spec fs x data).2.2.2.1
      rw [hw] at h1
      simp [isFile_eq_readFile, h1 rfl]
    · rw [WriteFile_failed fs fs1 x data err hw]
      exact h
  · rw [isFile_eq_readFile, (WriteFile_spec fs name data).2.2.2.2 x hx]
    exact h

/-- The four ways one round of the loop of `renderAndWriteFiles` can go. -/
theorem renderAndWriteLoop_cons (env : Env) (tm : TemplateManager) (root : String)
    (data : TemplateData) (fs : FS) (k t : String) (rest : List (String × String)) :
    (∃ c err, RenderTemplate env tm t data = (c, some err) ∧
      renderAndWriteLoop env tm root data fs ((k, t) :: rest) =
        (fs, some ("failed to render template " ++ t ++ ": " ++ err))) ∨
    (∃ c fs1 err, RenderTemplate env tm t data = (c, none) ∧
      MkdirAll fs (Dir (Join root k)) = (fs1, some err) ∧
      renderAndWriteLoop env tm root data fs ((k, t) :: rest) =
        (fs1, some ("failed to create directory " ++ Dir (Join root k) ++ ": " ++ err))) ∨
    (∃ c fs1 err, RenderTemplate env tm t data = (c, none) ∧
      MkdirAll fs (Dir (Join root k)) = (fs1, none) ∧
      WriteFile fs1 (Join root k) c = (fs1, some err) ∧
      renderAndWriteLoop env tm root data fs ((k, t) :: rest) =
        (fs1, some ("failed to write file " ++ k ++ ": " ++ err))) ∨
    (∃ c fs1 fs2, RenderTemplate env tm t data = (c, none) ∧
      MkdirAll fs (Dir (Join root k)) = (fs1, none) ∧
      WriteFile fs1 (Join root k) c = (fs2, none) ∧
      renderAndWriteLoop env tm root data fs ((k, t) :: rest) =
        renderAndWriteLoop env tm root data fs2 rest) := by
  rcases hr : RenderTemplate env tm t data with ⟨c, _ | err⟩
  · rcases hm : MkdirAll fs (Dir (Join root k)) with ⟨fs1, _ | err⟩
    · rcases hw : WriteFile fs1 (Join root k) c with ⟨fs2, _ | err⟩
      · right; right; right
        exact ⟨c, fs1, fs2, rfl, rfl, hw, by simp [renderAndWriteLoop, hr, hm, hw]⟩
      · right; right; left
        have hfs : fs2 = fs1 := WriteFile_failed fs1 fs2 _ _ err hw
        subst hfs
        exact ⟨c, fs2, err, rfl, rfl, hw, by simp [renderAndWriteLoop, hr, hm, hw]⟩
    · right; left
      exact ⟨c, fs1, err, rfl, rfl, by simp [renderAndWriteLoop, hr, hm]⟩
  · left
    exact ⟨c, err, rfl, by simp [renderAndWriteLoop, hr]⟩

/-- What one `MkdirAll` followed by one `WriteFile` can do to a state. -/
theorem mkdir_write_frame (fs fs1 fs2 : FS) (dir name data : String) (r : Option String)
    (hm : MkdirAll fs dir = (fs1, none)) (hw : WriteFile fs1 name data = (fs2, r)) :
    fs2.denied = fs.denied ∧ fs.dirs ⊆ fs2.dirs ∧
    (∀ d ∈ fs2.dirs, d ∈ fs.dirs ∨ d ∈ ancestorsOrSelf dir) ∧
    (∀ x, isFile fs x = true → isFile fs2 x = true) ∧
    (∀ x, x ≠ name → readFile fs2 x = readFile fs x) ∧
    (r = none → readFile fs2 name = some data) := by
  have m := MkdirAll_spec fs dir
  have w := WriteFile_spec fs1 name data
  have rm : ∀ x, readFile fs1 x = readFile fs x := by
    intro x
    have := readFile_MkdirAll fs dir x
    rwa [hm] at this
  have iw : ∀ x, isFile fs1 x = true → isFile fs2 x = true := by
    intro x hx
    have := isFile_WriteFile fs1 name data x hx
    rwa [hw] at this
  rw [hm] at m
  rw [hw] at w
  refine ⟨w.2.1.trans m.2.1, ?_, ?_, ?_, ?_, ?_⟩
  · intro d hd
    have : d ∈ fs1.dirs := m.2.2.1 hd
    rw [w.1]
    exact this
  · intro d hd
    rw [w.1] at hd
    exact m.2.2.2.1 d hd
  · intro x hx
    apply iw
    rw [isFile_eq_readFile, rm]
    exact hx
  · intro x hx
    rw [w.2.2.2.2 x hx, rm]
  · intro hr
    exact w.2.2.2.1 hr

/-- What the loop of `renderAndWriteFiles` can do to a state: it adds only directories that
are the directory of an output path or an ancestor of one, it never removes a file, it
leaves every path that is not an output path as it was, and after success every output
path is a file. -/
theorem renderAndWriteLoop_spec (env : Env) (tm : TemplateManager) (root : String)
    (data : TemplateData) (files : List (String × String)) (fs : FS) :
    (renderAndWriteLoop env tm root data fs files).1.denied = fs.denied ∧
    fs.dirs ⊆ (renderAndWriteLoop env tm root data fs files).1.dirs ∧
    (∀ d ∈ (renderAndWriteLoop env tm root data fs files).1.dirs,
      d ∈ fs.dirs ∨ ∃ kv ∈ files, d ∈ ancestorsOrSelf (Dir (Join root kv.1))) ∧
    (∀ x, isFile fs x = true →
      isFile (renderAndWriteLoop env tm root data fs files).1 x = true) ∧
    (∀ x, (∀ kv ∈ files, x ≠ Join root kv.1) →
      readFile (renderAndWriteLoop env tm root data fs files).1 x = readFile fs x) ∧
    ((renderAndWriteLoop env tm root data fs files).2 = none →
      ∀ kv ∈ files, isFile (renderAndWriteLoop env tm root data fs files).1
        (Join root kv.1) = true) := by
  induction files generalizing fs with
  | nil =>
    have e : renderAndWriteLoop env tm root data fs [] = (fs, none) := rfl
    rw [e]
    exact ⟨rfl, fun d hd => hd, fun d hd => Or.inl hd, fun x hx => hx, fun _ _ => rfl,
      fun _ kv hkv => absurd hkv (List.not_mem_nil kv)⟩
  | cons kv rest ih =>
    obtain ⟨k, t⟩ := kv
    rcases renderAndWriteLoop_cons env tm root data fs k t rest with
      ⟨c, err, _, e⟩ | ⟨c, fs1, err, _, hm, e⟩ | ⟨c, fs1, err, _, hm, hw, e⟩ |
      ⟨c, fs1, fs2, _, hm, hw, e⟩
    · rw [e]
      exact ⟨rfl, fun d hd => hd, fun d hd => Or.inl hd, fun x hx => hx, fun _ _ => rfl,
        fun h => absurd h (by simp)⟩
    · rw [e]
      have m := MkdirAll_spec fs (Dir (Join root k))
      have rm := readFile_MkdirAll fs (Dir (Join root k))
      rw [hm] at m rm
      refine ⟨m.2.1, m.2.2.1, ?_, ?_, fun x _ => rm x, fun h => absurd h (by simp)⟩
      · intro d hd
        rcases m.2.2.2.1 d hd with hd | hd
        · exact Or.inl hd
        · exact Or.inr ⟨(k, t), List.mem_cons_self _ _, hd⟩
      · intro x hx
        rw [isFile_eq_readFile, rm]
        exact hx
    · rw [e]
      have f := mkdir_write_frame fs fs1 fs1 _ _ c _ hm hw
      refine ⟨f.1, f.2.1, ?_, f.2.2.2.1, ?_, fun h => absurd h (by simp)⟩
      · intro d hd
        rcases f.2.2.1 d hd with hd | hd
        · exact Or.inl hd
        · exact Or.inr ⟨(k, t), List.mem_cons_self _ _, hd⟩
      · intro x hx
        exact f.2.2.2.2.1 x (hx (k, t) (List.mem_cons_self _ _))
    · rw [e]
      have f := mkdir_write_frame fs fs1 fs2 _ _ c _ hm hw
      have i := ih fs2
      refine ⟨i.1.trans f.1, fun d hd => i.2.1 (f.2.1 hd), ?_, ?_, ?_, ?_⟩
      · intro d hd
        rcases i.2.2.1 d hd with hd | ⟨kv, hkv, hd⟩
        · rcases f.2.2.1 d hd with hd | hd
          · exact Or.inl hd
          · exact Or.inr ⟨(k, t), List.mem_cons_self _ _, hd⟩
        · exact Or.inr ⟨kv, List.mem_cons_of_mem _ hkv, hd⟩
      · intro x hx
        exact i.2.2.2.1 x (f.2.2.2.1 x hx)
      · intro x hx
        rw [i.2.2.2.2.1 x (fun kv hkv => hx kv (List.mem_cons_of_mem _ hkv))]
        exact f.2.2.2.2.1 x (hx (k, t) (List.mem_cons_self _ _))
      · intro hok kv hkv
        rcases List.mem_cons.mp hkv with hkv | hkv
        · subst hkv
          apply i.2.2.2.1
          rw [isFile_eq_readFile, f.2.2.2.2.2 rfl]
          rfl
        · exact i.2.2.2.2.2 hok kv hkv

/-- After a successful loop, an output path that no later entry writes again holds the
rendering of its template. -/
theorem renderAndWriteLoop_content (env : Env) (tm : TemplateManager) (root : String)
    (data : TemplateData) (a b : List (String × String)) (k t : String) (fs fs1 : FS)
    (h : renderAndWriteLoop env tm root data fs (a ++ (k, t) :: b) = (fs1, none))
    (hb : ∀ kv ∈ b, Join root kv.1 ≠ Join root k) :
    readFile fs1 (Join root k) = some (RenderTemplate env tm t data).1 := by
  rw [renderAndWriteLoop_append] at h
  rcases ha : renderAndWriteLoop env tm root data fs a with ⟨fsa, _ | err⟩
  · simp only [ha] at h
    rcases renderAndWriteLoop_cons env tm root data fsa k t b with
      ⟨c, err, _, e⟩ | ⟨c, fs2, err, _, hm, e⟩ | ⟨c, fs2, err, _, hm, hw, e⟩ |
      ⟨c, fs2, fs3, hr, hm, hw, e⟩
    · rw [e] at h
      simp at h
    · rw [e] at h
      simp at h
    · rw [e] at h
      simp at h
    · rw [e] at h
      have f := mkdir_write_frame fsa fs2 fs3 _ _ c _ hm hw
      have i := (renderAndWriteLoop_spec env tm root data b fs3).2.2.2.2.1 (Join root k)
        (fun kv hkv => (hb kv hkv).symm)
      rw [h] at i
      rw [i, f.2.2.2.2.2 rfl, hr]
  · simp [ha] at h

/-! ### C4: the first failure ends `renderAndWriteFiles` -/

/-- C4: whatever order the mappings are visited in, if the mappings visited before
`(k, t)` all went through and `(k, t)` is the first whose render, directory creation or
write fails, then `renderAndWriteFiles` returns that failure's error at once; the file
table is the one the earlier mappings left (their files are in place, holding what was
rendered for them, and nothing is written for `(k, t)` or for a later mapping). -/
theorem renderAndWriteFiles_first_failure (env : Env) (ord : MapOrder) (tm : TemplateManager)
    (root : String) (files : List (String × String)) (data : TemplateData) (fs fsPre fsI : FS)
    (pre post : List (String × String)) (k t e : String)
    (hvisit : ord.visit files = pre ++ (k, t) :: post)
    (hpre : renderAndWriteLoop env tm root data fs pre = (fsPre, none))
    (hfail : renderAndWriteLoop env tm root data fsPre [(k, t)] = (fsI, some e)) :
    renderAndWriteFiles env ord tm root files data fs = (fsI, some e) ∧
    fsI.files = fsPre.files ∧
    (∀ kv ∈ pre, isFile fsI (Join root kv.1) = true) ∧
    (∀ a b k1 t1, pre = a ++ (k1, t1) :: b → (∀ kv ∈ b, Join root kv.1 ≠ Join root k1) →
      readFile fsI (Join root k1) = some (RenderTemplate env tm t1 data).1) ∧
    ((∃ err, (RenderTemplate env tm t data).2 = some err ∧
        e = "failed to render template " ++ t ++ ": " ++ err) ∨
     (∃ err, (MkdirAll fsPre (Dir (Join root k))).2 = some err ∧
        e = "failed to create directory " ++ Dir (Join root k) ++ ": " ++ err) ∨
     (∃ err, (WriteFile fsI (Join root k) (RenderTemplate env tm t data).1).2 = some err ∧
        e = "failed to write file " ++ k ++ ": " ++ err)) := by
  have hfiles : fsI.files = fsPre.files ∧
      ((∃ err, (RenderTemplate env tm t data).2 = some err ∧
          e = "failed to render template " ++ t ++ ": " ++ err) ∨
       (∃ err, (MkdirAll fsPre (Dir (Join root k))).2 = some err ∧
          e = "failed to create directory " ++ Dir (Join root k) ++ ": " ++ err) ∨
       (∃ err, (WriteFile fsI (Join root k) (RenderTemplate env tm t data).1).2 = some err ∧
          e = "failed to write file " ++ k ++ ": " ++ err)) := by
    rcases renderAndWriteLoop_cons env tm root data fsPre k t [] with
      ⟨c, err, hr, h⟩ | ⟨c, fs1, err, hr, hm, h⟩ | ⟨c, fs1, err, hr, hm, hw, h⟩ |
      ⟨c, fs1, fs2, hr, hm, hw, h⟩
    · rw [h] at hfail
      simp only [Prod.mk.injEq, Option.some.injEq] at hfail
      obtain ⟨h1, h2⟩ := hfail
      subst h1
      exact ⟨rfl, Or.inl ⟨err, by rw [hr], h2.symm⟩⟩
    · rw [h] at hfail
      simp only [Prod.mk.injEq, Option.some.injEq] at hfail
      obtain ⟨h1, h2⟩ := hfail
      subst h1
      have m := (MkdirAll_spec fsPre (Dir (Join root k))).1
      rw [hm] at m
      exact ⟨m, Or.inr (Or.inl ⟨err, by rw [hm], h2.symm⟩)⟩
    · rw [h] at hfail
      simp only [Prod.mk.injEq, Option.some.injEq] at hfail
      obtain ⟨h1, h2⟩ := hfail
      subst h1
      have m := (MkdirAll_spec fsPre (Dir (Join root k))).1
      rw [hm] at m
      exact ⟨m, Or.inr (Or.inr ⟨err, by rw [hr, hw], h2.symm⟩)⟩
    · rw [h] at hfail
      simp [renderAndWriteLoop] at hfail
  have hread : ∀ x, readFile fsI x = readFile fsPre x := by
    intro x
    unfold readFile
    rw [hfiles.1]
  refine ⟨?_, hfiles.1, ?_, ?_, hfiles.2⟩
  · unfold renderAndWriteFiles
    rw [hvisit, renderAndWriteLoop_append, hpre]
    have h2 := renderAndWriteLoop_append env tm root data [(k, t)] post fsPre
    rw [hfail] at h2
    exact h2
  · intro kv hkv
    have h1 := (renderAndWriteLoop_spec env tm root data pre fs).2.2.2.2.2
    rw [hpre] at h1
    rw [isFile_eq_readFile, hread, ← isFile_eq_readFile]
    exact h1 rfl kv hkv
  · intro a b k1 t1 hab hb
    rw [hread]
    rw [hab] at hpre
    exact renderAndWriteLoop_content env tm root data a b k1 t1 fs fsPre hpre hb

/-- C4, witness: of three mappings the second names a missing template; the first file is
in place and the error is the render error of the second. -/
theorem renderAndWriteFiles_first_failure_witness :
    renderAndWriteFiles sampleEnv MapOrder.stored sampleStore "out" sampleFiles
        (NewTemplateData sampleEnv sampleConfig) sampleFS =
      (sampleFSAfterOne,
        some "failed to render template common/missing: template common/missing not found") ∧
    isFile sampleFSAfterOne (Join "out" "a/one.go") = true ∧
    isFile sampleFSAfterOne (Join "out" "three.go") = false :=
  have h := renderAndWriteFiles_first_failure sampleEnv MapOrder.stored sampleStore "out"
    sampleFiles (NewTemplateData sampleEnv sampleConfig) sampleFS sampleFSAfterOne
    sampleFSAfterOne [("a/one.go", "common/env")] [("three.go", "common/utils")] "two.go"
    "common/missing"
    "failed to render template common/missing: template common/missing not found"
    (by rfl) (by rfl) (by rfl)
  ⟨h.1, h.2.2.1 ("a/one.go", "common/env") (by simp), by decide⟩

/-! ### C8: the license emitter -/

theorem Contains_append_right (s x k : String) (h : Contains s k) : Contains (s ++ x) k := by
  unfold Contains at *
  obtain ⟨a, b, hab⟩ := h
  exact ⟨a, b ++ x.data, by simp [String.data_append, ← hab, List.append_assoc]⟩

theorem HasPrefix_append_right (s x p : String) (h : HasPrefix s p = true) :
    HasPrefix (s ++ x) p = true := by
  unfold HasPrefix at *
  rw [List.isPrefixOf_iff_prefix] at *
  rw [String.data_append]
  exact h.trans (List.prefix_append _ _)

theorem HasPrefix_self_append (p x : String) : HasPrefix (p ++ x) p = true := by
  simp [HasPrefix, String.data_append]

theorem Contains_tail (a k : String) : Contains (a ++ k) k :=
  ⟨a.data, [], by simp [String.data_append]⟩

theorem generateMITLicense_shape (config : Config) (year : Int) :
    HasPrefix (generateMITLicense config year) ("MIT License" ++ "\n") = true ∧
    Contains (generateMITLicense config year)
      ("Copyright (c) " ++ toString year ++ " " ++ config.ProjectName ++ "\n") := by
  unfold generateMITLicense
  constructor
  · iterate 23 apply HasPrefix_append_right
    rfl
  · iterate 18 apply Contains_append_right
    have e : "MIT License\n" ++ "\n" ++ "Copyright (c) " ++ toString year ++ " " ++
        config.ProjectName ++ "\n" = ("MIT License\n" ++ "\n") ++ ("Copyright (c) " ++
        toString year ++ " " ++ config.ProjectName ++ "\n") := by
      simp only [String.append_assoc]
    rw [e]
    exact Contains_tail _ _

theorem generateApacheLicense_shape (config : Config) (year : Int) :
    HasPrefix (generateApacheLicense config year) ("Apache License" ++ "\n") = true ∧
    Contains (generateApacheLicense config year)
      ("Copyright " ++ toString year ++ " " ++ config.ProjectName ++ "\n") := by
  unfold generateApacheLicense
  constructor
  · iterate 19 apply HasPrefix_append_right
    rfl
  · iterate 12 apply Contains_append_right
    have e : "Apache License\n" ++ "Version 2.0, January 2004\n" ++
        "http://www.apache.org/licenses/\n" ++ "\n" ++ "Copyright " ++ toString year ++ " " ++
        config.ProjectName ++ "\n" = ("Apache License\n" ++ "Version 2.0, January 2004\n" ++
        "http://www.apache.org/licenses/\n" ++ "\n") ++ ("Copyright " ++
        toString year ++ " " ++ config.ProjectName ++ "\n") := by
      simp only [String.append_assoc]
    rw [e]
    exact Contains_tail _ _

theorem generateBSDLicense_shape (config : Config) (year : Int) :
    HasPrefix (generateBSDLicense config year) ("BSD 3-Clause License" ++ "\n") = true ∧
    Contains (generateBSDLicense config year)
      ("Copyright (c) " ++ toString year ++ ", " ++ config.ProjectName ++ "\n") := by
  unfold generateBSDLicense
  constructor
  · iterate 31 apply HasPrefix_append_right
    rfl
  · iterate 26 apply Contains_append_right
    have e : "BSD 3-Clause License\n" ++ "\n" ++ "Copyright (c) " ++ toString year ++ ", " ++
        config.ProjectName ++ "\n" = ("BSD 3-Clause License\n" ++ "\n") ++ ("Copyright (c) " ++
        toString year ++ ", " ++ config.ProjectName ++ "\n") := by
      simp only [String.append_assoc]
    rw [e]
    exact Contains_tail _ _

theorem generateGPLLicense_shape (config : Config) (year : Int) :
    HasPrefix (generateGPLLicense config year) ("GNU GENERAL PUBLIC LICENSE" ++ "\n") = true ∧
    Contains (generateGPLLicense config year)
      ("Copyright (C) " ++ toString year ++ " " ++ config.ProjectName ++ "\n") := by
  unfold generateGPLLicense
  constructor
  · iterate 19 apply HasPrefix_append_right
    rfl
  · iterate 13 apply Contains_append_right
    have e : "GNU GENERAL PUBLIC LICENSE\n" ++ "Version 3, 29 June 2007\n" ++ "\n" ++
        "Copyright (C) " ++ toString year ++ " " ++ config.ProjectName ++ "\n" =
        ("GNU GENERAL PUBLIC LICENSE\n" ++ "Version 3, 29 June 2007\n" ++ "\n") ++
        ("Copyright (C) " ++ toString year ++ " " ++ config.ProjectName ++ "\n") := by
      simp only [String.append_assoc]
    rw [e]
    exact Contains_tail _ _

theorem licenseContent_unsupported (config : Config) (year : Int)
    (h : config.License ∉ supportedLicenses) : licenseContent config year = none := by
  simp only [supportedLicenses, List.mem_cons, List.mem_singleton, not_or, List.mem_nil_iff,
    or_false] at h
  obtain ⟨h1, h2, h3, h4⟩ := h
  simp [licenseContent, h1, h2, h3, h4]

/-- For a supported identifier the `switch` selects a body that starts with the title
line of that license and contains its copyright line. -/
theorem licenseContent_supported (config : Config) (year : Int)
    (h : config.License ∈ supportedLicenses) :
    ∃ body, licenseContent config year = some body ∧
      HasPrefix body (licenseTitle config.License ++ "\n") = true ∧
      Contains body (copyrightLine config.License year config.ProjectName) := by
  simp only [supportedLicenses, List.mem_cons, List.mem_singleton, List.mem_nil_iff,
    or_false] at h
  rcases h with h | h | h | h
  · refine ⟨generateMITLicense config year, by simp [licenseContent, h], ?_⟩
    rw [h]
    exact generateMITLicense_shape config year
  · refine ⟨generateApacheLicense config year, by simp [licenseContent, h], ?_⟩
    rw [h]
    exact generateApacheLicense_shape config year
  · refine ⟨generateBSDLicense config year, by simp [licenseContent, h], ?_⟩
    rw [h]
    exact generateBSDLicense_shape config year
  · refine ⟨generateGPLLicense config year, by simp [licenseContent, h], ?_⟩
    rw [h]
    exact generateGPLLicense_shape config year

/-- A call of `WriteFile` either fails on `open` and changes nothing, or sets the file. -/
theorem WriteFile_cases (fs : FS) (name data : String) :
    (∃ why, WriteFile fs name data = (fs, some ("open " ++ name ++ why))) ∨
    WriteFile fs name data = ({ fs with files := setFile fs.files name data }, none) := by
  by_cases h1 : isDir fs name = true
  · exact Or.inl ⟨": is a directory", by simp [WriteFile, h1]⟩
  · by_cases h2 : isFile fs (Dir name) = true
    · exact Or.inl ⟨": not a directory", by simp [WriteFile, h1, h2]⟩
    · by_cases h3 : isDir fs (Dir name) = true
      · by_cases h4 : name ∈ fs.denied
        · exact Or.inl ⟨": permission denied", by simp [WriteFile, h1, h2, h3, h4]⟩
        · exact Or.inr (by simp [WriteFile, h1, h2, h3, h4])
      · exact Or.inl ⟨": " ++ missingDirError fs (Dir name),
          by simp [WriteFile, h1, h2, h3, String.append_assoc]⟩

/-- Every error of `WriteFile` is the failed `open` of the file. -/
theorem WriteFile_error_open (fs : FS) (name data err : String)
    (h : (WriteFile fs name data).2 = some err) : ∃ why, err = "open " ++ name ++ why := by
  rcases WriteFile_cases fs name data with ⟨why, e⟩ | e
  · rw [e] at h
    exact ⟨why, (Option.some.inj h).symm⟩
  · rw [e] at h
    cases h

theorem open_ne_unsupported (name why id : String) :
    "open " ++ name ++ why ≠ "unsupported license: " ++ id := by
  intro h
  have h2 := congrArg (fun s => s.data.head?) h
  simp [String.data_append] at h2

/-- The two branches of `LicenseGenerator.Generate`. -/
theorem LicenseGenerator_Generate_core (env : Env) (config : Config) (projectPath : String)
    (fs : FS) :
    (config.License ∉ supportedLicenses →
      LicenseGenerator.Generate env config projectPath fs =
        (fs, some ("unsupported license: " ++ config.License))) ∧
    (config.License ∈ supportedLicenses →
      ∃ body,
        LicenseGenerator.Generate env config projectPath fs =
          WriteFile fs (Join projectPath "LICENSE") body ∧
        HasPrefix body (licenseTitle config.License ++ "\n") = true ∧
        Contains body (copyrightLine config.License env.year config.ProjectName)) := by
  constructor
  · intro h
    simp [LicenseGenerator.Generate, licenseContent_unsupported config env.year h]
  · intro h
    obtain ⟨body, hb, hp, hc⟩ := licenseContent_supported config env.year h
    exact ⟨body, by simp [LicenseGenerator.Generate, hb], hp, hc⟩

/-- C8: `LicenseGenerator.Generate` returns the error `unsupported license: <id>` exactly
when the identifier is not one of `MIT`, `Apache`, `BSD`, `GPL` (compared as whole
strings), and then it leaves the filesystem as it was; for each of the four it writes the
file `LICENSE` under the project path with a body that starts with the title line of that
license and contains its copyright line, in which the year is followed by the project
name. -/
theorem LicenseGenerator_Generate_spec (env : Env) (config : Config) (projectPath : String)
    (fs : FS) :
    ((LicenseGenerator.Generate env config projectPath fs).2 =
        some ("unsupported license: " ++ config.License) ↔
      config.License ∉ supportedLicenses) ∧
    (config.License ∉ supportedLicenses →
      LicenseGenerator.Generate env config projectPath fs =
        (fs, some ("unsupported license: " ++ config.License))) ∧
    (config.License ∈ supportedLicenses →
      ∃ body,
        LicenseGenerator.Generate env config projectPath fs =
          WriteFile fs (Join projectPath "LICENSE") body ∧
        HasPrefix body (licenseTitle config.License ++ "\n") = true ∧
        Contains body (copyrightLine config.License env.year config.ProjectName) ∧
        ((LicenseGenerator.Generate env config projectPath fs).2 = none →
          readFile (LicenseGenerator.Generate env config projectPath fs).1
            (Join projectPath "LICENSE") = some body)) := by
  have hun : config.License ∉ supportedLicenses →
      LicenseGenerator.Generate env config projectPath fs =
        (fs, some ("unsupported license: " ++ config.License)) := by
    intro h
    simp [LicenseGenerator.Generate, licenseContent_unsupported config env.year h]
  have hsup : config.License ∈ supportedLicenses →
      ∃ body,
        LicenseGenerator.Generate env config projectPath fs =
          WriteFile fs (Join projectPath "LICENSE") body ∧
        HasPrefix body (licenseTitle config.License ++ "\n") = true ∧
        Contains body (copyrightLine config.License env.year config.ProjectName) ∧
        ((LicenseGenerator.Generate env config projectPath fs).2 = none →
          readFile (LicenseGenerator.Generate env config projectPath fs).1
            (Join projectPath "LICENSE") = some body) := by
    intro h
    obtain ⟨body, hb, hp, hc⟩ := licenseContent_supported config env.year h
    have e : LicenseGenerator.Generate env config projectPath fs =
        WriteFile fs (Join projectPath "LICENSE") body := by
      simp [LicenseGenerator.Generate, hb]
    refine ⟨body, e, hp, hc, ?_⟩
    rw [e]
    exact (WriteFile_spec fs _ body).2.2.2.1
  refine ⟨⟨?_, fun h => by rw [hun h]⟩, hun, hsup⟩
  intro h hmem
  obtain ⟨body, e, _⟩ := hsup hmem
  rw [e] at h
  obtain ⟨why, hw⟩ := WriteFile_error_open fs _ body _ h
  exact open_ne_unsupported _ why _ hw.symm

/-- C8, witness: `MIT` is written, `mit` (wrong case) is refused without a write. -/
theorem LicenseGenerator_Generate_spec_witness :
    (∃ body,
      LicenseGenerator.Generate sampleEnv sampleConfig "out/shopcart" sampleFS =
        WriteFile sampleFS (Join "out/shopcart" "LICENSE") body ∧
      HasPrefix body (licenseTitle "MIT" ++ "\n") = true ∧
      Contains body (copyrightLine "MIT" 2024 "shopcart")) ∧
    LicenseGenerator.Generate sampleEnv { sampleConfig with License := "mit" } "out/shopcart"
      sampleFS = (sampleFS, some ("unsupported license: " ++ "mit")) :=
  ⟨(LicenseGenerator_Generate_spec sampleEnv sampleConfig "out/shopcart" sampleFS).2.2
      (by decide) |>.imp fun _ h => ⟨h.1, h.2.1, h.2.2.1⟩,
   (LicenseGenerator_Generate_spec sampleEnv { sampleConfig with License := "mit" }
      "out/shopcart" sampleFS).2.1 (by decide)⟩

/-! ### Paths: the last element survives `Clean` and `Join` -/

theorem splitOnSlash_ne_nil (cs : List Char) : splitOnSlash cs ≠ [] := by
  cases cs with
  | nil => simp [splitOnSlash]
  | cons c cs =>
    simp only [splitOnSlash]
    rcases h : splitOnSlash cs with _ | ⟨seg, rest⟩
    · simp
    · by_cases hc : c = '/' <;> simp [hc]

theorem splitOnSlash_append (x cs : List Char) :
    splitOnSlash (x ++ '/' :: cs) = splitOnSlash x ++ splitOnSlash cs := by
  induction x with
  | nil =>
    rcases h : splitOnSlash cs with _ | ⟨seg, rest⟩
    · exact absurd h (splitOnSlash_ne_nil cs)
    · simp [splitOnSlash, h]
  | cons c x ih =>
    rcases h : splitOnSlash x with _ | ⟨seg, rest⟩
    · exact absurd h (splitOnSlash_ne_nil x)
    · have e1 : splitOnSlash (c :: x) =
          if c = '/' then [] :: seg :: rest else (c :: seg) :: rest := by
        simp [splitOnSlash, h]
      have e2 : splitOnSlash (c :: (x ++ '/' :: cs)) =
          if c = '/' then [] :: seg :: (rest ++ splitOnSlash cs)
          else (c :: seg) :: (rest ++ splitOnSlash cs) := by
        simp [splitOnSlash, ih, h]
      rw [List.cons_append, e1, e2]
      by_cases hc : c = '/' <;> simp [hc]

theorem cleanSegs_append_plain (rooted : Bool) (segs : List (List Char)) (n : List Char)
    (h1 : n ≠ []) (h2 : n ≠ ['.']) (h3 : n ≠ ['.', '.']) :
    cleanSegs rooted (segs ++ [n]) = cleanSegs rooted segs ++ [n] := by
  simp [cleanSegs, List.foldl_append, cleanStep, h1, h2, h3]

theorem suffix_intercalate_append (sep : List Char) (l : List (List Char)) (n : List Char) :
    n <:+ List.intercalate sep (l ++ [n]) := by
  induction l with
  | nil => simp [List.intercalate]
  | cons a l ih =>
    cases l with
    | nil =>
      simp only [List.intercalate, List.cons_append, List.nil_append, List.intersperse,
        List.flatten, List.append_nil]
      exact ⟨a ++ sep, by simp⟩
    | cons b l =>
      simp only [List.intercalate, List.cons_append, List.intersperse, List.flatten] at ih ⊢
      obtain ⟨t, ht⟩ := ih
      exact ⟨a ++ (sep ++ t), by simp [← ht]⟩

theorem Clean_suffix (s n : String) (hn : plainName n = true) (hk : lastElementIs s n) :
    n.data <:+ (Clean s).data := by
  obtain ⟨front, hf⟩ := List.getLast?_eq_some_iff.mp hk
  simp only [plainName, Bool.and_eq_true, decide_eq_true_eq] at hn
  obtain ⟨⟨h1, h2⟩, h3⟩ := hn
  have hne : s.data ≠ [] := by
    intro h0
    rw [h0] at hf
    simp only [splitOnSlash] at hf
    rcases front with _ | ⟨f, front⟩
    · simp at hf
      exact h1 hf
    · simp at hf
  have hs : ∀ r : Bool, n.data <:+ List.intercalate ['/'] (cleanSegs r (splitOnSlash s.data)) := by
    intro r
    rw [hf, cleanSegs_append_plain _ _ _ h1 h2 h3]
    exact suffix_intercalate_append ['/'] _ n.data
  have hseg : ∀ r : Bool, cleanSegs r (splitOnSlash s.data) ≠ [] := by
    intro r
    rw [hf, cleanSegs_append_plain _ _ _ h1 h2 h3]
    simp
  by_cases hr : s.data.head? = some '/'
  · have e : Clean s = "/" ++ String.mk (List.intercalate ['/'] (cleanSegs true (splitOnSlash s.data))) := by
      simp [Clean, hne, hr]
    rw [e, String.data_append]
    exact (hs true).trans (List.suffix_append _ _)
  · have e : Clean s = String.mk (List.intercalate ['/'] (cleanSegs false (splitOnSlash s.data))) := by
      simp [Clean, hne, hr, hseg false]
    rw [e]
    exact hs false

theorem lastElementIs_append (x k n : String) (hk : lastElementIs k n) :
    lastElementIs (x ++ "/" ++ k) n := by
  unfold lastElementIs at *
  have e : (x ++ "/" ++ k).data = x.data ++ '/' :: k.data := by
    simp [String.data_append]
  rw [e, splitOnSlash_append]
  obtain ⟨front, hf⟩ := List.getLast?_eq_some_iff.mp hk
  rw [hf, ← List.append_assoc]
  simp

/-- The path `Join a k` ends with the last element of `k`. -/
theorem Join_suffix (a k n : String) (hn : plainName n = true) (hk : lastElementIs k n) :
    n.data <:+ (Join a k).data := by
  by_cases ha : a = ""
  · by_cases hkk : k = ""
    · subst hkk
      exfalso
      simp only [plainName, Bool.and_eq_true, decide_eq_true_eq] at hn
      have : some ([] : List Char) = some n.data := by
        rw [← hk]
        rfl
      exact hn.1.1 (Option.some.inj this).symm
    · have e : Join a k = Clean k := by simp [Join, ha, hkk]
      rw [e]
      exact Clean_suffix k n hn hk
  · have e : Join a k = Clean (a ++ "/" ++ k) := by simp [Join, ha]
    rw [e]
    exact Clean_suffix _ n hn (lastElementIs_append a k n hk)

/-- Two output paths whose last elements are not each other's suffix are joined to
different paths. -/
theorem Join_ne (a k1 k2 n1 n2 : String) (hn1 : plainName n1 = true) (hn2 : plainName n2 = true)
    (hk1 : lastElementIs k1 n1) (hk2 : lastElementIs k2 n2)
    (h12 : ¬ n1.data <:+ n2.data) (h21 : ¬ n2.data <:+ n1.data) : Join a k1 ≠ Join a k2 := by
  intro h
  have s1 := Join_suffix a k1 n1 hn1 hk1
  have s2 := Join_suffix a k2 n2 hn2 hk2
  rw [h] at s1
  rcases List.suffix_or_suffix_of_suffix s1 s2 with h3 | h3
  · exact h12 h3
  · exact h21 h3

theorem lastElementIs_self_of_mem (n : String)
    (h : n ∈ topLevelNames ∨ n ∈ architectureFileNames) :
    plainName n = true ∧ lastElementIs n n := by
  simp only [topLevelNames, architectureFileNames, List.mem_cons, List.mem_singleton,
    List.mem_nil_iff, or_false] at h
  unfold lastElementIs
  rcases h with (h | h | h | h | h | h | h | h) | (h | h | h | h | h | h | h) <;> subst h <;>
    exact ⟨by decide, by decide⟩

theorem not_suffix_of_mem (n1 n2 : String) (h1 : n1 ∈ topLevelNames)
    (h2 : n2 ∈ topLevelNames ∨ n2 ∈ architectureFileNames) (hne : n1 ≠ n2) :
    ¬ n1.data <:+ n2.data ∧ ¬ n2.data <:+ n1.data := by
  have key : ∀ a ∈ topLevelNames, ∀ b ∈ topLevelNames ++ architectureFileNames,
      a ≠ b → a.data.isSuffixOf b.data = false ∧ b.data.isSuffixOf a.data = false := by
    decide
  have hb : n2 ∈ topLevelNames ++ architectureFileNames := List.mem_append.mpr h2
  obtain ⟨k1, k2⟩ := key n1 h1 n2 hb hne
  constructor
  · intro h
    rw [← List.isSuffixOf_iff_suffix] at h
    rw [h] at k1
    cases k1
  · intro h
    rw [← List.isSuffixOf_iff_suffix] at h
    rw [h] at k2
    cases k2

/-- Two different top-level names are joined to different paths. -/
theorem Join_topLevel_ne (root n1 n2 : String) (h1 : n1 ∈ topLevelNames)
    (h2 : n2 ∈ topLevelNames) (hne : n1 ≠ n2) : Join root n1 ≠ Join root n2 := by
  have a1 := lastElementIs_self_of_mem n1 (Or.inl h1)
  have a2 := lastElementIs_self_of_mem n2 (Or.inl h2)
  have ns := not_suffix_of_mem n1 n2 h1 (Or.inl h2) hne
  exact Join_ne root n1 n2 n1 n2 a1.1 a2.1 a1.2 a2.2 ns.1 ns.2

/-! ### The emitters write their own files and nothing else -/

theorem OnlyWrites.refl (fs : FS) (paths : List String) : OnlyWrites fs fs paths :=
  ⟨rfl, rfl, fun _ _ => rfl⟩

theorem OnlyWrites.trans {fs fs1 fs2 : FS} {p1 p2 : List String} (h1 : OnlyWrites fs fs1 p1)
    (h2 : OnlyWrites fs1 fs2 p2) : OnlyWrites fs fs2 (p1 ++ p2) := by
  refine ⟨h2.1.trans h1.1, h2.2.1.trans h1.2.1, ?_⟩
  intro x hx
  rw [h2.2.2 x (fun h => hx (List.mem_append_right _ h)),
    h1.2.2 x (fun h => hx (List.mem_append_left _ h))]

theorem OnlyWrites.mono {fs fs1 : FS} {p1 p2 : List String} (h : OnlyWrites fs fs1 p1)
    (hsub : p1 ⊆ p2) : OnlyWrites fs fs1 p2 :=
  ⟨h.1, h.2.1, fun x hx => h.2.2 x (fun hm => hx (hsub hm))⟩

theorem OnlyWrites_WriteFile (fs : FS) (name data : String) :
    OnlyWrites fs (WriteFile fs name data).1 [name] := by
  have w := WriteFile_spec fs name data
  exact ⟨w.1, w.2.1, fun x hx => w.2.2.2.2 x (by simpa using hx)⟩

theorem OnlyWrites.isFile_false {fs fs1 : FS} {paths : List String} (h : OnlyWrites fs fs1 paths)
    (x : String) (hx : x ∉ paths) (hf : isFile fs x = false) : isFile fs1 x = false := by
  rw [isFile_eq_readFile, h.2.2 x hx, ← isFile_eq_readFile]
  exact hf

/-- What `GenerateCommonFiles` does: it writes `go.mod`, `README.md` and `.gitignore`
under the project path and nothing else; after success the three hold what their emitters
produced. -/
theorem GenerateCommonFiles_spec (fg : FileGenerator) (root : String) (fs : FS) :
    OnlyWrites fs (fg.GenerateCommonFiles root fs).1
      [Join root "go.mod", Join root "README.md", Join root ".gitignore"] ∧
    ((fg.GenerateCommonFiles root fs).2 = none →
      readFile (fg.GenerateCommonFiles root fs).1 (Join root "go.mod") =
        some (goModContent fg.config) ∧
      readFile (fg.GenerateCommonFiles root fs).1 (Join root "README.md") =
        some (readmeContent fg.config) ∧
      readFile (fg.GenerateCommonFiles root fs).1 (Join root ".gitignore") =
        some gitignoreContent) := by
  have n12 : Join root "go.mod" ≠ Join root "README.md" :=
    Join_topLevel_ne root _ _ (by decide) (by decide) (by decide)
  have n13 : Join root "go.mod" ≠ Join root ".gitignore" :=
    Join_topLevel_ne root _ _ (by decide) (by decide) (by decide)
  have n23 : Join root "README.md" ≠ Join root ".gitignore" :=
    Join_topLevel_ne root _ _ (by decide) (by decide) (by decide)
  have w1 := WriteFile_spec fs (Join root "go.mod") (goModContent fg.config)
  have o1 := OnlyWrites_WriteFile fs (Join root "go.mod") (goModContent fg.config)
  rcases h1 : WriteFile fs (Join root "go.mod") (goModContent fg.config) with ⟨fs1, _ | err⟩
  · rw [h1] at w1 o1
    have w2 := WriteFile_spec fs1 (Join root "README.md") (readmeContent fg.config)
    have o2 := OnlyWrites_WriteFile fs1 (Join root "README.md") (readmeContent fg.config)
    rcases h2 : WriteFile fs1 (Join root "README.md") (readmeContent fg.config) with
      ⟨fs2, _ | err⟩
    · rw [h2] at w2 o2
      have w3 := WriteFile_spec fs2 (Join root ".gitignore") gitignoreContent
      have o3 := OnlyWrites_WriteFile fs2 (Join root ".gitignore") gitignoreContent
      rcases h3 : WriteFile fs2 (Join root ".gitignore") gitignoreContent with ⟨fs3, _ | err⟩
      · rw [h3] at w3 o3
        have e : fg.GenerateCommonFiles root fs = (fs3, none) := by
          simp [FileGenerator.GenerateCommonFiles, GenerateGoMod, GenerateReadme,
            GenerateGitignore, h1, h2, h3]
        rw [e]
        refine ⟨(o1.trans o2).trans o3, fun _ => ⟨?_, ?_, w3.2.2.2.1 rfl⟩⟩
        · rw [w3.2.2.2.2 _ n13, w2.2.2.2.2 _ n12]
          exact w1.2.2.2.1 rfl
        · rw [w3.2.2.2.2 _ n23]
          exact w2.2.2.2.1 rfl
      · rw [h3] at w3 o3
        have e : fg.GenerateCommonFiles root fs =
            (fs3, some ("failed to generate .gitignore: " ++ err)) := by
          simp [FileGenerator.GenerateCommonFiles, GenerateGoMod, GenerateReadme,
            GenerateGitignore, h1, h2, h3]
        rw [e]
        exact ⟨(o1.trans o2).trans o3, fun h => absurd h (by simp)⟩
    · rw [h2] at w2 o2
      have e : fg.GenerateCommonFiles root fs =
          (fs2, some ("failed to generate README.md: " ++ err)) := by
        simp [FileGenerator.GenerateCommonFiles, GenerateGoMod, GenerateReadme, h1, h2]
      rw [e]
      exact ⟨(o1.trans o2).mono (by simp), fun h => absurd h (by simp)⟩
  · rw [h1] at w1 o1
    have e : fg.GenerateCommonFiles root fs =
        (fs1, some ("failed to generate go.mod: " ++ err)) := by
      simp [FileGenerator.GenerateCommonFiles, GenerateGoMod, h1]
    rw [e]
    exact ⟨o1.mono (by simp), fun h => absurd h (by simp)⟩

/-- What `MakefileGenerator.Generate` does: it writes `Makefile` and nothing else. -/
theorem MakefileGenerator_Generate_spec (config : Config) (root : String) (fs : FS) :
    OnlyWrites fs (MakefileGenerator.Generate config root fs).1 [Join root "Makefile"] ∧
    ((MakefileGenerator.Generate config root fs).2 = none →
      readFile (MakefileGenerator.Generate config root fs).1 (Join root "Makefile") =
        some (makefileContent config)) :=
  ⟨OnlyWrites_WriteFile fs _ _, (WriteFile_spec fs _ _).2.2.2.1⟩

/-- What `DockerGenerator.Generate` does: it writes the three Docker files and nothing
else. -/
theorem DockerGenerator_Generate_spec (config : Config) (root : String) (fs : FS) :
    OnlyWrites fs (DockerGenerator.Generate config root fs).1
      [Join root "Dockerfile", Join root "docker-compose.yml", Join root ".dockerignore"] := by
  have o1 := OnlyWrites_WriteFile fs (Join root "Dockerfile") (dockerfileContent config)
  rcases h1 : WriteFile fs (Join root "Dockerfile") (dockerfileContent config) with
    ⟨fs1, _ | err⟩
  · rw [h1] at o1
    have o2 := OnlyWrites_WriteFile fs1 (Join root "docker-compose.yml")
      (dockerComposeContent config)
    rcases h2 : WriteFile fs1 (Join root "docker-compose.yml") (dockerComposeContent config)
      with ⟨fs2, _ | err⟩
    · rw [h2] at o2
      have o3 := OnlyWrites_WriteFile fs2 (Join root ".dockerignore") dockerignoreContent
      rcases h3 : WriteFile fs2 (Join root ".dockerignore") dockerignoreContent with
        ⟨fs3, _ | err⟩
      · rw [h3] at o3
        have e : DockerGenerator.Generate config root fs = (fs3, none) := by
          simp [DockerGenerator.Generate, generateDockerfile, generateDockerCompose,
            generateDockerignore, h1, h2, h3]
        rw [e]
        exact (o1.trans o2).trans o3
      · rw [h3] at o3
        have e : DockerGenerator.Generate config root fs =
            (fs3, some ("failed to generate .dockerignore: " ++ err)) := by
          simp [DockerGenerator.Generate, generateDockerfile, generateDockerCompose,
            generateDockerignore, h1, h2, h3]
        rw [e]
        exact (o1.trans o2).trans o3
    · rw [h2] at o2
      have e : DockerGenerator.Generate config root fs =
          (fs2, some ("failed to generate docker-compose.yml: " ++ err)) := by
        simp [DockerGenerator.Generate, generateDockerfile, generateDockerCompose, h1, h2]
      rw [e]
      exact (o1.trans o2).mono (by simp)
  · rw [h1] at o1
    have e : DockerGenerator.Generate config root fs =
        (fs1, some ("failed to generate Dockerfile: " ++ err)) := by
      simp [DockerGenerator.Generate, generateDockerfile, h1]
    rw [e]
    exact o1.mono (by simp)

/-- The Docker step writes at most the three Docker files. -/
theorem dockerStep_spec (fg : FileGenerator) (root : String) (fs : FS) :
    OnlyWrites fs (fg.dockerStep root fs).1
      [Join root "Dockerfile", Join root "docker-compose.yml", Join root ".dockerignore"] := by
  unfold FileGenerator.dockerStep
  by_cases hd : fg.config.WithDocker = true
  · have o := DockerGenerator_Generate_spec fg.config root fs
    rcases h : DockerGenerator.Generate fg.config root fs with ⟨fs1, _ | err⟩
    · rw [h] at o
      simpa [hd, h] using o
    · rw [h] at o
      simpa [hd, h] using o
  · simp only [hd]
    exact OnlyWrites.refl fs _

/-- The license step writes at most `LICENSE`; with an identifier that is neither `None`,
empty nor supported it fails and changes nothing. -/
theorem licenseStep_spec (fg : FileGenerator) (env : Env) (root : String) (fs : FS) :
    OnlyWrites fs (fg.licenseStep env root fs).1 [Join root "LICENSE"] ∧
    (fg.config.License ≠ "None" → fg.config.License ≠ "" →
      fg.config.License ∉ supportedLicenses →
      fg.licenseStep env root fs =
        (fs, some ("failed to generate license: " ++
          ("unsupported license: " ++ fg.config.License)))) := by
  constructor
  · unfold FileGenerator.licenseStep
    by_cases hl : fg.config.License ≠ "None" ∧ fg.config.License ≠ ""
    · by_cases hs : fg.config.License ∈ supportedLicenses
      · obtain ⟨body, e, _⟩ :=
          (LicenseGenerator_Generate_core env fg.config root fs).2 hs
        have o := OnlyWrites_WriteFile fs (Join root "LICENSE") body
        rw [← e] at o
        rcases h : LicenseGenerator.Generate env fg.config root fs with ⟨fs1, _ | err⟩
        · rw [h] at o
          simpa [hl, h] using o
        · rw [h] at o
          simpa [hl, h] using o
      · have e := (LicenseGenerator_Generate_core env fg.config root fs).1 hs
        rw [if_pos hl, e]
        exact OnlyWrites.refl fs _
    · rw [if_neg hl]
      exact OnlyWrites.refl fs _
  · intro h1 h2 hs
    have e := (LicenseGenerator_Generate_core env fg.config root fs).1 hs
    simp [FileGenerator.licenseStep, h1, h2, e]

/-! ### The phases of `Generate` -/

theorem foldl_AddDirectory (l : List String) (ps : ProjectStructure) :
    (l.foldl ProjectStructure.AddDirectory ps).Directories = ps.Directories ++ l := by
  induction l generalizing ps with
  | nil => simp
  | cons d l ih => simp [List.foldl, ih, ProjectStructure.AddDirectory]

/-- The directory list of `GetStructure` is the `dirs` literal. -/
theorem GetStructure_Directories (a : Architecture) : a.GetStructure.Directories = a.dirs := by
  simp [Architecture.GetStructure, foldl_AddDirectory, NewProjectStructure]

/-- What the loop of `generateStructure` can do to a state. -/
theorem createDirectories_spec (root : String) (dirs : List String) (fs : FS) :
    (createDirectories root fs dirs).1.files = fs.files ∧
    (createDirectories root fs dirs).1.denied = fs.denied ∧
    fs.dirs ⊆ (createDirectories root fs dirs).1.dirs ∧
    (∀ d ∈ (createDirectories root fs dirs).1.dirs,
      d ∈ fs.dirs ∨ ∃ x ∈ dirs, d ∈ ancestorsOrSelf (Join root x)) ∧
    ((createDirectories root fs dirs).2 = none →
      ∀ x ∈ dirs, isDir (createDirectories root fs dirs).1 (Join root x) = true) := by
  induction dirs generalizing fs with
  | nil =>
    have e : createDirectories root fs [] = (fs, none) := rfl
    rw [e]
    exact ⟨rfl, rfl, fun d hd => hd, fun d hd => Or.inl hd,
      fun _ x hx => absurd hx (List.not_mem_nil x)⟩
  | cons dir rest ih =>
    have m := MkdirAll_spec fs (Join root dir)
    rcases hm : MkdirAll fs (Join root dir) with ⟨fs1, _ | err⟩
    · rw [hm] at m
      have e : createDirectories root fs (dir :: rest) = createDirectories root fs1 rest := by
        simp [createDirectories, hm]
      rw [e]
      have i := ih fs1
      refine ⟨i.1.trans m.1, i.2.1.trans m.2.1, fun d hd => i.2.2.1 (m.2.2.1 hd), ?_, ?_⟩
      · intro d hd
        rcases i.2.2.2.1 d hd with hd | ⟨x, hx, hd⟩
        · rcases m.2.2.2.1 d hd with hd | hd
          · exact Or.inl hd
          · exact Or.inr ⟨dir, List.mem_cons_self _ _, hd⟩
        · exact Or.inr ⟨x, List.mem_cons_of_mem _ hx, hd⟩
      · intro hok x hx
        rcases List.mem_cons.mp hx with hx | hx
        · subst hx
          exact isDir_mono fs1 _ _ i.2.2.1 (m.2.2.2.2 rfl)
        · exact i.2.2.2.2 hok x hx
    · rw [hm] at m
      have e : createDirectories root fs (dir :: rest) =
          (fs1, some ("failed to create directory " ++ dir ++ ": " ++ err)) := by
        simp [createDirectories, hm]
      rw [e]
      refine ⟨m.1, m.2.1, m.2.2.1, ?_, fun h => absurd h (by simp)⟩
      intro d hd
      rcases m.2.2.2.1 d hd with hd | hd
      · exact Or.inl hd
      · exact Or.inr ⟨dir, List.mem_cons_self _ _, hd⟩

/-- A generator that `New` returned holds the config it was given, in both places, and an
architecture whose name is the configured one. -/
theorem New_ok (env : Env) (config : Config) (logger : Option Logger) (g : Generator)
    (h : New env (some config) logger = .ok g) :
    g.config = config ∧ g.fileGen.config = config ∧ g.arch.GetName = config.Architecture ∧
    createArchitecture env config.Architecture = .ok g.arch := by
  cases logger with
  | none => simp [New] at h
  | some lg =>
    simp only [New] at h
    rcases hc : createArchitecture env config.Architecture with a | msg | msg
    · simp only [hc, NewFileGenerator] at h
      have hg := Outcome.ok.inj h
      subst hg
      exact ⟨rfl, rfl, createArchitecture_ok_name env config.Architecture a hc, rfl⟩
    · simp [hc] at h
    · simp [hc] at h

/-- The six ways `Generate` can end: a failure in one of its five phases, each error
prefixed with the name of the phase, or success after all five. -/
theorem Generate_phases (g : Generator) (env : Env) (ord : MapOrder) (fs : FS) :
    (∃ fs1 err, MkdirAll fs (Join g.config.TargetDir g.config.ProjectName) = (fs1, some err) ∧
      g.Generate env ord fs = (fs1, some ("failed to create project directory: " ++ err))) ∨
    (∃ fs1 fs2 err,
      MkdirAll fs (Join g.config.TargetDir g.config.ProjectName) = (fs1, none) ∧
      g.generateStructure (Join g.config.TargetDir g.config.ProjectName) fs1 =
        (fs2, some err) ∧
      g.Generate env ord fs = (fs2, some ("failed to generate structure: " ++ err))) ∨
    (∃ fs1 fs2 fs3 err,
      MkdirAll fs (Join g.config.TargetDir g.config.ProjectName) = (fs1, none) ∧
      g.generateStructure (Join g.config.TargetDir g.config.ProjectName) fs1 = (fs2, none) ∧
      g.arch.GenerateFiles env ord (Join g.config.TargetDir g.config.ProjectName) g.config fs2 =
        (fs3, some err) ∧
      g.Generate env ord fs =
        (fs3, some ("failed to generate architecture files: " ++ err))) ∨
    (∃ fs1 fs2 fs3 fs4 err,
      MkdirAll fs (Join g.config.TargetDir g.config.ProjectName) = (fs1, none) ∧
      g.generateStructure (Join g.config.TargetDir g.config.ProjectName) fs1 = (fs2, none) ∧
      g.arch.GenerateFiles env ord (Join g.config.TargetDir g.config.ProjectName) g.config fs2 =
        (fs3, none) ∧
      g.fileGen.GenerateCommonFiles (Join g.config.TargetDir g.config.ProjectName) fs3 =
        (fs4, some err) ∧
      g.Generate env ord fs = (fs4, some ("failed to generate common files: " ++ err))) ∨
    (∃ fs1 fs2 fs3 fs4 fs5 err,
      MkdirAll fs (Join g.config.TargetDir g.config.ProjectName) = (fs1, none) ∧
      g.generateStructure (Join g.config.TargetDir g.config.ProjectName) fs1 = (fs2, none) ∧
      g.arch.GenerateFiles env ord (Join g.config.TargetDir g.config.ProjectName) g.config fs2 =
        (fs3, none) ∧
      g.fileGen.GenerateCommonFiles (Join g.config.TargetDir g.config.ProjectName) fs3 =
        (fs4, none) ∧
      g.fileGen.GenerateOptionalFiles env (Join g.config.TargetDir g.config.ProjectName) fs4 =
        (fs5, some err) ∧
      g.Generate env ord fs = (fs5, some ("failed to generate optional files: " ++ err))) ∨
    (∃ fs1 fs2 fs3 fs4 fs5,
      MkdirAll fs (Join g.config.TargetDir g.config.ProjectName) = (fs1, none) ∧
      g.generateStructure (Join g.config.TargetDir g.config.ProjectName) fs1 = (fs2, none) ∧
      g.arch.GenerateFiles env ord (Join g.config.TargetDir g.config.ProjectName) g.config fs2 =
        (fs3, none) ∧
      g.fileGen.GenerateCommonFiles (Join g.config.TargetDir g.config.ProjectName) fs3 =
        (fs4, none) ∧
      g.fileGen.GenerateOptionalFiles env (Join g.config.TargetDir g.config.ProjectName) fs4 =
        (fs5, none) ∧
      g.Generate env ord fs = (fs5, none)) := by
  rcases h1 : MkdirAll fs (Join g.config.TargetDir g.config.ProjectName) with ⟨fs1, _ | err⟩
  · rcases h2 : g.generateStructure (Join g.config.TargetDir g.config.ProjectName) fs1 with
      ⟨fs2, _ | err⟩
    · rcases h3 : g.arch.GenerateFiles env ord (Join g.config.TargetDir g.config.ProjectName)
        g.config fs2 with ⟨fs3, _ | err⟩
      · rcases h4 : g.fileGen.GenerateCommonFiles
          (Join g.config.TargetDir g.config.ProjectName) fs3 with ⟨fs4, _ | err⟩
        · rcases h5 : g.fileGen.GenerateOptionalFiles env
            (Join g.config.TargetDir g.config.ProjectName) fs4 with ⟨fs5, _ | err⟩
          · right; right; right; right; right
            exact ⟨fs1, fs2, fs3, fs4, fs5, rfl, h2, h3, h4, h5,
              by simp [Generator.Generate, h1, h2, h3, h4, h5]⟩
          · right; right; right; right; left
            exact ⟨fs1, fs2, fs3, fs4, fs5, err, rfl, h2, h3, h4, h5,
              by simp [Generator.Generate, h1, h2, h3, h4, h5]⟩
        · right; right; right; left
          exact ⟨fs1, fs2, fs3, fs4, err, rfl, h2, h3, h4,
            by simp [Generator.Generate, h1, h2, h3, h4]⟩
      · right; right; left
        exact ⟨fs1, fs2, fs3, err, rfl, h2, h3, by simp [Generator.Generate, h1, h2, h3]⟩
    · right; left
      exact ⟨fs1, fs2, err, rfl, h2, by simp [Generator.Generate, h1, h2]⟩
  · left
    exact ⟨fs1, err, rfl, by simp [Generator.Generate, h1]⟩

/-- The four ways `GenerateOptionalFiles` can go: a failure of the Makefile, Docker or
license step, or the git step after the three went through. -/
theorem GenerateOptionalFiles_phases (fg : FileGenerator) (env : Env) (root : String) (fs : FS) :
    (∃ fs1 err, MakefileGenerator.Generate fg.config root fs = (fs1, some err) ∧
      fg.GenerateOptionalFiles env root fs =
        (fs1, some ("failed to generate Makefile: " ++ err))) ∨
    (∃ fs1 fs2 err, MakefileGenerator.Generate fg.config root fs = (fs1, none) ∧
      fg.dockerStep root fs1 = (fs2, some err) ∧
      fg.GenerateOptionalFiles env root fs = (fs2, some err)) ∨
    (∃ fs1 fs2 fs3 err, MakefileGenerator.Generate fg.config root fs = (fs1, none) ∧
      fg.dockerStep root fs1 = (fs2, none) ∧
      fg.licenseStep env root fs2 = (fs3, some err) ∧
      fg.GenerateOptionalFiles env root fs = (fs3, some err)) ∨
    (∃ fs1 fs2 fs3, MakefileGenerator.Generate fg.config root fs = (fs1, none) ∧
      fg.dockerStep root fs1 = (fs2, none) ∧
      fg.licenseStep env root fs2 = (fs3, none) ∧
      fg.GenerateOptionalFiles env root fs = fg.gitStep env root fs3) := by
  rcases h1 : MakefileGenerator.Generate fg.config root fs with ⟨fs1, _ | err⟩
  · rcases h2 : fg.dockerStep root fs1 with ⟨fs2, _ | err⟩
    · rcases h3 : fg.licenseStep env root fs2 with ⟨fs3, _ | err⟩
      · right; right; right
        exact ⟨fs1, fs2, fs3, rfl, h2, h3,
          by simp [FileGenerator.GenerateOptionalFiles, h1, h2, h3]⟩
      · right; right; left
        exact ⟨fs1, fs2, fs3, err, rfl, h2, h3,
          by simp [FileGenerator.GenerateOptionalFiles, h1, h2, h3]⟩
    · right; left
      exact ⟨fs1, fs2, err, rfl, h2, by simp [FileGenerator.GenerateOptionalFiles, h1, h2]⟩
  · left
    exact ⟨fs1, err, rfl, by simp [FileGenerator.GenerateOptionalFiles, h1]⟩

/-- Without git initialisation `GenerateOptionalFiles` creates no directory. -/
theorem GenerateOptionalFiles_dirs (fg : FileGenerator) (env : Env) (root : String) (fs : FS)
    (hgit : fg.config.WithGit = false) :
    (fg.GenerateOptionalFiles env root fs).1.dirs = fs.dirs := by
  have hg : ∀ s, fg.gitStep env root s = (s, none) := by
    intro s
    simp [FileGenerator.gitStep, hgit]
  rcases GenerateOptionalFiles_phases fg env root fs with
    ⟨fs1, err, h1, e⟩ | ⟨fs1, fs2, err, h1, h2, e⟩ | ⟨fs1, fs2, fs3, err, h1, h2, h3, e⟩ |
    ⟨fs1, fs2, fs3, h1, h2, h3, e⟩
  · have o1 := (MakefileGenerator_Generate_spec fg.config root fs).1
    rw [h1] at o1
    rw [e]
    exact o1.1
  · have o1 := (MakefileGenerator_Generate_spec fg.config root fs).1
    have o2 := dockerStep_spec fg root fs1
    rw [h1] at o1
    rw [h2] at o2
    rw [e]
    exact o2.1.trans o1.1
  · have o1 := (MakefileGenerator_Generate_spec fg.config root fs).1
    have o2 := dockerStep_spec fg root fs1
    have o3 := (licenseStep_spec fg env root fs2).1
    rw [h1] at o1
    rw [h2] at o2
    rw [h3] at o3
    rw [e]
    exact o3.1.trans (o2.1.trans o1.1)
  · have o1 := (MakefileGenerator_Generate_spec fg.config root fs).1
    have o2 := dockerStep_spec fg root fs1
    have o3 := (licenseStep_spec fg env root fs2).1
    rw [h1] at o1
    rw [h2] at o2
    rw [h3] at o3
    rw [e, hg]
    exact o3.1.trans (o2.1.trans o1.1)

theorem mem_mapKeys_foldl_mapSet (l : List (String × String)) (m : List (String × String))
    (x : String) :
    x ∈ mapKeys (l.foldl (fun m kv => mapSet m kv.1 kv.2) m) ↔ x ∈ mapKeys m ∨ x ∈ mapKeys l := by
  induction l generalizing m with
  | nil => simp [mapKeys]
  | cons kv l ih =>
    simp only [List.foldl, ih, mem_mapKeys_mapSet]
    simp only [mapKeys, List.map_cons, List.mem_cons]
    tauto

/-- The keys of the map a composite literal builds are the keys written in it. -/
theorem mem_mapKeys_mapOfBindings (l : List (String × String)) (x : String) :
    x ∈ mapKeys (mapOfBindings l) ↔ x ∈ mapKeys l := by
  unfold mapOfBindings
  rw [mem_mapKeys_foldl_mapSet]
  simp [mapKeys]

/-! ### C3: the directories `Generate` creates -/

/-- The directories `GenerateFiles` may add are directories of output paths written in
its map literal, and ancestors of them. -/
theorem GenerateFiles_dirs (a : Architecture) (env : Env) (ord : MapOrder) (root : String)
    (config : Config) (fs : FS) :
    fs.dirs ⊆ (a.GenerateFiles env ord root config fs).1.dirs ∧
    ∀ d ∈ (a.GenerateFiles env ord root config fs).1.dirs,
      d ∈ fs.dirs ∨ ∃ kv ∈ a.fileBindings config, d ∈ ancestorsOrSelf (Dir (Join root kv.1)) := by
  unfold Architecture.GenerateFiles renderAndWriteFiles
  have sp := renderAndWriteLoop_spec env a.templateManager root (NewTemplateData env config)
    (ord.visit (mapOfBindings (a.fileBindings config))) fs
  refine ⟨sp.2.1, ?_⟩
  intro d hd
  rcases sp.2.2.1 d hd with hd | ⟨kv, hkv, hd⟩
  · exact Or.inl hd
  · right
    have h1 : kv ∈ mapOfBindings (a.fileBindings config) := (ord.perm _).mem_iff.mp hkv
    have h2 : kv.1 ∈ mapKeys (mapOfBindings (a.fileBindings config)) :=
      List.mem_map_of_mem Prod.fst h1
    rw [mem_mapKeys_mapOfBindings] at h2
    obtain ⟨kv1, hkv1, he⟩ := List.mem_map.mp h2
    exact ⟨kv1, hkv1, by rw [he]; exact hd⟩

/-- C3 (as amended): after a successful `Generate` that does not initialise git, every
directory the architecture declares exists under the project root, and every directory of
the resulting state was there before, or is the project root or an ancestor of it, or a
declared directory or an ancestor of one, or the directory of a generated architecture
file or an ancestor of it. -/
theorem Generate_directories (env : Env) (ord : MapOrder) (config : Config)
    (logger : Option Logger) (g : Generator) (fs : FS)
    (hNew : New env (some config) logger = .ok g) (hgit : config.WithGit = false)
    (hok : (g.Generate env ord fs).2 = none) :
    g.arch.GetName = config.Architecture ∧
    (∀ d ∈ g.arch.GetStructure.Directories,
      isDir (g.Generate env ord fs).1 (Join (Join config.TargetDir config.ProjectName) d) =
        true) ∧
    (∀ p ∈ (g.Generate env ord fs).1.dirs,
      p ∈ fs.dirs ∨
      p ∈ ancestorsOrSelf (Join config.TargetDir config.ProjectName) ∨
      (∃ d ∈ g.arch.GetStructure.Directories,
        p ∈ ancestorsOrSelf (Join (Join config.TargetDir config.ProjectName) d)) ∨
      (∃ kv ∈ g.arch.fileBindings config,
        p ∈ ancestorsOrSelf (Dir (Join (Join config.TargetDir config.ProjectName) kv.1)))) := by
  obtain ⟨hc, hfc, hname, _⟩ := New_ok env config logger g hNew
  refine ⟨hname, ?_⟩
  rcases Generate_phases g env ord fs with
    ⟨fs1, err, _, e⟩ | ⟨fs1, fs2, err, _, _, e⟩ | ⟨fs1, fs2, fs3, err, _, _, _, e⟩ |
    ⟨fs1, fs2, fs3, fs4, err, _, _, _, _, e⟩ |
    ⟨fs1, fs2, fs3, fs4, fs5, err, _, _, _, _, _, e⟩ |
    ⟨fs1, fs2, fs3, fs4, fs5, h1, h2, h3, h4, h5, e⟩
  · rw [e] at hok; simp at hok
  · rw [e] at hok; simp at hok
  · rw [e] at hok; simp at hok
  · rw [e] at hok; simp at hok
  · rw [e] at hok; simp at hok
  · rw [e]
    rw [hc] at h1 h2 h3 h4 h5
    have m1 := MkdirAll_spec fs (Join config.TargetDir config.ProjectName)
    have m2 := createDirectories_spec (Join config.TargetDir config.ProjectName)
      g.arch.GetStructure.Directories fs1
    have m3 := GenerateFiles_dirs g.arch env ord (Join config.TargetDir config.ProjectName)
      config fs2
    have m4 := (GenerateCommonFiles_spec g.fileGen
      (Join config.TargetDir config.ProjectName) fs3).1.1
    have m5 := GenerateOptionalFiles_dirs g.fileGen env
      (Join config.TargetDir config.ProjectName) fs4 (by rw [hfc]; exact hgit)
    have h2' : createDirectories (Join config.TargetDir config.ProjectName) fs1
        g.arch.GetStructure.Directories = (fs2, none) := h2
    rw [h1] at m1
    rw [h2'] at m2
    rw [h3] at m3
    rw [h4] at m4
    rw [h5] at m5
    have d53 : fs5.dirs = fs3.dirs := m5.trans m4
    constructor
    · intro d hd
      have hd2 := m2.2.2.2.2 rfl d hd
      have hd3 := isDir_mono fs2 fs3 _ m3.1 hd2
      exact isDir_mono fs3 fs5 _ (by rw [d53]; exact fun _ h => h) hd3
    · intro p hp
      rw [d53] at hp
      rcases m3.2 p hp with hp | hp
      · rcases m2.2.2.2.1 p hp with hp | hp
        · rcases m1.2.2.2.1 p hp with hp | hp
          · exact Or.inl hp
          · exact Or.inr (Or.inl hp)
        · exact Or.inr (Or.inr (Or.inl hp))
      · exact Or.inr (Or.inr (Or.inr hp))

theorem sampleGenerator_New :
    New sampleEnv (some sampleConfig) (some ⟨false⟩) = .ok sampleGenerator := by rfl

set_option maxRecDepth 100000 in
theorem sampleGenerator_Generate_ok :
    (sampleGenerator.Generate sampleEnv MapOrder.stored sampleFS).2 = none := by rfl

set_option maxRecDepth 100000 in
theorem sampleGenerator_Generate_dirs :
    (sampleGenerator.Generate sampleEnv MapOrder.stored sampleFS).1.dirs =
      ["out", "out/shopcart", "out/shopcart/cmd", "out/shopcart/internal",
       "out/shopcart/internal/app", "out/shopcart/internal/handlers",
       "out/shopcart/internal/services", "out/shopcart/internal/repository",
       "out/shopcart/pkg", "out/shopcart/pkg/logger", "out/shopcart/pkg/utils",
       "out/shopcart/pkg/database", "out/shopcart/configs", "out/shopcart/docs",
       "out/shopcart/scripts", "out/shopcart/tests", "out/shopcart/cmd/shopcart"] := by rfl

/-- C3, witness: the run of the end-to-end scenario; `pkg/logger` is declared and
exists. -/
theorem Generate_directories_witness :
    isDir (sampleGenerator.Generate sampleEnv MapOrder.stored sampleFS).1
      (Join (Join "out" "shopcart") "pkg/logger") = true :=
  (Generate_directories sampleEnv MapOrder.stored sampleConfig (some ⟨false⟩) sampleGenerator
    sampleFS sampleGenerator_New rfl sampleGenerator_Generate_ok).2.1 "pkg/logger" (by decide)

/-- C3, counterexample to the claim as stated: in the end-to-end scenario (basic
architecture, empty target directory, successful run) the directories under the project
root are not exactly the declared ones: `internal`, `pkg` and `cmd/shopcart` exist and none
of them is declared. -/
theorem declared_directories_are_exceeded :
    New sampleEnv (some sampleConfig) (some ⟨false⟩) = .ok sampleGenerator ∧
    (sampleGenerator.Generate sampleEnv MapOrder.stored sampleFS).2 = none ∧
    dirsBelow sampleFS "out/shopcart" = [] ∧
    (∀ p ∈ ["out/shopcart/internal", "out/shopcart/pkg", "out/shopcart/cmd/shopcart"],
      p ∈ dirsBelow (sampleGenerator.Generate sampleEnv MapOrder.stored sampleFS).1
        "out/shopcart" ∧
      p ∉ declaredDirs sampleGenerator.arch "out/shopcart") ∧
    ¬ (∀ p, p ∈ dirsBelow (sampleGenerator.Generate sampleEnv MapOrder.stored sampleFS).1
        "out/shopcart" ↔ p ∈ declaredDirs sampleGenerator.arch "out/shopcart") := by
  have hd : ∀ p ∈ ["out/shopcart/internal", "out/shopcart/pkg", "out/shopcart/cmd/shopcart"],
      p ∈ dirsBelow (sampleGenerator.Generate sampleEnv MapOrder.stored sampleFS).1
        "out/shopcart" ∧
      p ∉ declaredDirs sampleGenerator.arch "out/shopcart" := by
    unfold dirsBelow
    rw [sampleGenerator_Generate_dirs]
    decide
  refine ⟨sampleGenerator_New, sampleGenerator_Generate_ok, by decide, hd, ?_⟩
  intro h
  have h1 := hd "out/shopcart/internal" (by simp)
  exact h1.2 ((h _).mp h1.1)

/-! ### C9, C10: an unsupported license is found out in the optional-files phase -/

theorem lastElementIs_main (name : String) :
    lastElementIs ("cmd/" ++ name ++ "/main.go") "main.go" := by
  have e : "cmd/" ++ name ++ "/main.go" = ("cmd/" ++ name) ++ "/" ++ "main.go" := by
    apply String.ext
    simp [String.data_append]
  rw [e]
  exact lastElementIs_append _ _ _ (by unfold lastElementIs; decide)

/-- Every output path of the four map literals ends in one of seven file names. -/
theorem fileBindings_lastElement (a : Architecture) (config : Config) :
    ∀ kv ∈ a.fileBindings config, ∃ m ∈ architectureFileNames, lastElementIs kv.1 m := by
  have hmain : ∃ m ∈ architectureFileNames,
      lastElementIs ("cmd/" ++ config.ProjectName ++ "/main.go") m :=
    ⟨"main.go", by decide, lastElementIs_main _⟩
  have hfix : ∀ k ∈ [".env", "internal/adapters/cache/cache.go", "pkg/logger/logger.go",
      "pkg/utils/utils.go", "pkg/database/database.go", "configs/config.go"],
      ∃ m ∈ architectureFileNames, lastElementIs k m := by
    unfold lastElementIs
    decide
  intro kv hkv
  cases a <;>
    simp only [Architecture.fileBindings, List.mem_cons, List.mem_singleton, List.mem_nil_iff,
      or_false] at hkv <;>
    rcases hkv with h | h | h | h | h | h | h <;>
    first
    | (subst h; exact hmain)
    | (subst h; exact hfix _ (by simp))
    | exact hfix _ (by simp)

/-- The architecture files never touch a top-level file of the emitters. -/
theorem GenerateFiles_keeps_topLevel (a : Architecture) (env : Env) (ord : MapOrder)
    (root : String) (config : Config) (fs : FS) (n : String) (hn : n ∈ topLevelNames) :
    readFile (a.GenerateFiles env ord root config fs).1 (Join root n) =
      readFile fs (Join root n) := by
  unfold Architecture.GenerateFiles renderAndWriteFiles
  apply (renderAndWriteLoop_spec env a.templateManager root (NewTemplateData env config)
    (ord.visit (mapOfBindings (a.fileBindings config))) fs).2.2.2.2.1
  intro kv hkv
  have h1 : kv ∈ mapOfBindings (a.fileBindings config) := (ord.perm _).mem_iff.mp hkv
  have h2 : kv.1 ∈ mapKeys (mapOfBindings (a.fileBindings config)) :=
    List.mem_map_of_mem Prod.fst h1
  rw [mem_mapKeys_mapOfBindings] at h2
  obtain ⟨kv1, hkv1, he⟩ := List.mem_map.mp h2
  obtain ⟨m, hm, hl⟩ := fileBindings_lastElement a config kv1 hkv1
  rw [he] at hl
  have a1 := lastElementIs_self_of_mem n (Or.inl hn)
  have a2 := lastElementIs_self_of_mem m (Or.inr hm)
  have hdisj : ∀ x ∈ topLevelNames, x ∉ architectureFileNames := by decide
  have hne : n ≠ m := fun h => hdisj n hn (h ▸ hm)
  have ns := not_suffix_of_mem n m hn (Or.inr hm) hne
  exact Join_ne root n kv.1 n m a1.1 a2.1 a1.2 hl ns.1 ns.2

theorem not_accepted_license (id : String) (h : id ∉ acceptedLicenses) :
    id ≠ "None" ∧ id ≠ "" ∧ id ∉ supportedLicenses := by
  simp only [acceptedLicenses, supportedLicenses, List.mem_cons, List.mem_singleton,
    List.mem_nil_iff, or_false, not_or] at h ⊢
  tauto

theorem unsupportedLicenseError_eq (id : String) :
    "failed to generate optional files: " ++
      ("failed to generate license: " ++ ("unsupported license: " ++ id)) =
    unsupportedLicenseError id := by
  unfold unsupportedLicenseError
  rw [← String.append_assoc, ← String.append_assoc]
  rfl

/-- With an identifier that is not accepted, `GenerateOptionalFiles` never succeeds, and
when the Makefile and Docker steps go through it stops in the license step, which changes
nothing. -/
theorem GenerateOptionalFiles_unsupported_license (fg : FileGenerator) (env : Env)
    (root : String) (fs : FS) (hl : fg.config.License ∉ acceptedLicenses) :
    (fg.GenerateOptionalFiles env root fs).2 ≠ none ∧
    ∀ fs1 fs2, MakefileGenerator.Generate fg.config root fs = (fs1, none) →
      fg.dockerStep root fs1 = (fs2, none) →
      fg.GenerateOptionalFiles env root fs =
        (fs2, some ("failed to generate license: " ++
          ("unsupported license: " ++ fg.config.License))) := by
  obtain ⟨l1, l2, l3⟩ := not_accepted_license _ hl
  have hlic := fun s => (licenseStep_spec fg env root s).2 l1 l2 l3
  constructor
  · rcases GenerateOptionalFiles_phases fg env root fs with
      ⟨fs1, err, h1, e⟩ | ⟨fs1, fs2, err, h1, h2, e⟩ | ⟨fs1, fs2, fs3, err, h1, h2, h3, e⟩ |
      ⟨fs1, fs2, fs3, h1, h2, h3, e⟩
    · rw [e]; simp
    · rw [e]; simp
    · rw [e]; simp
    · rw [hlic fs2] at h3
      simp at h3
  · intro fs1 fs2 h1 h2
    simp [FileGenerator.GenerateOptionalFiles, h1, h2, hlic fs2]

/-- The shared core of C9 and C10: with a license identifier that is not accepted
`Generate` never succeeds; when every step before license emission goes through, it
returns the unsupported-license error in the state those steps left, in which `go.mod`,
`README.md`, `.gitignore` and `Makefile` hold what their emitters wrote and `LICENSE` is a
file only if it was one before the run. -/
theorem Generate_unsupported_license_core (g : Generator) (env : Env) (ord : MapOrder)
    (fs : FS) (config : Config) (hc : g.config = config) (hfc : g.fileGen.config = config)
    (hl : config.License ∉ acceptedLicenses) :
    (g.Generate env ord fs).2 ≠ none ∧
    ∀ fs1 fs2 fs3 fs4 fs5 fs6,
      MkdirAll fs (Join config.TargetDir config.ProjectName) = (fs1, none) →
      g.generateStructure (Join config.TargetDir config.ProjectName) fs1 = (fs2, none) →
      g.arch.GenerateFiles env ord (Join config.TargetDir config.ProjectName) config fs2 =
        (fs3, none) →
      g.fileGen.GenerateCommonFiles (Join config.TargetDir config.ProjectName) fs3 =
        (fs4, none) →
      MakefileGenerator.Generate config (Join config.TargetDir config.ProjectName) fs4 =
        (fs5, none) →
      g.fileGen.dockerStep (Join config.TargetDir config.ProjectName) fs5 = (fs6, none) →
      g.Generate env ord fs = (fs6, some (unsupportedLicenseError config.License)) ∧
      readFile fs6 (Join (Join config.TargetDir config.ProjectName) "go.mod") =
        some (goModContent config) ∧
      readFile fs6 (Join (Join config.TargetDir config.ProjectName) "README.md") =
        some (readmeContent config) ∧
      readFile fs6 (Join (Join config.TargetDir config.ProjectName) ".gitignore") =
        some gitignoreContent ∧
      readFile fs6 (Join (Join config.TargetDir config.ProjectName) "Makefile") =
        some (makefileContent config) ∧
      (isFile fs (Join (Join config.TargetDir config.ProjectName) "LICENSE") = false →
        isFile fs6 (Join (Join config.TargetDir config.ProjectName) "LICENSE") = false) := by
  subst hc
  have hl' : g.fileGen.config.License ∉ acceptedLicenses := by rw [hfc]; exact hl
  constructor
  · rcases Generate_phases g env ord fs with
      ⟨fs1, err, _, e⟩ | ⟨fs1, fs2, err, _, _, e⟩ | ⟨fs1, fs2, fs3, err, _, _, _, e⟩ |
      ⟨fs1, fs2, fs3, fs4, err, _, _, _, _, e⟩ |
      ⟨fs1, fs2, fs3, fs4, fs5, err, _, _, _, _, _, e⟩ |
      ⟨fs1, fs2, fs3, fs4, fs5, h1, h2, h3, h4, h5, e⟩
    · rw [e]; simp
    · rw [e]; simp
    · rw [e]; simp
    · rw [e]; simp
    · rw [e]; simp
    · have h := (GenerateOptionalFiles_unsupported_license g.fileGen env
        (Join g.config.TargetDir g.config.ProjectName) fs4 hl').1
      rw [h5] at h
      exact absurd rfl h
  · intro fs1 fs2 fs3 fs4 fs5 fs6 h1 h2 h3 h4 h5 h6
    have h5' : MakefileGenerator.Generate g.fileGen.config
        (Join g.config.TargetDir g.config.ProjectName) fs4 = (fs5, none) := by
      rw [hfc]; exact h5
    have ho := (GenerateOptionalFiles_unsupported_license g.fileGen env
      (Join g.config.TargetDir g.config.ProjectName) fs4 hl').2 fs5 fs6 h5' h6
    have c := GenerateCommonFiles_spec g.fileGen (Join g.config.TargetDir g.config.ProjectName)
      fs3
    have mk := MakefileGenerator_Generate_spec g.config
      (Join g.config.TargetDir g.config.ProjectName) fs4
    have dk := dockerStep_spec g.fileGen (Join g.config.TargetDir g.config.ProjectName) fs5
    rw [h4] at c
    rw [h5] at mk
    rw [h6] at dk
    rw [hfc] at c ho
    have tl : ∀ n1 n2, n1 ∈ topLevelNames → n2 ∈ topLevelNames → n1 ≠ n2 →
        Join (Join g.config.TargetDir g.config.ProjectName) n1 ≠
          Join (Join g.config.TargetDir g.config.ProjectName) n2 :=
      fun n1 n2 => Join_topLevel_ne _ n1 n2
    have keep : ∀ n ∈ ["go.mod", "README.md", ".gitignore"],
        readFile fs6 (Join (Join g.config.TargetDir g.config.ProjectName) n) =
          readFile fs4 (Join (Join g.config.TargetDir g.config.ProjectName) n) := by
      intro n hn
      simp only [List.mem_cons, List.mem_singleton, List.mem_nil_iff, or_false] at hn
      have hd : Join (Join g.config.TargetDir g.config.ProjectName) n ∉
          [Join (Join g.config.TargetDir g.config.ProjectName) "Dockerfile",
           Join (Join g.config.TargetDir g.config.ProjectName) "docker-compose.yml",
           Join (Join g.config.TargetDir g.config.ProjectName) ".dockerignore"] := by
        simp only [List.mem_cons, List.mem_singleton, List.mem_nil_iff, or_false, not_or]
        rcases hn with h | h | h <;> subst h <;>
          exact ⟨tl _ _ (by decide) (by decide) (by decide),
            tl _ _ (by decide) (by decide) (by decide),
            tl _ _ (by decide) (by decide) (by decide)⟩
      have hm : Join (Join g.config.TargetDir g.config.ProjectName) n ∉
          [Join (Join g.config.TargetDir g.config.ProjectName) "Makefile"] := by
        simp only [List.mem_singleton]
        rcases hn with h | h | h <;> subst h <;>
          exact tl _ _ (by decide) (by decide) (by decide)
      rw [dk.2.2 _ hd, mk.1.2.2 _ hm]
    refine ⟨?_, ?_, ?_, ?_, ?_, ?_⟩
    · simp only [Generator.Generate, h1, h2, h3, h4, ho]
      rw [unsupportedLicenseError_eq]
    · rw [keep _ (by simp)]
      exact (c.2 rfl).1
    · rw [keep _ (by simp)]
      exact (c.2 rfl).2.1
    · rw [keep _ (by simp)]
      exact (c.2 rfl).2.2
    · have hd : Join (Join g.config.TargetDir g.config.ProjectName) "Makefile" ∉
          [Join (Join g.config.TargetDir g.config.ProjectName) "Dockerfile",
           Join (Join g.config.TargetDir g.config.ProjectName) "docker-compose.yml",
           Join (Join g.config.TargetDir g.config.ProjectName) ".dockerignore"] := by
        simp only [List.mem_cons, List.mem_singleton, List.mem_nil_iff, or_false, not_or]
        exact ⟨tl _ _ (by decide) (by decide) (by decide),
          tl _ _ (by decide) (by decide) (by decide),
          tl _ _ (by decide) (by decide) (by decide)⟩
      rw [dk.2.2 _ hd]
      exact mk.2 rfl
    · intro hno
      have r1 : readFile fs1 (Join (Join g.config.TargetDir g.config.ProjectName) "LICENSE") =
          readFile fs (Join (Join g.config.TargetDir g.config.ProjectName) "LICENSE") := by
        have := readFile_MkdirAll fs (Join g.config.TargetDir g.config.ProjectName)
          (Join (Join g.config.TargetDir g.config.ProjectName) "LICENSE")
        rwa [h1] at this
      have r2 : readFile fs2 (Join (Join g.config.TargetDir g.config.ProjectName) "LICENSE") =
          readFile fs1 (Join (Join g.config.TargetDir g.config.ProjectName) "LICENSE") := by
        have := (createDirectories_spec (Join g.config.TargetDir g.config.ProjectName)
          g.arch.GetStructure.Directories fs1).1
        have h2' : createDirectories (Join g.config.TargetDir g.config.ProjectName) fs1
            g.arch.GetStructure.Directories = (fs2, none) := h2
        rw [h2'] at this
        unfold readFile
        rw [this]
      have r3 := GenerateFiles_keeps_topLevel g.arch env ord
        (Join g.config.TargetDir g.config.ProjectName) g.config fs2 "LICENSE" (by decide)
      rw [h3] at r3
      have hnotin : ∀ n ∈ ["go.mod", "README.md", ".gitignore", "Makefile", "Dockerfile",
          "docker-compose.yml", ".dockerignore"],
          Join (Join g.config.TargetDir g.config.ProjectName) "LICENSE" ≠
            Join (Join g.config.TargetDir g.config.ProjectName) n := by
        intro n hn
        simp only [List.mem_cons, List.mem_singleton, List.mem_nil_iff, or_false] at hn
        rcases hn with h | h | h | h | h | h | h <;> subst h <;>
          exact tl _ _ (by decide) (by decide) (by decide)
      have r4 := c.1.2.2 (Join (Join g.config.TargetDir g.config.ProjectName) "LICENSE")
        (by
          simp only [List.mem_cons, List.mem_singleton, List.mem_nil_iff, or_false, not_or]
          exact ⟨hnotin _ (by simp), hnotin _ (by simp), hnotin _ (by simp)⟩)
      have r5 := mk.1.2.2 (Join (Join g.config.TargetDir g.config.ProjectName) "LICENSE")
        (by
          simp only [List.mem_singleton]
          exact hnotin _ (by simp))
      have r6 := dk.2.2 (Join (Join g.config.TargetDir g.config.ProjectName) "LICENSE")
        (by
          simp only [List.mem_cons, List.mem_singleton, List.mem_nil_iff, or_false, not_or]
          exact ⟨hnotin _ (by simp), hnotin _ (by simp), hnotin _ (by simp)⟩)
      rw [isFile_eq_readFile] at hno ⊢
      rw [r6, r5, r4, r3, r2, r1]
      exact hno

/-- C9: for a config whose license identifier is neither `None`, empty nor one of the
four supported ones, `Generate` never succeeds; and when the steps before license emission
go through it fails in license emission, at which point `go.mod`, `README.md`,
`.gitignore` and `Makefile` exist under the project root with exactly the contents their
emitters wrote, and no `LICENSE` file exists unless one was there before the run. -/
theorem Generate_unknown_license (env : Env) (ord : MapOrder) (config : Config)
    (logger : Option Logger) (g : Generator) (fs : FS)
    (hNew : New env (some config) logger = .ok g) (hl : config.License ∉ acceptedLicenses) :
    (g.Generate env ord fs).2 ≠ none ∧
    ∀ fs1 fs2 fs3 fs4 fs5 fs6,
      MkdirAll fs (Join config.TargetDir config.ProjectName) = (fs1, none) →
      g.generateStructure (Join config.TargetDir config.ProjectName) fs1 = (fs2, none) →
      g.arch.GenerateFiles env ord (Join config.TargetDir config.ProjectName) config fs2 =
        (fs3, none) →
      g.fileGen.GenerateCommonFiles (Join config.TargetDir config.ProjectName) fs3 =
        (fs4, none) →
      MakefileGenerator.Generate config (Join config.TargetDir config.ProjectName) fs4 =
        (fs5, none) →
      g.fileGen.dockerStep (Join config.TargetDir config.ProjectName) fs5 = (fs6, none) →
      g.Generate env ord fs = (fs6, some (unsupportedLicenseError config.License)) ∧
      readFile fs6 (Join (Join config.TargetDir config.ProjectName) "go.mod") =
        some (goModContent config) ∧
      readFile fs6 (Join (Join config.TargetDir config.ProjectName) "README.md") =
        some (readmeContent config) ∧
      readFile fs6 (Join (Join config.TargetDir config.ProjectName) ".gitignore") =
        some gitignoreContent ∧
      readFile fs6 (Join (Join config.TargetDir config.ProjectName) "Makefile") =
        some (makefileContent config) ∧
      (isFile fs (Join (Join config.TargetDir config.ProjectName) "LICENSE") = false →
        isFile fs6 (Join (Join config.TargetDir config.ProjectName) "LICENSE") = false) := by
  obtain ⟨hc, hfc, _, _⟩ := New_ok env config logger g hNew
  exact Generate_unsupported_license_core g env ord fs config hc hfc hl

theorem unknownLicenseGenerator_New :
    New sampleEnv (some unknownLicenseConfig) (some ⟨false⟩) = .ok unknownLicenseGenerator := by
  rfl

/-- C9, witness: the end-to-end scenario with the license `Unknown`. -/
theorem Generate_unknown_license_witness :
    unknownLicenseGenerator.Generate sampleEnv MapOrder.stored sampleFS =
      (sampleState5, some (unsupportedLicenseError "Unknown")) ∧
    readFile sampleState5 (Join (Join "out" "shopcart") "go.mod") =
      some (goModContent unknownLicenseConfig) ∧
    isFile sampleState5 (Join (Join "out" "shopcart") "LICENSE") = false :=
  have h := (Generate_unknown_license sampleEnv MapOrder.stored unknownLicenseConfig
    (some ⟨false⟩) unknownLicenseGenerator sampleFS unknownLicenseGenerator_New
    (by decide)).2 sampleState1 sampleState2 sampleState3 sampleState4 sampleState5
    sampleState5 (by rfl) (by rfl) (by rfl) (by rfl) (by rfl) (by rfl)
  ⟨h.1, h.2.1, h.2.2.2.2.2 (by rfl)⟩

theorem validateArchitecture_license (fl : Flags) (lic : String) :
    validateArchitecture { fl with license := lic } = validateArchitecture fl := rfl

theorem validateTargetDirectory_license (fl : Flags) (lic : String) (fs : FS) :
    validateTargetDirectory { fl with license := lic } fs =
      ({ (validateTargetDirectory fl fs).1 with license := lic },
        (validateTargetDirectory fl fs).2) := by
  unfold validateTargetDirectory
  by_cases h1 : fl.targetDir = ""
  · simp [h1]
  · by_cases h2 : Stat fs fl.targetDir = .notExist
    · simp [h1, h2]
    · simp only [h1, h2, if_false]
      rcases WriteFile fs (Join fl.targetDir ".gomake_test") "" with ⟨fs1, _ | err⟩ <;> rfl

theorem checkProjectExists_license (fl : Flags) (lic : String) (name : String)
    (stdin : List String) (fs : FS) :
    checkProjectExists { fl with license := lic } name stdin fs =
      checkProjectExists fl name stdin fs := rfl

theorem validateInputs_license (fl : Flags) (lic : String) (name : String)
    (stdin : List String) (fs : FS) :
    validateInputs { fl with license := lic } name stdin fs =
      ({ (validateInputs fl name stdin fs).1 with license := lic },
        (validateInputs fl name stdin fs).2) := by
  unfold validateInputs
  rcases validateProjectName name with _ | err
  · simp only [validateArchitecture_license]
    rcases validateArchitecture fl with _ | err
    · simp only [validateTargetDirectory_license]
      rcases validateTargetDirectory fl fs with ⟨fl1, fs1, _ | err⟩
      · simp only [checkProjectExists_license]
        rcases checkProjectExists fl1 name stdin fs1 with ⟨stdin1, fs2, _ | err⟩ <;> rfl
      · rfl
    · rfl
  · rfl

theorem New_license (env : Env) (config : Config) (logger : Option Logger) (lic : String) :
    (∃ g, New env (some config) logger = .ok g) ↔
      (∃ g, New env (some { config with License := lic }) logger = .ok g) := by
  cases logger with
  | none => simp [New]
  | some lg =>
    simp only [New]
    rcases createArchitecture env config.Architecture with a | msg | msg <;>
      simp [NewFileGenerator]

/-- C10 (as amended): an invalid license identifier is not detected before generation:
`validateInputs` never reads the license flag and `New` returns a generator whatever the
license is; it is detected in license emission, inside `Generate`. For a config whose
license is not one of MIT, Apache, BSD, GPL, None or empty the run never succeeds, and
when the steps before license emission succeed it fails with the unsupported-license
error after the project directory, `go.mod`, `README.md`, `.gitignore` and `Makefile` have
been created, which stay on disk with their texts. -/
theorem invalid_license_found_in_emission (env : Env) (ord : MapOrder) (fl : Flags)
    (projectName : String) (stdin : List String) (fs0 : FS) (lic : String) (config : Config)
    (logger : Option Logger) :
    validateInputs { fl with license := lic } projectName stdin fs0 =
      ({ (validateInputs fl projectName stdin fs0).1 with license := lic },
        (validateInputs fl projectName stdin fs0).2) ∧
    ((∃ g, New env (some config) logger = .ok g) ↔
      (∃ g, New env (some { config with License := lic }) logger = .ok g)) ∧
    (config.License ∉ acceptedLicenses →
      (∀ fs, (createAndGenerate env ord (some config) logger fs).2 ≠ .ok ()) ∧
      (∀ g fs fs1 fs2 fs3 fs4 fs5 fs6,
        New env (some config) logger = .ok g →
        MkdirAll fs (Join config.TargetDir config.ProjectName) = (fs1, none) →
        g.generateStructure (Join config.TargetDir config.ProjectName) fs1 = (fs2, none) →
        g.arch.GenerateFiles env ord (Join config.TargetDir config.ProjectName) config fs2 =
          (fs3, none) →
        g.fileGen.GenerateCommonFiles (Join config.TargetDir config.ProjectName) fs3 =
          (fs4, none) →
        MakefileGenerator.Generate config (Join config.TargetDir config.ProjectName) fs4 =
          (fs5, none) →
        g.fileGen.dockerStep (Join config.TargetDir config.ProjectName) fs5 = (fs6, none) →
        createAndGenerate env ord (some config) logger fs =
          (fs6, .error ("failed to generate project: " ++
            unsupportedLicenseError config.License)) ∧
        isDir fs6 (Join config.TargetDir config.ProjectName) = true ∧
        readFile fs6 (Join (Join config.TargetDir config.ProjectName) "go.mod") =
          some (goModContent config) ∧
        readFile fs6 (Join (Join config.TargetDir config.ProjectName) "README.md") =
          some (readmeContent config) ∧
        readFile fs6 (Join (Join config.TargetDir config.ProjectName) ".gitignore") =
          some gitignoreContent ∧
        readFile fs6 (Join (Join config.TargetDir config.ProjectName) "Makefile") =
          some (makefileContent config))) := by
  refine ⟨validateInputs_license fl lic projectName stdin fs0,
    New_license env config logger lic, ?_⟩
  intro hl
  constructor
  · intro fs
    unfold createAndGenerate
    rcases hN : New env (some config) logger with g | msg | msg
    · obtain ⟨hc, hfc, _, _⟩ := New_ok env config logger g hN
      have h := (Generate_unsupported_license_core g env ord fs config hc hfc hl).1
      rcases hG : g.Generate env ord fs with ⟨fs1, _ | err⟩
      · rw [hG] at h
        exact absurd rfl h
      · simp [hG]
    · simp
    · simp
  · intro g fs fs1 fs2 fs3 fs4 fs5 fs6 hN h1 h2 h3 h4 h5 h6
    obtain ⟨hc, hfc, _, _⟩ := New_ok env config logger g hN
    have h := (Generate_unsupported_license_core g env ord fs config hc hfc hl).2
      fs1 fs2 fs3 fs4 fs5 fs6 h1 h2 h3 h4 h5 h6
    refine ⟨by simp [createAndGenerate, hN, h.1], ?_, h.2.1, h.2.2.1, h.2.2.2.1, h.2.2.2.2.1⟩
    have m1 := (MkdirAll_spec fs (Join config.TargetDir config.ProjectName)).2.2.2.2
    have m2 := (createDirectories_spec (Join config.TargetDir config.ProjectName)
      g.arch.GetStructure.Directories fs1).2.2.1
    have h2' : createDirectories (Join config.TargetDir config.ProjectName) fs1
        g.arch.GetStructure.Directories = (fs2, none) := h2
    have m3 := (GenerateFiles_dirs g.arch env ord (Join config.TargetDir config.ProjectName)
      config fs2).1
    have m4 := (GenerateCommonFiles_spec g.fileGen
      (Join config.TargetDir config.ProjectName) fs3).1.1
    have m5 := (MakefileGenerator_Generate_spec config
      (Join config.TargetDir config.ProjectName) fs4).1.1
    have m6 := (dockerStep_spec g.fileGen (Join config.TargetDir config.ProjectName) fs5).1
    rw [h1] at m1
    rw [h2'] at m2
    rw [h3] at m3
    rw [h4] at m4
    rw [h5] at m5
    rw [h6] at m6
    have d63 : fs6.dirs = fs3.dirs := m6.trans (m5.trans m4)
    exact isDir_mono fs1 fs6 _ (fun d hd => by rw [d63]; exact m3 (m2 hd)) (m1 rfl)

/-- C10, witness: the end-to-end scenario with the license `Unknown`: the run fails after
the project directory has been created. -/
theorem invalid_license_found_in_emission_witness :
    createAndGenerate sampleEnv MapOrder.stored (some unknownLicenseConfig) (some ⟨false⟩)
        sampleFS =
      (sampleState5, .error ("failed to generate project: " ++
        unsupportedLicenseError "Unknown")) ∧
    isDir sampleState5 (Join "out" "shopcart") = true :=
  have h := (invalid_license_found_in_emission sampleEnv MapOrder.stored unknownLicenseFlags
    "shopcart" [] sampleFS "Unknown" unknownLicenseConfig (some ⟨false⟩)).2.2 (by decide)
  have h2 := h.2 unknownLicenseGenerator sampleFS sampleState1 sampleState2 sampleState3
    sampleState4 sampleState5 sampleState5 unknownLicenseGenerator_New (by rfl) (by rfl)
    (by rfl) (by rfl) (by rfl) (by rfl)
  ⟨h2.1, h2.2.1⟩

/-- C10, counterexample to the claim as stated: with the license `Unknown` validation
passes and `New` returns a generator; the error is reported by `Generate` when the project
directory, the architecture files, `go.mod`, `README.md`, `.gitignore` and `Makefile`
have already been created: the filesystem is not unchanged. -/
theorem invalid_license_mutates_filesystem :
    "Unknown" ∉ acceptedLicenses ∧
    validateInputs unknownLicenseFlags "shopcart" [] sampleFS =
      (unknownLicenseFlags, [], sampleFS, none) ∧
    configOfFlags unknownLicenseFlags "shopcart" = unknownLicenseConfig ∧
    New sampleEnv (some unknownLicenseConfig) (some ⟨false⟩) = .ok unknownLicenseGenerator ∧
    unknownLicenseGenerator.Generate sampleEnv MapOrder.stored sampleFS =
      (sampleState5, some (unsupportedLicenseError "Unknown")) ∧
    isDir sampleFS "out/shopcart" = false ∧
    isDir sampleState5 "out/shopcart" = true ∧
    isFile sampleState5 "out/shopcart/go.mod" = true ∧
    isFile sampleState5 "out/shopcart/Makefile" = true ∧
    sampleState5 ≠ sampleFS := by
  have hdir : isDir sampleState5 "out/shopcart" = true := by rfl
  refine ⟨by decide, by rfl, by rfl, unknownLicenseGenerator_New, by rfl, by decide, hdir,
    by rfl, by rfl, ?_⟩
  intro h
  rw [h] at hdir
  revert hdir
  decide

/-! ### C11, C12, C13: the optional files -/

theorem GenerateOptionalFiles_eq_git (fg : FileGenerator) (env : Env) (root : String) (fs : FS) :
    fg.GenerateOptionalFiles env root fs =
      match fg.optionalFilesBeforeGit env root fs with
      | (fs3, some err) => (fs3, some err)
      | (fs3, none) => fg.gitStep env root fs3 := by
  unfold FileGenerator.GenerateOptionalFiles FileGenerator.optionalFilesBeforeGit
  rcases MakefileGenerator.Generate fg.config root fs with ⟨fs1, _ | e1⟩ <;> try dsimp only
  all_goals (rcases fg.dockerStep root fs1 with ⟨fs2, _ | e2⟩ <;> try dsimp only)

theorem gitStep_off (fg : FileGenerator) (env : Env) (root : String) (fs : FS)
    (h : fg.config.WithGit = false) : fg.gitStep env root fs = (fs, none) := by
  simp [FileGenerator.gitStep, h]

theorem GenerateOptionalFiles_without_git (fg : FileGenerator) (env : Env) (root : String)
    (fs : FS) (h : fg.config.WithGit = false) :
    fg.GenerateOptionalFiles env root fs = fg.optionalFilesBeforeGit env root fs := by
  rw [GenerateOptionalFiles_eq_git]
  rcases fg.optionalFilesBeforeGit env root fs with ⟨fs3, _ | e3⟩
  · exact gitStep_off fg env root fs3 h
  · rfl

theorem Contains_between (a x b p q : String) (ha : HasSuffix a p = true)
    (hb : HasPrefix b q = true) : Contains (a ++ x ++ b) (p ++ x ++ q) := by
  unfold HasSuffix at ha
  unfold HasPrefix at hb
  rw [List.isSuffixOf_iff_suffix] at ha
  rw [List.isPrefixOf_iff_prefix] at hb
  obtain ⟨a1, ha1⟩ := ha
  obtain ⟨b1, hb1⟩ := hb
  exact ⟨a1, b1, by simp [String.data_append, ← ha1, ← hb1, List.append_assoc]⟩

theorem HasSuffix_append_left (a s p : String) (h : HasSuffix s p = true) :
    HasSuffix (a ++ s) p = true := by
  unfold HasSuffix at *
  rw [List.isSuffixOf_iff_suffix] at *
  obtain ⟨t, ht⟩ := h
  exact ⟨a.data ++ t, by simp [String.data_append, ← ht, List.append_assoc]⟩

theorem dockerfileContent_build_path (config : Config) :
    Contains (dockerfileContent config) ("cmd/" ++ config.ProjectName ++ "/main.go") := by
  unfold dockerfileContent
  iterate 19 apply Contains_append_right
  refine Contains_between _ _ _ "cmd/" "/main.go" (HasSuffix_append_left _ _ _ ?_) ?_ <;> decide

theorem dockerComposeContent_db_names (config : Config) :
    Contains (dockerComposeContent config) ("DB_NAME=" ++ config.ProjectName ++ "_db") ∧
    Contains (dockerComposeContent config) ("POSTGRES_DB=" ++ config.ProjectName ++ "_db") := by
  unfold dockerComposeContent
  constructor
  · iterate 32 apply Contains_append_right
    refine Contains_between _ _ _ "DB_NAME=" "_db" (HasSuffix_append_left _ _ _ ?_) ?_ <;> decide
  · iterate 17 apply Contains_append_right
    refine Contains_between _ _ _ "POSTGRES_DB=" "_db" (HasSuffix_append_left _ _ _ ?_) ?_ <;> decide

set_option maxRecDepth 100000 in
theorem dockerignore_lacks_name : ¬ Contains dockerignoreContent "shopcart" := by
  unfold Contains
  decide

theorem DockerGenerator_Generate_ok (config : Config) (root : String) (fs fs3 : FS)
    (h : DockerGenerator.Generate config root fs = (fs3, none)) :
    readFile fs3 (Join root "Dockerfile") = some (dockerfileContent config) ∧
    readFile fs3 (Join root "docker-compose.yml") = some (dockerComposeContent config) ∧
    readFile fs3 (Join root ".dockerignore") = some dockerignoreContent := by
  unfold DockerGenerator.Generate generateDockerfile generateDockerCompose
    generateDockerignore at h
  have w1 := WriteFile_spec fs (Join root "Dockerfile") (dockerfileContent config)
  rcases h1 : WriteFile fs (Join root "Dockerfile") (dockerfileContent config) with
    ⟨fs1, _ | err⟩
  · rw [h1] at h w1
    dsimp only at h
    have w2 := WriteFile_spec fs1 (Join root "docker-compose.yml") (dockerComposeContent config)
    rcases h2 : WriteFile fs1 (Join root "docker-compose.yml") (dockerComposeContent config)
      with ⟨fs2, _ | err⟩
    · rw [h2] at h w2
      dsimp only at h
      have w3 := WriteFile_spec fs2 (Join root ".dockerignore") dockerignoreContent
      rcases h3 : WriteFile fs2 (Join root ".dockerignore") dockerignoreContent with
        ⟨fs4, _ | err⟩
      · rw [h3] at h w3
        dsimp only at h
        have e : fs4 = fs3 := congrArg Prod.fst h
        subst e
        refine ⟨?_, ?_, w3.2.2.2.1 rfl⟩
        · rw [w3.2.2.2.2 _ (Join_topLevel_ne root _ _ (by decide) (by decide) (by decide)),
            w2.2.2.2.2 _ (Join_topLevel_ne root _ _ (by decide) (by decide) (by decide))]
          exact w1.2.2.2.1 rfl
        · rw [w3.2.2.2.2 _ (Join_topLevel_ne root _ _ (by decide) (by decide) (by decide))]
          exact w2.2.2.2.1 rfl
      · rw [h3] at h
        simp at h
    · rw [h2] at h
      simp at h
  · rw [h1] at h
    simp at h

theorem dockerStep_off (fg : FileGenerator) (root : String) (fs : FS)
    (h : fg.config.WithDocker = false) : fg.dockerStep root fs = (fs, none) := by
  simp [FileGenerator.dockerStep, h]

theorem dockerStep_ok (fg : FileGenerator) (root : String) (fs fs2 : FS)
    (hd : fg.config.WithDocker = true) (h : fg.dockerStep root fs = (fs2, none)) :
    readFile fs2 (Join root "Dockerfile") = some (dockerfileContent fg.config) ∧
    readFile fs2 (Join root "docker-compose.yml") = some (dockerComposeContent fg.config) ∧
    readFile fs2 (Join root ".dockerignore") = some dockerignoreContent := by
  unfold FileGenerator.dockerStep at h
  rw [if_pos hd] at h
  rcases h1 : DockerGenerator.Generate fg.config root fs with ⟨fs1, _ | err⟩
  · rw [h1] at h
    dsimp only at h
    have e : fs1 = fs2 := congrArg Prod.fst h
    subst e
    exact DockerGenerator_Generate_ok _ _ _ _ h1
  · rw [h1] at h
    simp at h

theorem licenseStep_off (fg : FileGenerator) (env : Env) (root : String) (fs : FS)
    (h : fg.config.License = "None" ∨ fg.config.License = "") :
    fg.licenseStep env root fs = (fs, none) := by
  unfold FileGenerator.licenseStep
  rw [if_neg]
  rcases h with h | h <;> simp [h]

/-- What the steps before the git step leave untouched, and what they have written when
they all succeed. -/
theorem optionalFilesBeforeGit_spec (fg : FileGenerator) (env : Env) (root : String) (fs : FS) :
    OnlyWrites fs (fg.optionalFilesBeforeGit env root fs).1
      ([Join root "Makefile"] ++
        [Join root "Dockerfile", Join root "docker-compose.yml", Join root ".dockerignore"] ++
        [Join root "LICENSE"]) ∧
    (fg.config.WithDocker = false →
      OnlyWrites fs (fg.optionalFilesBeforeGit env root fs).1
        [Join root "Makefile", Join root "LICENSE"]) ∧
    ((fg.config.License = "None" ∨ fg.config.License = "") →
      OnlyWrites fs (fg.optionalFilesBeforeGit env root fs).1
        ([Join root "Makefile"] ++
          [Join root "Dockerfile", Join root "docker-compose.yml", Join root ".dockerignore"])) ∧
    ((fg.optionalFilesBeforeGit env root fs).2 = none →
      readFile (fg.optionalFilesBeforeGit env root fs).1 (Join root "Makefile") =
        some (makefileContent fg.config) ∧
      (fg.config.WithDocker = true →
        readFile (fg.optionalFilesBeforeGit env root fs).1 (Join root "Dockerfile") =
          some (dockerfileContent fg.config) ∧
        readFile (fg.optionalFilesBeforeGit env root fs).1 (Join root "docker-compose.yml") =
          some (dockerComposeContent fg.config) ∧
        readFile (fg.optionalFilesBeforeGit env root fs).1 (Join root ".dockerignore") =
          some dockerignoreContent)) := by
  have m := MakefileGenerator_Generate_spec fg.config root fs
  unfold FileGenerator.optionalFilesBeforeGit
  rcases h1 : MakefileGenerator.Generate fg.config root fs with ⟨fs1, _ | e1⟩
  · rw [h1] at m
    dsimp only
    have d := dockerStep_spec fg root fs1
    rcases h2 : fg.dockerStep root fs1 with ⟨fs2, _ | e2⟩
    · rw [h2] at d
      dsimp only
      have l := licenseStep_spec fg env root fs2
      refine ⟨(m.1.trans d).trans l.1, ?_, ?_, ?_⟩
      · intro hd
        rw [dockerStep_off fg root fs1 hd] at h2
        have e : fs1 = fs2 := congrArg Prod.fst h2
        subst e
        exact (m.1.trans l.1)
      · intro hl
        rw [licenseStep_off fg env root fs2 hl]
        exact m.1.trans d
      · intro hok
        have hne : ∀ n ∈ topLevelNames, n ≠ "LICENSE" →
            readFile (fg.licenseStep env root fs2).1 (Join root n) =
              readFile fs2 (Join root n) := fun n hn hne =>
          l.1.2.2 _ (by
            simp only [List.mem_singleton]
            exact Join_topLevel_ne root _ _ hn (by decide) hne)
        have hnd : ∀ x, x ∉ [Join root "Dockerfile", Join root "docker-compose.yml",
            Join root ".dockerignore"] → readFile fs2 x = readFile fs1 x := d.2.2
        refine ⟨?_, ?_⟩
        · rw [hne _ (by decide) (by decide), hnd, m.2 rfl]
          simp only [List.mem_cons, List.mem_singleton, List.not_mem_nil, or_false, not_or]
          exact ⟨Join_topLevel_ne root _ _ (by decide) (by decide) (by decide),
            Join_topLevel_ne root _ _ (by decide) (by decide) (by decide),
            Join_topLevel_ne root _ _ (by decide) (by decide) (by decide)⟩
        · intro hd
          have k := dockerStep_ok fg root fs1 fs2 hd h2
          rw [hne _ (by decide) (by decide), hne _ (by decide) (by decide),
            hne _ (by decide) (by decide)]
          exact k
    · rw [h2] at d
      dsimp only
      refine ⟨(m.1.trans d).mono (by simp), ?_, ?_, ?_⟩
      · intro hd
        rw [dockerStep_off fg root fs1 hd] at h2
        simp at h2
      · intro _
        exact m.1.trans d
      · intro hok
        simp at hok
  · rw [h1] at m
    dsimp only
    refine ⟨m.1.mono (by simp), fun _ => m.1.mono (by simp), fun _ => m.1.mono (by simp), ?_⟩
    intro hok
    simp at hok

/-- Once the Makefile and the Docker step have succeeded, the Docker files hold their texts
in the state before the git step, whatever the license step does. -/
theorem optionalFilesBeforeGit_docker (fg : FileGenerator) (env : Env) (root : String)
    (fs fs1 fs2 : FS) (hd : fg.config.WithDocker = true)
    (h1 : MakefileGenerator.Generate fg.config root fs = (fs1, none))
    (h2 : fg.dockerStep root fs1 = (fs2, none)) :
    fg.optionalFilesBeforeGit env root fs = fg.licenseStep env root fs2 ∧
    readFile (fg.optionalFilesBeforeGit env root fs).1 (Join root "Dockerfile") =
      some (dockerfileContent fg.config) ∧
    readFile (fg.optionalFilesBeforeGit env root fs).1 (Join root "docker-compose.yml") =
      some (dockerComposeContent fg.config) ∧
    readFile (fg.optionalFilesBeforeGit env root fs).1 (Join root ".dockerignore") =
      some dockerignoreContent := by
  have e : fg.optionalFilesBeforeGit env root fs = fg.licenseStep env root fs2 := by
    simp [FileGenerator.optionalFilesBeforeGit, h1, h2]
  have l := (licenseStep_spec fg env root fs2).1
  have hne : ∀ n ∈ topLevelNames, n ≠ "LICENSE" →
      readFile (fg.licenseStep env root fs2).1 (Join root n) = readFile fs2 (Join root n) :=
    fun n hn hne => l.2.2 _ (by
      simp only [List.mem_singleton]
      exact Join_topLevel_ne root _ _ hn (by decide) hne)
  have k := dockerStep_ok fg root fs1 fs2 hd h2
  rw [e, hne _ (by decide) (by decide), hne _ (by decide) (by decide),
    hne _ (by decide) (by decide)]
  exact ⟨rfl, k⟩

theorem pathExists_of_OnlyWrites {fs fs1 : FS} {paths : List String} (h : OnlyWrites fs fs1 paths)
    (x : String) (hx : x ∉ paths) : pathExists fs1 x = pathExists fs x := by
  unfold pathExists isDir isFile
  have := h.2.2 x hx
  unfold readFile at this
  rw [h.1, this]

/-- C11: with the license identifier `None` or the empty one, the license step of
`GenerateOptionalFiles` hands back the state it is given, without an error, although the
license emitter itself would refuse the identifier.  So `GenerateOptionalFiles` is
`GenerateOptionalFiles` with the license step taken out; the file `LICENSE` reads as before
(in the state handed to the git step, and in the result when git is off); and when the steps
before git succeed the Makefile, and with `WithDocker` the three Docker files, hold their
texts. -/
theorem GenerateOptionalFiles_license_sentinel (fg : FileGenerator) (env : Env) (root : String)
    (fs : FS) (h : fg.config.License = "None" ∨ fg.config.License = "") :
    (∀ s, fg.licenseStep env root s = (s, none)) ∧
    (∀ s, LicenseGenerator.Generate env fg.config root s =
      (s, some ("unsupported license: " ++ fg.config.License))) ∧
    fg.GenerateOptionalFiles env root fs = fg.GenerateOptionalFilesWithoutLicense env root fs ∧
    readFile (fg.optionalFilesBeforeGit env root fs).1 (Join root "LICENSE") =
      readFile fs (Join root "LICENSE") ∧
    (fg.config.WithGit = false →
      readFile (fg.GenerateOptionalFiles env root fs).1 (Join root "LICENSE") =
        readFile fs (Join root "LICENSE")) ∧
    ((fg.optionalFilesBeforeGit env root fs).2 = none →
      readFile (fg.optionalFilesBeforeGit env root fs).1 (Join root "Makefile") =
        some (makefileContent fg.config) ∧
      (fg.config.WithDocker = true →
        readFile (fg.optionalFilesBeforeGit env root fs).1 (Join root "Dockerfile") =
          some (dockerfileContent fg.config) ∧
        readFile (fg.optionalFilesBeforeGit env root fs).1 (Join root "docker-compose.yml") =
          some (dockerComposeContent fg.config) ∧
        readFile (fg.optionalFilesBeforeGit env root fs).1 (Join root ".dockerignore") =
          some dockerignoreContent)) := by
  have hs := optionalFilesBeforeGit_spec fg env root fs
  have hL : readFile (fg.optionalFilesBeforeGit env root fs).1 (Join root "LICENSE") =
      readFile fs (Join root "LICENSE") := by
    apply (hs.2.2.1 h).2.2
    simp only [List.cons_append, List.nil_append, List.mem_cons, List.mem_singleton,
      List.not_mem_nil, or_false, not_or]
    exact ⟨Join_topLevel_ne root _ _ (by decide) (by decide) (by decide),
      Join_topLevel_ne root _ _ (by decide) (by decide) (by decide),
      Join_topLevel_ne root _ _ (by decide) (by decide) (by decide),
      Join_topLevel_ne root _ _ (by decide) (by decide) (by decide)⟩
  refine ⟨fun s => licenseStep_off fg env root s h, ?_, ?_, hL, ?_, hs.2.2.2⟩
  · intro s
    have hu : fg.config.License ∉ supportedLicenses := by
      rcases h with h | h <;> rw [h] <;> decide
    simp [LicenseGenerator.Generate, licenseContent_unsupported fg.config env.year hu]
  · unfold FileGenerator.GenerateOptionalFiles FileGenerator.GenerateOptionalFilesWithoutLicense
    rcases MakefileGenerator.Generate fg.config root fs with ⟨fs1, _ | e1⟩ <;> try dsimp only
    all_goals (rcases fg.dockerStep root fs1 with ⟨fs2, _ | e2⟩ <;> try dsimp only)
    all_goals (first | rfl | rw [licenseStep_off fg env root fs2 h])
  · intro hg
    rw [GenerateOptionalFiles_without_git fg env root fs hg]
    exact hL

/-- The license `None` with `WithDocker`: the call succeeds, writes no `LICENSE` and
writes the Makefile. -/
theorem GenerateOptionalFiles_license_sentinel_witness :
    (noLicenseFileGenerator.GenerateOptionalFiles sampleEnv "out/shopcart" projectRootFS).2
      = none ∧
    readFile (noLicenseFileGenerator.GenerateOptionalFiles sampleEnv "out/shopcart"
      projectRootFS).1 "out/shopcart/LICENSE" = none ∧
    readFile (noLicenseFileGenerator.GenerateOptionalFiles sampleEnv "out/shopcart"
      projectRootFS).1 "out/shopcart/Makefile" = some (makefileContent noLicenseConfig) :=
  have h := GenerateOptionalFiles_license_sentinel noLicenseFileGenerator sampleEnv
    "out/shopcart" projectRootFS (Or.inl rfl)
  ⟨by rfl, (h.2.2.2.2.1 rfl).trans (by rfl), by rfl⟩

/-- C12, amended: without `WithDocker`, none of the three Docker files that was absent
exists after the steps of `GenerateOptionalFiles` (in the state handed to the git step, and
in the result when git is off).  With `WithDocker`, once the Makefile and the Docker step
have succeeded, the three files hold the texts of the emitter: the Dockerfile has the build
path `cmd/<name>/main.go`, `docker-compose.yml` has `<name>_db` as `DB_NAME` and as
`POSTGRES_DB`, and `.dockerignore` holds the fixed text `dockerignoreContent`, in which no
project name is inserted. -/
theorem GenerateOptionalFiles_docker_files (fg : FileGenerator) (env : Env) (root : String)
    (fs : FS) :
    (fg.config.WithDocker = false →
      ∀ n ∈ dockerFileNames, pathExists fs (Join root n) = false →
        pathExists (fg.optionalFilesBeforeGit env root fs).1 (Join root n) = false ∧
        (fg.config.WithGit = false →
          pathExists (fg.GenerateOptionalFiles env root fs).1 (Join root n) = false)) ∧
    (fg.config.WithDocker = true →
      ∀ fs1 fs2, MakefileGenerator.Generate fg.config root fs = (fs1, none) →
        fg.dockerStep root fs1 = (fs2, none) →
        (readFile (fg.optionalFilesBeforeGit env root fs).1 (Join root "Dockerfile") =
            some (dockerfileContent fg.config) ∧
          readFile (fg.optionalFilesBeforeGit env root fs).1 (Join root "docker-compose.yml") =
            some (dockerComposeContent fg.config) ∧
          readFile (fg.optionalFilesBeforeGit env root fs).1 (Join root ".dockerignore") =
            some dockerignoreContent) ∧
        (fg.config.WithGit = false →
          readFile (fg.GenerateOptionalFiles env root fs).1 (Join root "Dockerfile") =
            some (dockerfileContent fg.config) ∧
          readFile (fg.GenerateOptionalFiles env root fs).1 (Join root "docker-compose.yml") =
            some (dockerComposeContent fg.config) ∧
          readFile (fg.GenerateOptionalFiles env root fs).1 (Join root ".dockerignore") =
            some dockerignoreContent)) ∧
    Contains (dockerfileContent fg.config) ("cmd/" ++ fg.config.ProjectName ++ "/main.go") ∧
    Contains (dockerComposeContent fg.config) ("DB_NAME=" ++ fg.config.ProjectName ++ "_db") ∧
    Contains (dockerComposeContent fg.config)
      ("POSTGRES_DB=" ++ fg.config.ProjectName ++ "_db") := by
  refine ⟨?_, ?_, dockerfileContent_build_path fg.config,
    (dockerComposeContent_db_names fg.config).1, (dockerComposeContent_db_names fg.config).2⟩
  · intro hd n hn hnone
    have ho := (optionalFilesBeforeGit_spec fg env root fs).2.1 hd
    have hx : Join root n ∉ [Join root "Makefile", Join root "LICENSE"] := by
      have hn1 : n ∈ topLevelNames := by
        simp only [dockerFileNames, List.mem_cons, List.mem_singleton, List.not_mem_nil,
          or_false] at hn
        rcases hn with h | h | h <;> rw [h] <;> decide
      have hn2 : n ≠ "Makefile" ∧ n ≠ "LICENSE" := by
        simp only [dockerFileNames, List.mem_cons, List.mem_singleton, List.not_mem_nil,
          or_false] at hn
        rcases hn with h | h | h <;> rw [h] <;> decide
      simp only [List.mem_cons, List.mem_singleton, List.not_mem_nil, or_false, not_or]
      exact ⟨Join_topLevel_ne root _ _ hn1 (by decide) hn2.1,
        Join_topLevel_ne root _ _ hn1 (by decide) hn2.2⟩
    have e := (pathExists_of_OnlyWrites ho _ hx).trans hnone
    refine ⟨e, fun hg => ?_⟩
    rw [GenerateOptionalFiles_without_git fg env root fs hg]
    exact e
  · intro hd fs1 fs2 h1 h2
    have k := (optionalFilesBeforeGit_docker fg env root fs fs1 fs2 hd h1 h2).2
    refine ⟨k, fun hg => ?_⟩
    rw [GenerateOptionalFiles_without_git fg env root fs hg]
    exact k

/-- With `WithDocker` the run in the empty project directory leaves the Docker files;
without it, no `.dockerignore`. -/
theorem GenerateOptionalFiles_docker_files_witness :
    pathExists (dockerFileGenerator.GenerateOptionalFiles sampleEnv "out/shopcart"
      projectRootFS).1 "out/shopcart/Dockerfile" = true ∧
    readFile (dockerFileGenerator.GenerateOptionalFiles sampleEnv "out/shopcart"
      projectRootFS).1 "out/shopcart/docker-compose.yml" =
        some (dockerComposeContent dockerConfig) ∧
    pathExists ((FileGenerator.mk sampleConfig ⟨false⟩).GenerateOptionalFiles sampleEnv
      "out/shopcart" projectRootFS).1 "out/shopcart/.dockerignore" = false :=
  ⟨by rfl,
   (((GenerateOptionalFiles_docker_files dockerFileGenerator sampleEnv "out/shopcart"
      projectRootFS).2.1 rfl
      (MakefileGenerator.Generate dockerConfig "out/shopcart" projectRootFS).1
      (dockerFileGenerator.dockerStep "out/shopcart"
        (MakefileGenerator.Generate dockerConfig "out/shopcart" projectRootFS).1).1
      (by rfl) (by rfl)).2 rfl).2.1,
   (((GenerateOptionalFiles_docker_files (FileGenerator.mk sampleConfig ⟨false⟩) sampleEnv
      "out/shopcart" projectRootFS).1 rfl) ".dockerignore" (by decide) (by rfl)).2 rfl⟩

/-- C12 as stated fails for `.dockerignore`: a successful run with `WithDocker` for the
project `shopcart` writes a `.dockerignore` in which `shopcart` does not occur. -/
theorem dockerignore_never_names_the_project :
    (dockerFileGenerator.GenerateOptionalFiles sampleEnv "out/shopcart" projectRootFS).2 = none ∧
    readFile (dockerFileGenerator.GenerateOptionalFiles sampleEnv "out/shopcart"
      projectRootFS).1 "out/shopcart/.dockerignore" = some dockerignoreContent ∧
    ¬ Contains dockerignoreContent dockerConfig.ProjectName :=
  ⟨by rfl, by rfl, dockerignore_lacks_name⟩

theorem makefileContent_name_only (c1 c2 : Config) (h : c1.ProjectName = c2.ProjectName) :
    makefileContent c1 = makefileContent c2 := by
  unfold makefileContent
  rw [h]

/-- C13: changing only `WithMakefile` changes nothing.  The Makefile step is the same, the
text of the Makefile depends on the project name alone, the steps of
`GenerateOptionalFiles` before its git step give the same result, in which the Makefile
holds its text whenever they succeed; and the whole `GenerateOptionalFiles` gives the same
result, provided the git step (which is not part of the source) does not read the flag. -/
theorem Makefile_regardless_of_flag (fg : FileGenerator) (b : Bool) (env : Env) (root : String)
    (fs : FS) :
    MakefileGenerator.Generate { fg.config with WithMakefile := b } root fs =
      MakefileGenerator.Generate fg.config root fs ∧
    (∀ c1 c2 : Config, c1.ProjectName = c2.ProjectName →
      makefileContent c1 = makefileContent c2) ∧
    FileGenerator.optionalFilesBeforeGit
        { fg with config := { fg.config with WithMakefile := b } } env root fs =
      fg.optionalFilesBeforeGit env root fs ∧
    ((fg.optionalFilesBeforeGit env root fs).2 = none →
      readFile (fg.optionalFilesBeforeGit env root fs).1 (Join root "Makefile") =
        some (makefileContent fg.config)) ∧
    ((fg.config.WithGit = true → ∀ s,
        env.gitInitialize { fg.config with WithMakefile := b } root s =
          env.gitInitialize fg.config root s) →
      FileGenerator.GenerateOptionalFiles
          { fg with config := { fg.config with WithMakefile := b } } env root fs =
        fg.GenerateOptionalFiles env root fs) := by
  have e : FileGenerator.optionalFilesBeforeGit
        { fg with config := { fg.config with WithMakefile := b } } env root fs =
      fg.optionalFilesBeforeGit env root fs := rfl
  refine ⟨rfl, makefileContent_name_only, e, fun h =>
    ((optionalFilesBeforeGit_spec fg env root fs).2.2.2 h).1, ?_⟩
  intro hgit
  rw [GenerateOptionalFiles_eq_git, GenerateOptionalFiles_eq_git, e]
  rcases fg.optionalFilesBeforeGit env root fs with ⟨fs3, _ | e3⟩
  · dsimp only
    unfold FileGenerator.gitStep
    dsimp only at hgit ⊢
    by_cases hg : fg.config.WithGit = true
    · rw [hgit hg fs3]
    · simp [hg]
  · rfl

/-- The sample configuration with and without `WithMakefile`: the same result, and the
Makefile is written. -/
theorem Makefile_regardless_of_flag_witness :
    FileGenerator.GenerateOptionalFiles
        { config := { sampleConfig with WithMakefile := true }, logger := ⟨false⟩ }
        sampleEnv "out/shopcart" projectRootFS =
      sampleFileGenerator.GenerateOptionalFiles sampleEnv "out/shopcart" projectRootFS ∧
    readFile (sampleFileGenerator.GenerateOptionalFiles sampleEnv "out/shopcart"
      projectRootFS).1 "out/shopcart/Makefile" = some (makefileContent sampleConfig) :=
  ⟨(Makefile_regardless_of_flag sampleFileGenerator true sampleEnv "out/shopcart"
      projectRootFS).2.2.2.2 (fun _ _ => rfl), by rfl⟩

/-! ### C14: the order of the phases -/

theorem Grows.grows_refl (fs : FS) : Grows fs fs := ⟨fun _ h => h, fun _ h => h⟩

theorem Grows.grows_trans {a b c : FS} (h1 : Grows a b) (h2 : Grows b c) : Grows a c :=
  ⟨fun _ h => h2.1 (h1.1 h), fun x h => h2.2 x (h1.2 x h)⟩

theorem Grows_WriteFile (fs : FS) (name data : String) : Grows fs (WriteFile fs name data).1 :=
  ⟨by rw [(WriteFile_spec fs name data).1]; exact fun _ h => h,
   fun x h => isFile_WriteFile fs name data x h⟩

theorem Grows_MkdirAll (fs : FS) (path : String) : Grows fs (MkdirAll fs path).1 := by
  have h := MkdirAll_spec fs path
  refine ⟨h.2.2.1, fun x hx => ?_⟩
  unfold isFile at *
  rw [h.1]
  exact hx

theorem Grows_named (name : String) (f : Step) (h : ∀ s, Grows s (f s).1) (s : FS) :
    Grows s (named name f s).1 := by
  have := h s
  unfold named
  rcases hfs : f s with ⟨s1, _ | e⟩ <;> rw [hfs] at this <;> exact this

theorem runSteps_append (a b : List Step) (fs : FS) :
    runSteps (a ++ b) fs =
      match runSteps a fs with
      | (fs1, some err) => (fs1, some err)
      | (fs1, none) => runSteps b fs1 := by
  induction a generalizing fs with
  | nil => rfl
  | cons f rest ih =>
    simp only [List.cons_append, runSteps]
    rcases f fs with ⟨fs1, _ | e⟩
    · exact ih fs1
    · rfl

theorem Grows_runSteps (steps : List Step) (h : ∀ f ∈ steps, ∀ s, Grows s (f s).1) (fs : FS) :
    Grows fs (runSteps steps fs).1 := by
  induction steps generalizing fs with
  | nil => exact Grows.grows_refl fs
  | cons f rest ih =>
    have hf := h f (by simp) fs
    unfold runSteps
    rcases hfs : f fs with ⟨fs1, _ | e⟩ <;> rw [hfs] at hf
    · exact hf.grows_trans (ih (fun g hg => h g (by simp [hg])) fs1)
    · exact hf

/-- What a prefix of the phases has left is still there when the whole run ends. -/
theorem Grows_runSteps_from (pre post : List Step) (h : ∀ f ∈ post, ∀ s, Grows s (f s).1)
    (fs : FS) : Grows (runSteps pre fs).1 (runSteps (pre ++ post) fs).1 := by
  rw [runSteps_append]
  rcases runSteps pre fs with ⟨fs1, _ | e⟩
  · exact Grows_runSteps post h fs1
  · exact Grows.grows_refl fs1

/-- A failing phase ends the run: the later phases do not act, and its error is returned. -/
theorem runSteps_fails (pre post : List Step) (f : Step) (fs fs1 fs2 : FS) (err : String)
    (hpre : runSteps pre fs = (fs1, none)) (hf : f fs1 = (fs2, some err)) :
    runSteps (pre ++ f :: post) fs = (fs2, some err) := by
  rw [runSteps_append, hpre]
  simp [runSteps, hf]

theorem Generate_eq_runSteps (g : Generator) (env : Env) (ord : MapOrder) (fs : FS) :
    g.Generate env ord fs = runSteps (g.phases env ord) fs := by
  unfold Generator.Generate Generator.phases
  simp only [runSteps, named]
  generalize Join g.config.TargetDir g.config.ProjectName = root
  rcases MkdirAll fs root with ⟨fs1, _ | e⟩ <;> try dsimp only
  all_goals (rcases g.generateStructure root fs1 with ⟨fs2, _ | e⟩ <;> try dsimp only)
  all_goals (rcases g.arch.GenerateFiles env ord root g.config fs2 with ⟨fs3, _ | e⟩ <;>
    try dsimp only)
  all_goals (rcases g.fileGen.GenerateCommonFiles root fs3 with ⟨fs4, _ | e⟩ <;>
    try dsimp only)
  all_goals (rcases g.fileGen.GenerateOptionalFiles env root fs4 with ⟨fs5, _ | e⟩ <;> try rfl)

theorem GenerateCommonFiles_eq_runSteps (fg : FileGenerator) (root : String) (fs : FS) :
    fg.GenerateCommonFiles root fs = runSteps (fg.commonSteps root) fs := by
  unfold FileGenerator.GenerateCommonFiles FileGenerator.commonSteps
  simp only [runSteps, named]
  rcases GenerateGoMod fg.config root fs with ⟨fs1, _ | e⟩ <;> try dsimp only
  all_goals (rcases GenerateReadme fg.config root fs1 with ⟨fs2, _ | e⟩ <;> try dsimp only)
  all_goals (rcases GenerateGitignore fg.config root fs2 with ⟨fs3, _ | e⟩ <;> try rfl)

theorem GenerateOptionalFiles_eq_runSteps (fg : FileGenerator) (env : Env) (root : String)
    (fs : FS) : fg.GenerateOptionalFiles env root fs = runSteps (fg.optionalSteps env root) fs := by
  unfold FileGenerator.GenerateOptionalFiles FileGenerator.optionalSteps
  simp only [runSteps, named]
  rcases MakefileGenerator.Generate fg.config root fs with ⟨fs1, _ | e⟩ <;> try dsimp only
  all_goals (rcases fg.dockerStep root fs1 with ⟨fs2, _ | e⟩ <;> try dsimp only)
  all_goals (rcases fg.licenseStep env root fs2 with ⟨fs3, _ | e⟩ <;> try dsimp only)
  all_goals (rcases fg.gitStep env root fs3 with ⟨fs4, _ | e⟩ <;> try rfl)

theorem Grows_createDirectories (root : String) (dirs : List String) (fs : FS) :
    Grows fs (createDirectories root fs dirs).1 := by
  have h := createDirectories_spec root dirs fs
  refine ⟨h.2.2.1, fun x hx => ?_⟩
  unfold isFile at *
  rw [h.1]
  exact hx

theorem Grows_GenerateFiles (a : Architecture) (env : Env) (ord : MapOrder) (root : String)
    (config : Config) (fs : FS) : Grows fs (a.GenerateFiles env ord root config fs).1 := by
  have h := renderAndWriteLoop_spec env a.templateManager root (NewTemplateData env config)
    (ord.visit (mapOfBindings (a.fileBindings config))) fs
  exact ⟨h.2.1, h.2.2.2.1⟩

theorem Grows_DockerGenerator (config : Config) (root : String) (fs : FS) :
    Grows fs (DockerGenerator.Generate config root fs).1 := by
  unfold DockerGenerator.Generate generateDockerfile generateDockerCompose generateDockerignore
  have g1 := Grows_WriteFile fs (Join root "Dockerfile") (dockerfileContent config)
  rcases h1 : WriteFile fs (Join root "Dockerfile") (dockerfileContent config) with
    ⟨fs1, _ | e⟩ <;> rw [h1] at g1
  · dsimp only
    have g2 := Grows_WriteFile fs1 (Join root "docker-compose.yml") (dockerComposeContent config)
    rcases h2 : WriteFile fs1 (Join root "docker-compose.yml") (dockerComposeContent config)
      with ⟨fs2, _ | e⟩ <;> rw [h2] at g2
    · dsimp only
      have g3 := Grows_WriteFile fs2 (Join root ".dockerignore") dockerignoreContent
      rcases h3 : WriteFile fs2 (Join root ".dockerignore") dockerignoreContent with
        ⟨fs3, _ | e⟩ <;> rw [h3] at g3
      · exact (g1.grows_trans g2).grows_trans g3
      · exact (g1.grows_trans g2).grows_trans g3
    · exact g1.grows_trans g2
  · exact g1

theorem Grows_dockerStep (fg : FileGenerator) (root : String) (fs : FS) :
    Grows fs (fg.dockerStep root fs).1 := by
  unfold FileGenerator.dockerStep
  by_cases h : fg.config.WithDocker = true
  · rw [if_pos h]
    have g := Grows_DockerGenerator fg.config root fs
    rcases h1 : DockerGenerator.Generate fg.config root fs with ⟨fs1, _ | e⟩ <;>
      rw [h1] at g <;> exact g
  · rw [if_neg h]
    exact Grows.grows_refl fs

theorem Grows_licenseStep (fg : FileGenerator) (env : Env) (root : String) (fs : FS) :
    Grows fs (fg.licenseStep env root fs).1 := by
  unfold FileGenerator.licenseStep
  by_cases h : fg.config.License ≠ "None" ∧ fg.config.License ≠ ""
  · rw [if_pos h]
    have g : Grows fs (LicenseGenerator.Generate env fg.config root fs).1 := by
      unfold LicenseGenerator.Generate
      dsimp only
      rcases licenseContent fg.config env.year with _ | body
      · exact Grows.grows_refl fs
      · exact Grows_WriteFile fs _ _
    rcases h1 : LicenseGenerator.Generate env fg.config root fs with ⟨fs1, _ | e⟩ <;>
      rw [h1] at g <;> exact g
  · rw [if_neg h]
    exact Grows.grows_refl fs

theorem Grows_gitStep (fg : FileGenerator) (env : Env) (root : String) (fs : FS)
    (hgit : fg.config.WithGit = true → ∀ s, Grows s (env.gitInitialize fg.config root s).1) :
    Grows fs (fg.gitStep env root fs).1 := by
  unfold FileGenerator.gitStep
  by_cases h : fg.config.WithGit = true
  · rw [if_pos h]
    have g := hgit h fs
    rcases h1 : env.gitInitialize fg.config root fs with ⟨fs1, _ | e⟩ <;>
      rw [h1] at g <;> exact g
  · rw [if_neg h]
    exact Grows.grows_refl fs

theorem Grows_commonSteps (fg : FileGenerator) (root : String) :
    ∀ f ∈ fg.commonSteps root, ∀ s, Grows s (f s).1 := by
  intro f hf
  simp only [FileGenerator.commonSteps, List.mem_cons, List.mem_singleton, List.not_mem_nil,
    or_false] at hf
  rcases hf with h | h | h <;> subst h <;>
    exact Grows_named _ _ (fun s => Grows_WriteFile s _ _)

theorem Grows_optionalSteps (fg : FileGenerator) (env : Env) (root : String)
    (hgit : fg.config.WithGit = true → ∀ s, Grows s (env.gitInitialize fg.config root s).1) :
    ∀ f ∈ fg.optionalSteps env root, ∀ s, Grows s (f s).1 := by
  intro f hf
  simp only [FileGenerator.optionalSteps, List.mem_cons, List.mem_singleton, List.not_mem_nil,
    or_false] at hf
  rcases hf with h | h | h | h <;> subst h
  · exact Grows_named _ _ (fun s => Grows_WriteFile s _ _)
  · exact Grows_dockerStep fg root
  · exact Grows_licenseStep fg env root
  · exact fun s => Grows_gitStep fg env root s hgit

theorem Grows_phases (g : Generator) (env : Env) (ord : MapOrder)
    (hgit : g.fileGen.config.WithGit = true → ∀ root s,
      Grows s (env.gitInitialize g.fileGen.config root s).1) :
    ∀ f ∈ g.phases env ord, ∀ s, Grows s (f s).1 := by
  intro f hf
  simp only [Generator.phases, List.mem_cons, List.mem_singleton, List.not_mem_nil,
    or_false] at hf
  rcases hf with h | h | h | h | h <;> subst h
  · exact Grows_named _ _ (fun s => Grows_MkdirAll s _)
  · exact Grows_named _ _ (fun s => Grows_createDirectories _ _ s)
  · exact Grows_named _ _ (fun s => Grows_GenerateFiles _ _ _ _ _ s)
  · refine Grows_named _ _ (fun s => ?_)
    rw [GenerateCommonFiles_eq_runSteps]
    exact Grows_runSteps _ (Grows_commonSteps _ _) s
  · refine Grows_named _ _ (fun s => ?_)
    rw [GenerateOptionalFiles_eq_runSteps]
    exact Grows_runSteps _ (Grows_optionalSteps _ _ _ (fun h => hgit h _)) s

/-- C14: `Generate`, `GenerateCommonFiles` and `GenerateOptionalFiles` run the steps listed
in `phases`, `commonSteps` and `optionalSteps`, in that order.  When a phase of `Generate`
fails after the phases before it have succeeded, `Generate` returns the state that phase
left (no later phase acts) and the error of the phase under the name of the phase.  What
any leading part of the steps has left, directories and files, is still there when the run
ends, provided the git step (which is not part of the source) removes nothing. -/
theorem Generate_phase_order (g : Generator) (env : Env) (ord : MapOrder)
    (hgit : g.fileGen.config.WithGit = true → ∀ root s,
      Grows s (env.gitInitialize g.fileGen.config root s).1) :
    (∀ fs, g.Generate env ord fs = runSteps (g.phases env ord) fs) ∧
    (∀ root fs, g.fileGen.GenerateCommonFiles root fs =
      runSteps (g.fileGen.commonSteps root) fs) ∧
    (∀ root fs, g.fileGen.GenerateOptionalFiles env root fs =
      runSteps (g.fileGen.optionalSteps env root) fs) ∧
    (∀ (name : String) (f : Step) (pre post : List Step) (fs fs1 fs2 : FS) (err : String),
      g.phases env ord = pre ++ named name f :: post →
      runSteps pre fs = (fs1, none) → f fs1 = (fs2, some err) →
      g.Generate env ord fs = (fs2, some (name ++ ": " ++ err))) ∧
    (∀ (pre post : List Step) (fs : FS), g.phases env ord = pre ++ post →
      Grows (runSteps pre fs).1 (g.Generate env ord fs).1) ∧
    (∀ (root : String) (pre post : List Step) (fs : FS),
      g.fileGen.commonSteps root = pre ++ post →
      Grows (runSteps pre fs).1 (g.fileGen.GenerateCommonFiles root fs).1) ∧
    (∀ (root : String) (pre post : List Step) (fs : FS),
      g.fileGen.optionalSteps env root = pre ++ post →
      Grows (runSteps pre fs).1 (g.fileGen.GenerateOptionalFiles env root fs).1) := by
  refine ⟨Generate_eq_runSteps g env ord, GenerateCommonFiles_eq_runSteps g.fileGen,
    GenerateOptionalFiles_eq_runSteps g.fileGen env, ?_, ?_, ?_, ?_⟩
  · intro name f pre post fs fs1 fs2 err hph hpre hf
    rw [Generate_eq_runSteps, hph]
    exact runSteps_fails pre post (named name f) fs fs1 fs2 _ hpre (by simp [named, hf])
  · intro pre post fs hph
    rw [Generate_eq_runSteps, hph]
    refine Grows_runSteps_from pre post (fun f hf => ?_) fs
    exact Grows_phases g env ord hgit f (by rw [hph]; simp [hf])
  · intro root pre post fs hph
    rw [GenerateCommonFiles_eq_runSteps, hph]
    refine Grows_runSteps_from pre post (fun f hf => ?_) fs
    exact Grows_commonSteps g.fileGen root f (by rw [hph]; simp [hf])
  · intro root pre post fs hph
    rw [GenerateOptionalFiles_eq_runSteps, hph]
    refine Grows_runSteps_from pre post (fun f hf => ?_) fs
    exact Grows_optionalSteps g.fileGen env root (fun h => hgit h root) f
      (by rw [hph]; simp [hf])

/-- The sample run in a project directory where `internal/handlers` cannot be created: the
structure phase fails, the run ends in the state it left, nothing is removed. -/
theorem Generate_phase_order_witness :
    sampleGenerator.Generate sampleEnv MapOrder.stored blockedFS =
      (blockedFSAfterTwo,
        some ("failed to generate structure" ++ ": " ++
          "failed to create directory internal/handlers: " ++
          "mkdir out/shopcart/internal/handlers: permission denied")) ∧
    Grows blockedFS (sampleGenerator.Generate sampleEnv MapOrder.stored blockedFS).1 :=
  have h := Generate_phase_order sampleGenerator sampleEnv MapOrder.stored
    (fun _ _ s => Grows.grows_refl s)
  ⟨h.2.2.2.1 "failed to generate structure" (sampleGenerator.generateStructure "out/shopcart")
      [named "failed to create project directory" (fun fs => MkdirAll fs "out/shopcart")]
      _ blockedFS blockedFS blockedFSAfterTwo
      ("failed to create directory internal/handlers: " ++
        "mkdir out/shopcart/internal/handlers: permission denied") (by rfl) (by rfl) (by rfl),
   h.2.2.2.2.1 [] _ blockedFS rfl⟩

/-! ### C15: the first directory that cannot be created -/

theorem createDirectories_append (root : String) (a b : List String) (fs : FS) :
    createDirectories root fs (a ++ b) =
      match createDirectories root fs a with
      | (fs1, none) => createDirectories root fs1 b
      | (fs1, some err) => (fs1, some err) := by
  induction a generalizing fs with
  | nil => simp [createDirectories]
  | cons d rest ih =>
    simp only [List.cons_append, createDirectories]
    rcases h : MkdirAll fs (Join root d) with ⟨fs1, _ | err⟩
    · simp only []
      exact ih fs1
    · simp

/-- C15: `generateStructure` goes through the directories of the architecture in the order
declared.  When it succeeds every declared directory exists.  When the directory `d` is the
first whose creation fails, after those before it (`pre`) have been created in order, it
returns at once: the state is the one the failed `MkdirAll` left, whatever directories are
declared after `d`; the error contains the declared relative path `d`; every directory of
`pre` exists; the files are untouched; and every directory there is was there before or is
on the way to a directory of `pre` or to `d`. -/
theorem generateStructure_first_failure (g : Generator) (root : String) (fs : FS)
    (pre post : List String) (d : String)
    (hd : g.arch.GetStructure.Directories = pre ++ d :: post) :
    (∀ fs1, g.generateStructure root fs = (fs1, none) →
      ∀ x ∈ pre ++ d :: post, isDir fs1 (Join root x) = true) ∧
    (∀ fsPre fsI err, createDirectories root fs pre = (fsPre, none) →
      MkdirAll fsPre (Join root d) = (fsI, some err) →
      g.generateStructure root fs =
        (fsI, some ("failed to create directory " ++ d ++ ": " ++ err)) ∧
      Contains ("failed to create directory " ++ d ++ ": " ++ err) d ∧
      (∀ x ∈ pre, isDir fsI (Join root x) = true) ∧
      fsI.files = fs.files ∧
      (∀ p ∈ fsI.dirs, p ∈ fs.dirs ∨ ∃ x ∈ pre ++ [d], p ∈ ancestorsOrSelf (Join root x))) := by
  refine ⟨?_, ?_⟩
  · intro fs1 h x hx
    have hs := (createDirectories_spec root (pre ++ d :: post) fs).2.2.2.2
    have e : createDirectories root fs (pre ++ d :: post) = (fs1, none) := by
      rw [← hd]; exact h
    rw [e] at hs
    exact hs rfl x hx
  · intro fsPre fsI err hpre hfail
    have e : g.generateStructure root fs =
        (fsI, some ("failed to create directory " ++ d ++ ": " ++ err)) := by
      show createDirectories root fs g.arch.GetStructure.Directories = _
      rw [hd, createDirectories_append, hpre]
      simp [createDirectories, hfail]
    have hP := createDirectories_spec root pre fs
    rw [hpre] at hP
    have hM := MkdirAll_spec fsPre (Join root d)
    rw [hfail] at hM
    refine ⟨e, ?_, ?_, ?_, ?_⟩
    · exact Contains_append_right _ _ _ (Contains_append_right _ _ _ (Contains_tail _ _))
    · intro x hx
      exact isDir_mono _ _ _ hM.2.2.1 (hP.2.2.2.2 rfl x hx)
    · exact hM.1.trans hP.1
    · intro p hp
      rcases hM.2.2.2.1 p hp with h | h
      · rcases hP.2.2.2.1 p h with h1 | ⟨x, hx, h1⟩
        · exact Or.inl h1
        · exact Or.inr ⟨x, by simp [hx], h1⟩
      · exact Or.inr ⟨d, by simp, h⟩

/-- The basic layout in a project directory where `internal/handlers` cannot be created:
`cmd` and `internal/app` exist, the error names `internal/handlers`. -/
theorem generateStructure_first_failure_witness :
    sampleGenerator.generateStructure "out/shopcart" blockedFS =
      (blockedFSAfterTwo,
        some ("failed to create directory " ++ "internal/handlers" ++ ": " ++
          "mkdir out/shopcart/internal/handlers: permission denied")) ∧
    isDir blockedFSAfterTwo (Join "out/shopcart" "cmd") = true ∧
    isDir blockedFSAfterTwo (Join "out/shopcart" "internal/app") = true :=
  have h := (generateStructure_first_failure sampleGenerator "out/shopcart" blockedFS
    ["cmd", "internal/app"]
    ["internal/services", "internal/repository", "pkg/logger", "pkg/utils", "pkg/database",
      "configs", "docs", "scripts", "tests"] "internal/handlers" (by rfl)).2
    blockedFSAfterTwo blockedFSAfterTwo
    "mkdir out/shopcart/internal/handlers: permission denied" (by rfl) (by rfl)
  ⟨h.1, h.2.2.1 "cmd" (by simp), h.2.2.1 "internal/app" (by simp)⟩

/-! ### C16, C17: the operations of a run -/

theorem Extends.extends_refl (fs : FS) : Extends fs fs :=
  ⟨rfl, fun _ h => h, fun _ h => Or.inl h, fun _ h => h, fun _ => Or.inl rfl⟩

theorem Extends.isDir {a b : FS} (h : Extends a b) (x : String) (hx : isDir a x = true) :
    isDir b x = true := isDir_mono a b x h.2.1 hx

theorem Extends.extends_trans {a b c : FS} (h1 : Extends a b) (h2 : Extends b c) : Extends a c := by
  refine ⟨h2.1.trans h1.1, fun _ h => h2.2.1 (h1.2.1 h), ?_, fun x h => h2.2.2.2.1 x (h1.2.2.2.1 x h),
    ?_⟩
  · intro d hd
    rcases h2.2.2.1 d hd with h | h
    · exact h1.2.2.1 d h
    · right
      by_contra hc
      have := h1.2.2.2.1 d (by simpa using hc)
      rw [h] at this
      cases this
  · intro x
    rcases h2.2.2.2.2 x with h | h
    · rcases h1.2.2.2.2 x with k | k
      · exact Or.inl (h.trans k)
      · exact Or.inr k
    · right
      by_contra hc
      have := h1.isDir x (by simpa using hc)
      rw [h] at this
      cases this

theorem mkdirOne_new (fs : FS) (p : String) :
    ∀ d ∈ (mkdirOne fs p).1.dirs, d ∈ fs.dirs ∨ isFile fs d = false := by
  by_cases h1 : isDir fs p = true
  · have e : mkdirOne fs p = (fs, none) := by simp [mkdirOne, h1]
    rw [e]
    exact fun d hd => Or.inl hd
  · by_cases h2 : isFile fs p = true
    · have e : mkdirOne fs p = (fs, some ("mkdir " ++ p ++ ": not a directory")) := by
        simp [mkdirOne, h1, h2]
      rw [e]
      exact fun d hd => Or.inl hd
    · by_cases h3 : p ∈ fs.denied
      · have e : mkdirOne fs p = (fs, some ("mkdir " ++ p ++ ": permission denied")) := by
          simp [mkdirOne, h1, h2, h3]
        rw [e]
        exact fun d hd => Or.inl hd
      · have e : mkdirOne fs p = ({ fs with dirs := fs.dirs ++ [p] }, none) := by
          simp [mkdirOne, h1, h2, h3]
        rw [e]
        intro d hd
        simp only [List.mem_append, List.mem_singleton] at hd
        rcases hd with hd | hd
        · exact Or.inl hd
        · subst hd
          exact Or.inr (by simpa using h2)

theorem mkdirChain_new (chain : List String) (fs : FS) :
    ∀ d ∈ (mkdirChain fs chain).1.dirs, d ∈ fs.dirs ∨ isFile fs d = false := by
  induction chain generalizing fs with
  | nil => exact fun d hd => Or.inl hd
  | cons p ps ih =>
    have h1 := mkdirOne_new fs p
    have hf := (mkdirOne_spec fs p).1
    rcases hm : mkdirOne fs p with ⟨fs1, _ | err⟩
    · rw [hm] at h1 hf
      simp only [mkdirChain, hm]
      intro d hd
      rcases ih fs1 d hd with h | h
      · exact h1 d h
      · right
        unfold isFile at h ⊢
        rw [← hf]
        exact h
    · rw [hm] at h1
      simp only [mkdirChain, hm]
      exact h1

theorem Extends_MkdirAll (fs : FS) (path : String) : Extends fs (MkdirAll fs path).1 := by
  have h := MkdirAll_spec fs path
  refine ⟨h.2.1, h.2.2.1, ?_, ?_, ?_⟩
  · by_cases hp : path = ""
    · have e : MkdirAll fs path = (fs, some "mkdir : no such file or directory") := by
        simp [MkdirAll, hp]
      rw [e]
      exact fun d hd => Or.inl hd
    · have e : MkdirAll fs path = mkdirChain fs (parents path ++ [path]) := by
        simp [MkdirAll, hp]
      rw [e]
      exact mkdirChain_new _ fs
  · intro x hx
    unfold isFile at *
    rw [h.1]
    exact hx
  · intro x
    exact Or.inl (readFile_MkdirAll fs path x)

theorem WriteFile_ok (fs fs1 : FS) (name data : String)
    (h : WriteFile fs name data = (fs1, none)) :
    isDir fs name = false ∧ isFile fs (Dir name) = false ∧ isDir fs (Dir name) = true ∧
    name ∉ fs.denied ∧ fs1 = { fs with files := setFile fs.files name data } := by
  unfold WriteFile at h
  by_cases h1 : isDir fs name = true
  · simp [h1] at h
  · by_cases h2 : isFile fs (Dir name) = true
    · simp [h1, h2] at h
    · by_cases h3 : isDir fs (Dir name) = true
      · by_cases h4 : name ∈ fs.denied
        · simp [h1, h2, h3, h4] at h
        · simp [h1, h2, h3, h4] at h
          exact ⟨by simpa using h1, by simpa using h2, h3, h4, h.symm⟩
      · simp [h1, h2, h3] at h

theorem Extends_WriteFile (fs : FS) (name data : String) :
    Extends fs (WriteFile fs name data).1 := by
  have h := WriteFile_spec fs name data
  refine ⟨h.2.1, by rw [h.1]; exact fun _ k => k, ?_, fun x hx => isFile_WriteFile fs name data x hx,
    ?_⟩
  · intro d hd
    rw [h.1] at hd
    exact Or.inl hd
  · intro x
    by_cases hx : x = name
    · subst hx
      rcases hw : WriteFile fs x data with ⟨fs1, _ | err⟩
      · exact Or.inr (WriteFile_ok fs fs1 x data hw).1
      · rw [WriteFile_failed fs fs1 x data err hw]
        exact Or.inl rfl
    · exact Or.inl (h.2.2.2.2 x hx)

theorem Extends_run (op : Op) (fs : FS) : Extends fs (op.run fs).1 := by
  cases op with
  | mkdir p => exact Extends_MkdirAll fs p
  | write n d => exact Extends_WriteFile fs n d
  | abort => exact Extends.extends_refl fs

theorem readFile_run (op : Op) (fs : FS) (x : String) (hx : op.writeName ≠ some x) :
    readFile (op.run fs).1 x = readFile fs x := by
  cases op with
  | mkdir p => exact readFile_MkdirAll fs p x
  | write n d =>
    apply (WriteFile_spec fs n d).2.2.2.2 x
    intro h
    exact hx (by simp [Op.writeName, h])
  | abort => rfl

theorem runOps_cons_ok (op : Op) (rest : List Op) (fs fs1 : FS) (h : op.run fs = (fs1, none)) :
    runOps (op :: rest) fs = runOps rest fs1 := by
  simp [runOps, h]

theorem runOps_cons_fail (op : Op) (rest : List Op) (fs fs1 : FS) (err : String)
    (h : op.run fs = (fs1, some err)) : runOps (op :: rest) fs = (fs1, some err) := by
  simp [runOps, h]

theorem runOps_append (a b : List Op) (fs : FS) :
    runOps (a ++ b) fs =
      match runOps a fs with
      | (fs1, some err) => (fs1, some err)
      | (fs1, none) => runOps b fs1 := by
  induction a generalizing fs with
  | nil => rfl
  | cons op rest ih =>
    rcases h : op.run fs with ⟨fs1, _ | e⟩
    · rw [List.cons_append, runOps_cons_ok _ _ _ _ h, runOps_cons_ok _ _ _ _ h]
      exact ih fs1
    · rw [List.cons_append, runOps_cons_fail _ _ _ _ _ h, runOps_cons_fail _ _ _ _ _ h]

theorem Extends_runOps (ops : List Op) (fs : FS) : Extends fs (runOps ops fs).1 := by
  induction ops generalizing fs with
  | nil => exact Extends.extends_refl fs
  | cons op rest ih =>
    have h1 := Extends_run op fs
    rcases h : op.run fs with ⟨fs1, _ | e⟩
    · rw [runOps_cons_ok _ _ _ _ h]
      rw [h] at h1
      exact h1.extends_trans (ih fs1)
    · rw [runOps_cons_fail _ _ _ _ _ h]
      rw [h] at h1
      exact h1

theorem readFile_runOps (ops : List Op) (fs : FS) (x : String) (hx : x ∉ writeNames ops) :
    readFile (runOps ops fs).1 x = readFile fs x := by
  induction ops generalizing fs with
  | nil => rfl
  | cons op rest ih =>
    have hop : op.writeName ≠ some x := by
      intro h
      exact hx (by simp [writeNames, List.filterMap_cons, h])
    have hrest : x ∉ writeNames rest := by
      intro h
      apply hx
      unfold writeNames at h ⊢
      rw [List.filterMap_cons]
      cases op.writeName <;> simp [h]
    have h1 := readFile_run op fs x hop
    rcases h : op.run fs with ⟨fs1, _ | e⟩
    · rw [runOps_cons_ok _ _ _ _ h]
      rw [h] at h1
      exact (ih fs1 hrest).trans h1
    · rw [runOps_cons_fail _ _ _ _ _ h]
      rw [h] at h1
      exact h1

theorem isDir_runOps (ops : List Op) (fs : FS) (d : String)
    (hd : isDir (runOps ops fs).1 d = true) : isDir fs d = true ∨ d ∈ mkdirTargets ops := by
  induction ops generalizing fs with
  | nil => exact Or.inl hd
  | cons op rest ih =>
    have key : isDir (op.run fs).1 d = true →
        isDir fs d = true ∨ d ∈ mkdirTargets (op :: rest) := by
      intro h
      cases op with
      | mkdir p =>
        unfold isDir at h ⊢
        simp only [Bool.or_eq_true, decide_eq_true_eq] at h ⊢
        rcases h with h | h
        · rcases (MkdirAll_spec fs p).2.2.2.1 d h with k | k
          · exact Or.inl (Or.inl k)
          · exact Or.inr (by simp [mkdirTargets, k])
        · exact Or.inl (Or.inr h)
      | write n c =>
        left
        unfold isDir at h ⊢
        rw [show (Op.run (.write n c) fs).1.dirs = fs.dirs from (WriteFile_spec fs n c).1] at h
        exact h
      | abort => exact Or.inl h
    have sub : ∀ x, x ∈ mkdirTargets rest → x ∈ mkdirTargets (op :: rest) := by
      intro x hx
      cases op <;> simp [mkdirTargets, hx]
    rcases h : op.run fs with ⟨fs1, _ | e⟩
    · rw [runOps_cons_ok _ _ _ _ h] at hd
      rcases ih fs1 hd with k | k
      · exact key (by rw [h]; exact k)
      · exact Or.inr (sub d k)
    · rw [runOps_cons_fail _ _ _ _ _ h] at hd
      exact key (by rw [h]; exact hd)

theorem setFile_noop (m : List (String × String)) (k v : String) (h : m.lookup k = some v) :
    setFile m k v = m := by
  induction m with
  | nil => simp at h
  | cons kv rest ih =>
    obtain ⟨k1, v1⟩ := kv
    unfold setFile
    by_cases hk : k1 = k
    · subst hk
      simp only [List.lookup_cons, beq_self_eq_true] at h
      simp only [if_true]
      cases h
      rfl
    · rw [if_neg hk]
      have hk2 : (k == k1) = false := by
        simp only [beq_eq_false_iff_ne, ne_eq]
        exact fun e => hk e.symm
      simp only [List.lookup_cons, hk2] at h
      rw [ih h]

theorem mkdirChain_noop (chain : List String) (fs : FS)
    (h : ∀ q ∈ chain, isDir fs q = true) : mkdirChain fs chain = (fs, none) := by
  induction chain with
  | nil => rfl
  | cons p ps ih =>
    have e : mkdirOne fs p = (fs, none) := by simp [mkdirOne, h p (by simp)]
    simp only [mkdirChain, e]
    exact ih (fun q hq => h q (by simp [hq]))

theorem writeNames_cons (op : Op) (rest : List Op) :
    writeNames (op :: rest) =
      match op.writeName with
      | some n => n :: writeNames rest
      | none => writeNames rest := by
  unfold writeNames
  rw [List.filterMap_cons]
  cases op.writeName <;> rfl

theorem mem_writeNames (ops : List Op) (n : String) :
    n ∈ writeNames ops ↔ ∃ d, Op.write n d ∈ ops := by
  unfold writeNames
  rw [List.mem_filterMap]
  constructor
  · rintro ⟨op, hop, heq⟩
    cases op with
    | mkdir p => simp [Op.writeName] at heq
    | write m d =>
      simp only [Op.writeName, Option.some.injEq] at heq
      subst heq
      exact ⟨d, hop⟩
    | abort => simp [Op.writeName] at heq
  · rintro ⟨d, hd⟩
    exact ⟨_, hd, rfl⟩

theorem mem_mkdirTargets (ops : List Op) (d : String) :
    d ∈ mkdirTargets ops ↔ ∃ p, Op.mkdir p ∈ ops ∧ d ∈ ancestorsOrSelf p := by
  induction ops with
  | nil => simp [mkdirTargets]
  | cons op rest ih =>
    cases op with
    | mkdir p =>
      simp only [mkdirTargets, List.mem_append, ih, List.mem_cons]
      constructor
      · rintro (h | ⟨q, hq, hd⟩)
        · exact ⟨p, Or.inl rfl, h⟩
        · exact ⟨q, Or.inr hq, hd⟩
      · rintro ⟨q, hq | hq, hd⟩
        · cases hq
          exact Or.inl hd
        · exact Or.inr ⟨q, hq, hd⟩
    | write n c =>
      simp only [mkdirTargets, ih, List.mem_cons]
      constructor
      · rintro ⟨q, hq, hd⟩
        exact ⟨q, Or.inr hq, hd⟩
      · rintro ⟨q, hq | hq, hd⟩
        · cases hq
        · exact ⟨q, hq, hd⟩
    | abort =>
      simp only [mkdirTargets, ih, List.mem_cons]
      constructor
      · rintro ⟨q, hq, hd⟩
        exact ⟨q, Or.inr hq, hd⟩
      · rintro ⟨q, hq | hq, hd⟩
        · cases hq
        · exact ⟨q, hq, hd⟩

/-- A settled operation, run, succeeds and leaves the state as it is. -/
theorem Settled.run_eq {fs : FS} {op : Op} (h : Settled fs op) : op.run fs = (fs, none) := by
  cases op with
  | mkdir p =>
    obtain ⟨hp, hq⟩ := h
    show MkdirAll fs p = (fs, none)
    unfold MkdirAll
    rw [if_neg hp]
    exact mkdirChain_noop _ fs hq
  | write n d =>
    obtain ⟨h1, h2, h3, h4, h5⟩ := h
    show WriteFile fs n d = (fs, none)
    unfold WriteFile
    simp only [h1, h2, h3, h4, Bool.false_eq_true, if_false, Bool.not_true]
    unfold readFile at h5
    rw [setFile_noop _ _ _ h5]
  | abort => exact absurd h (by simp [Settled])

/-- An operation that has succeeded is settled in the state it left. -/
theorem Settled.of_run {fs fs1 : FS} {op : Op} (h : op.run fs = (fs1, none)) :
    Settled fs1 op := by
  cases op with
  | mkdir p =>
    have h' : MkdirAll fs p = (fs1, none) := h
    have hp : p ≠ "" := by
      intro hp
      simp [MkdirAll, hp] at h'
    refine ⟨hp, ?_⟩
    have e : MkdirAll fs p = mkdirChain fs (parents p ++ [p]) := by simp [MkdirAll, hp]
    have hc := (mkdirChain_spec (parents p ++ [p]) fs).2.2.2.2
    rw [← e, h'] at hc
    exact hc rfl
  | write n d =>
    have h' : WriteFile fs n d = (fs1, none) := h
    obtain ⟨h1, h2, h3, h4, h5⟩ := WriteFile_ok fs fs1 n d h'
    subst h5
    have hne : Dir n ≠ n := by
      intro e
      rw [e] at h3
      rw [h1] at h3
      cases h3
    refine ⟨h1, ?_, h3, h4, lookup_setFile_self _ _ _⟩
    unfold isFile at h2 ⊢
    rw [show (setFile fs.files n d).lookup (Dir n) = fs.files.lookup (Dir n) from
      lookup_setFile_ne _ _ _ _ hne]
    exact h2
  | abort => simp [Op.run] at h

/-- A settled operation stays settled in a later state, as long as the file it writes
has not been written again. -/
theorem Settled.later {fs fs1 : FS} {op : Op} (h : Settled fs op) (he : Extends fs fs1)
    (hr : ∀ n, op.writeName = some n → readFile fs1 n = readFile fs n) : Settled fs1 op := by
  cases op with
  | mkdir p => exact ⟨h.1, fun q hq => he.isDir q (h.2 q hq)⟩
  | write n d =>
    obtain ⟨h1, h2, h3, h4, h5⟩ := h
    have hf : isFile fs n = true := by
      unfold isFile
      unfold readFile at h5
      rw [h5]
      rfl
    refine ⟨?_, ?_, he.isDir _ h3, ?_, (hr n rfl).trans h5⟩
    · unfold isDir at h1 ⊢
      simp only [Bool.or_eq_false_iff, decide_eq_false_iff_not] at h1 ⊢
      refine ⟨fun hn => ?_, h1.2⟩
      rcases he.2.2.1 n hn with k | k
      · exact h1.1 k
      · rw [hf] at k
        cases k
    · rcases he.2.2.2.2 (Dir n) with k | k
      · unfold isFile at h2 ⊢
        unfold readFile at k
        rw [k]
        exact h2
      · rw [h3] at k
        cases k
    · rw [he.1]
      exact h4
  | abort => exact absurd h (by simp [Settled])

/-- After a successful run in which no file is written twice, every operation is
settled. -/
theorem Settled_runOps (ops : List Op) (fs fs1 : FS) (h : runOps ops fs = (fs1, none))
    (hn : (writeNames ops).Nodup) : ∀ op ∈ ops, Settled fs1 op := by
  induction ops generalizing fs with
  | nil => simp
  | cons op rest ih =>
    rcases h1 : op.run fs with ⟨fs2, _ | e⟩
    · rw [runOps_cons_ok _ _ _ _ h1] at h
      have hrest : (writeNames rest).Nodup := by
        rw [writeNames_cons] at hn
        cases hw : op.writeName with
        | none => rw [hw] at hn; exact hn
        | some n => rw [hw] at hn; exact (List.nodup_cons.mp hn).2
      have hop : Settled fs1 op := by
        refine (Settled.of_run h1).later ?_ ?_
        · have := Extends_runOps rest fs2
          rw [h] at this
          exact this
        · intro n hw
          have := readFile_runOps rest fs2 n (by
            rw [writeNames_cons, hw] at hn
            exact (List.nodup_cons.mp hn).1)
          rw [h] at this
          exact this
      intro op1 hop1
      rcases List.mem_cons.mp hop1 with k | k
      · rw [k]
        exact hop
      · exact ih fs2 h hrest op1 k
    · rw [runOps_cons_fail _ _ _ _ _ h1] at h
      simp at h

/-- Operations that are all settled run to the end and change nothing. -/
theorem runOps_of_settled (ops : List Op) (fs : FS) (h : ∀ op ∈ ops, Settled fs op) :
    runOps ops fs = (fs, none) := by
  induction ops with
  | nil => rfl
  | cons op rest ih =>
    rw [runOps_cons_ok _ _ _ _ (h op (by simp)).run_eq]
    exact ih (fun o ho => h o (by simp [ho]))

/-- Two successful runs of the same operations, in whatever order, from the same tree, end
in the same tree. -/
theorem SameTree_runOps (ops1 ops2 : List Op) (fsA fsB fA fB : FS)
    (hmem : ∀ op, op ∈ ops1 ↔ op ∈ ops2)
    (hn1 : (writeNames ops1).Nodup) (hn2 : (writeNames ops2).Nodup)
    (hs : SameTree fsA fsB)
    (hA : runOps ops1 fsA = (fA, none)) (hB : runOps ops2 fsB = (fB, none)) :
    SameTree fA fB := by
  have sA := Settled_runOps ops1 fsA fA hA hn1
  have sB := Settled_runOps ops2 fsB fB hB hn2
  have eA := Extends_runOps ops1 fsA
  have eB := Extends_runOps ops2 fsB
  rw [hA] at eA
  rw [hB] at eB
  have dirs : ∀ (o1 o2 : List Op) (s1 s2 f1 f2 : FS), (∀ op, op ∈ o1 → op ∈ o2) →
      (∀ d, isDir s1 d = isDir s2 d) → runOps o1 s1 = (f1, none) → Extends s2 f2 →
      (∀ op ∈ o2, Settled f2 op) → ∀ d, isDir f1 d = true → isDir f2 d = true := by
    intro o1 o2 s1 s2 f1 f2 hsub hd hr he hset d hd1
    have := isDir_runOps o1 s1 d (by rw [hr]; exact hd1)
    rcases this with k | k
    · rw [hd d] at k
      exact he.isDir d k
    · obtain ⟨p, hp, hdp⟩ := (mem_mkdirTargets o1 d).mp k
      exact (hset _ (hsub _ hp)).2 d hdp
  refine ⟨fun d => ?_, fun x => ?_⟩
  · have h1 := dirs ops1 ops2 fsA fsB fA fB (fun op h => (hmem op).mp h) hs.1 hA eB sB d
    have h2 := dirs ops2 ops1 fsB fsA fB fA (fun op h => (hmem op).mpr h)
      (fun d => (hs.1 d).symm) hB eA sA d
    cases hfa : isDir fA d <;> cases hfb : isDir fB d <;> simp_all
  · by_cases hx : x ∈ writeNames ops1
    · obtain ⟨c, hc⟩ := (mem_writeNames ops1 x).mp hx
      have k1 := (sA _ hc).2.2.2.2
      have k2 := (sB _ ((hmem _).mp hc)).2.2.2.2
      rw [k1, k2]
    · have hx2 : x ∉ writeNames ops2 := by
        intro h
        obtain ⟨c, hc⟩ := (mem_writeNames ops2 x).mp h
        exact hx ((mem_writeNames ops1 x).mpr ⟨c, (hmem _).mpr hc⟩)
      have k1 := readFile_runOps ops1 fsA x hx
      have k2 := readFile_runOps ops2 fsB x hx2
      rw [hA] at k1
      rw [hB] at k2
      rw [k1, k2]
      exact hs.2 x

theorem Agree.agree_refl (r : FS × Option String) : Agree r r := ⟨rfl, Iff.rfl⟩

theorem Agree_named (name : String) (f : Step) (s : FS) : Agree (named name f s) (f s) := by
  unfold named
  rcases f s with ⟨s1, _ | e⟩ <;> simp [Agree]

theorem Agree.agree_trans {a b c : FS × Option String} (h1 : Agree a b) (h2 : Agree b c) :
    Agree a c := ⟨h1.1.trans h2.1, h1.2.trans h2.2⟩

theorem runOps_single (op : Op) (s : FS) : runOps [op] s = op.run s := by
  rcases h : op.run s with ⟨s1, _ | e⟩
  · rw [runOps_cons_ok _ _ _ _ h]
    rfl
  · rw [runOps_cons_fail _ _ _ _ _ h]

theorem Agree_runSteps_nil (s : FS) : Agree (runSteps [] s) (runOps [] s) := ⟨rfl, Iff.rfl⟩

theorem Agree_runSteps_cons (f : Step) (rest : List Step) (a b : List Op)
    (h1 : ∀ s, Agree (f s) (runOps a s)) (h2 : ∀ s, Agree (runSteps rest s) (runOps b s))
    (s : FS) : Agree (runSteps (f :: rest) s) (runOps (a ++ b) s) := by
  rw [runOps_append]
  have k := h1 s
  unfold runSteps
  rcases hf : f s with ⟨s1, _ | e⟩ <;> rcases ha : runOps a s with ⟨s2, _ | e2⟩ <;>
    rw [hf, ha] at k <;> obtain ⟨k1, k2⟩ := k <;> dsimp only at k1 k2 ⊢
  · subst k1
    exact h2 s1
  · simp at k2
  · simp at k2
  · exact ⟨k1, by simp⟩

theorem Agree_MkdirAll (p : String) (s : FS) : Agree (MkdirAll s p) (runOps [.mkdir p] s) := by
  rw [runOps_single]
  exact Agree.agree_refl _

theorem Agree_WriteFile (n d : String) (s : FS) :
    Agree (WriteFile s n d) (runOps [.write n d] s) := by
  rw [runOps_single]
  exact Agree.agree_refl _

theorem Agree_createDirectories (root : String) (dirs : List String) (s : FS) :
    Agree (createDirectories root s dirs)
      (runOps (dirs.map (fun d => Op.mkdir (Join root d))) s) := by
  induction dirs generalizing s with
  | nil => exact ⟨rfl, Iff.rfl⟩
  | cons d rest ih =>
    simp only [List.map_cons, createDirectories]
    rcases h : MkdirAll s (Join root d) with ⟨s1, _ | e⟩
    · rw [runOps_cons_ok _ _ _ _ (show (Op.mkdir (Join root d)).run s = (s1, none) from h)]
      exact ih s1
    · rw [runOps_cons_fail _ _ _ _ _ (show (Op.mkdir (Join root d)).run s = (s1, some e) from h)]
      exact ⟨rfl, by simp⟩

theorem Agree_renderAndWriteLoop (env : Env) (tm : TemplateManager) (root : String)
    (data : TemplateData) (files : List (String × String)) (s : FS) :
    Agree (renderAndWriteLoop env tm root data s files)
      (runOps (renderOps env tm root data files) s) := by
  induction files generalizing s with
  | nil => exact ⟨rfl, Iff.rfl⟩
  | cons kv rest ih =>
    obtain ⟨k, t⟩ := kv
    simp only [renderAndWriteLoop, renderOps, entryOps]
    rcases hr : RenderTemplate env tm t data with ⟨c, _ | e⟩
    · dsimp only
      rcases hm : MkdirAll s (Dir (Join root k)) with ⟨s1, _ | e⟩
      · dsimp only
        rw [List.cons_append, runOps_cons_ok _ _ _ _
          (show (Op.mkdir (Dir (Join root k))).run s = (s1, none) from hm)]
        rcases hw : WriteFile s1 (Join root k) c with ⟨s2, _ | e⟩
        · dsimp only
          rw [List.cons_append, runOps_cons_ok _ _ _ _
            (show (Op.write (Join root k) c).run s1 = (s2, none) from hw)]
          exact ih s2
        · dsimp only
          rw [List.cons_append, runOps_cons_fail _ _ _ _ _
            (show (Op.write (Join root k) c).run s1 = (s2, some e) from hw)]
          exact ⟨rfl, by simp⟩
      · dsimp only
        rw [List.cons_append, runOps_cons_fail _ _ _ _ _
          (show (Op.mkdir (Dir (Join root k))).run s = (s1, some e) from hm)]
        exact ⟨rfl, by simp⟩
    · dsimp only
      rw [List.cons_append, runOps_cons_fail _ _ _ _ _
        (show Op.abort.run s = (s, some "aborted") from rfl)]
      exact ⟨rfl, by simp⟩

theorem Agree_GenerateCommonFiles (fg : FileGenerator) (root : String) (s : FS) :
    Agree (fg.GenerateCommonFiles root s) (runOps (commonOps fg root) s) := by
  rw [GenerateCommonFiles_eq_runSteps]
  have e : commonOps fg root =
      [.write (Join root "go.mod") (goModContent fg.config)] ++
        ([.write (Join root "README.md") (readmeContent fg.config)] ++
          ([.write (Join root ".gitignore") gitignoreContent] ++ [])) := rfl
  rw [e]
  unfold FileGenerator.commonSteps
  refine Agree_runSteps_cons _ _ _ _ (fun s => (Agree_named _ _ s).agree_trans (Agree_WriteFile _ _ s))
    (fun s => ?_) s
  refine Agree_runSteps_cons _ _ _ _ (fun s => (Agree_named _ _ s).agree_trans (Agree_WriteFile _ _ s))
    (fun s => ?_) s
  exact Agree_runSteps_cons _ _ _ _ (fun s => (Agree_named _ _ s).agree_trans (Agree_WriteFile _ _ s))
    Agree_runSteps_nil s

theorem DockerGenerator_Generate_eq_runSteps (config : Config) (root : String) (fs : FS) :
    DockerGenerator.Generate config root fs =
      runSteps [named "failed to generate Dockerfile" (generateDockerfile config root),
        named "failed to generate docker-compose.yml" (generateDockerCompose config root),
        named "failed to generate .dockerignore" (generateDockerignore config root)] fs := by
  unfold DockerGenerator.Generate
  simp only [runSteps, named]
  rcases generateDockerfile config root fs with ⟨fs1, _ | e⟩ <;> try dsimp only
  all_goals (rcases generateDockerCompose config root fs1 with ⟨fs2, _ | e⟩ <;> try dsimp only)
  all_goals (rcases generateDockerignore config root fs2 with ⟨fs3, _ | e⟩ <;> try rfl)

theorem Agree_dockerStep (fg : FileGenerator) (root : String) (s : FS) :
    Agree (fg.dockerStep root s) (runOps (dockerOps fg root) s) := by
  unfold FileGenerator.dockerStep dockerOps
  by_cases h : fg.config.WithDocker = true
  · rw [if_pos h, if_pos h]
    have k : Agree (DockerGenerator.Generate fg.config root s)
        (runOps ([.write (Join root "Dockerfile") (dockerfileContent fg.config)] ++
          ([.write (Join root "docker-compose.yml") (dockerComposeContent fg.config)] ++
            ([.write (Join root ".dockerignore") dockerignoreContent] ++ []))) s) := by
      rw [DockerGenerator_Generate_eq_runSteps]
      refine Agree_runSteps_cons _ _ _ _
        (fun s => (Agree_named _ _ s).agree_trans (Agree_WriteFile _ _ s)) (fun s => ?_) s
      refine Agree_runSteps_cons _ _ _ _
        (fun s => (Agree_named _ _ s).agree_trans (Agree_WriteFile _ _ s)) (fun s => ?_) s
      exact Agree_runSteps_cons _ _ _ _
        (fun s => (Agree_named _ _ s).agree_trans (Agree_WriteFile _ _ s)) Agree_runSteps_nil s
    refine Agree.agree_trans ?_ k
    rcases DockerGenerator.Generate fg.config root s with ⟨s1, _ | e⟩ <;> simp [Agree]
  · rw [if_neg h, if_neg h]
    exact ⟨rfl, Iff.rfl⟩

theorem Agree_licenseStep (fg : FileGenerator) (env : Env) (root : String) (s : FS) :
    Agree (fg.licenseStep env root s) (runOps (licenseOps fg env root) s) := by
  unfold FileGenerator.licenseStep licenseOps
  by_cases h : fg.config.License ≠ "None" ∧ fg.config.License ≠ ""
  · rw [if_pos h, if_pos h]
    unfold LicenseGenerator.Generate
    dsimp only
    rcases licenseContent fg.config env.year with _ | body
    · dsimp only
      rw [runOps_single]
      exact ⟨rfl, by simp [Op.run]⟩
    · dsimp only
      refine Agree.agree_trans ?_ (Agree_WriteFile _ _ s)
      rcases WriteFile s (Join root "LICENSE") body with ⟨s1, _ | e⟩ <;> simp [Agree]
  · rw [if_neg h, if_neg h]
    exact ⟨rfl, Iff.rfl⟩

theorem optionalFilesBeforeGit_eq_runSteps (fg : FileGenerator) (env : Env) (root : String)
    (fs : FS) :
    fg.optionalFilesBeforeGit env root fs =
      runSteps [named "failed to generate Makefile" (MakefileGenerator.Generate fg.config root),
        fg.dockerStep root, fg.licenseStep env root] fs := by
  unfold FileGenerator.optionalFilesBeforeGit
  simp only [runSteps, named]
  rcases MakefileGenerator.Generate fg.config root fs with ⟨fs1, _ | e⟩ <;> try dsimp only
  all_goals (rcases fg.dockerStep root fs1 with ⟨fs2, _ | e⟩ <;> try dsimp only)
  all_goals (rcases fg.licenseStep env root fs2 with ⟨fs3, _ | e⟩ <;> try rfl)

theorem Agree_optionalFilesBeforeGit (fg : FileGenerator) (env : Env) (root : String) (s : FS) :
    Agree (fg.optionalFilesBeforeGit env root s) (runOps (optionalOps fg env root) s) := by
  rw [optionalFilesBeforeGit_eq_runSteps]
  unfold optionalOps
  refine Agree_runSteps_cons _ _ _ _ (fun s => (Agree_named _ _ s).agree_trans (Agree_WriteFile _ _ s))
    (fun s => ?_) s
  refine Agree_runSteps_cons _ _ _ _ (Agree_dockerStep fg root) (fun s => ?_) s
  exact Agree_runSteps_cons _ _ _ _ (Agree_licenseStep fg env root) Agree_runSteps_nil s

theorem Generate_eq_git (g : Generator) (env : Env) (ord : MapOrder) (fs : FS) :
    g.Generate env ord fs =
      match runSteps (g.phasesBeforeGit env ord) fs with
      | (fs1, some err) => (fs1, some err)
      | (fs1, none) =>
        named "failed to generate optional files"
          (g.fileGen.gitStep env (Join g.config.TargetDir g.config.ProjectName)) fs1 := by
  unfold Generator.Generate Generator.phasesBeforeGit
  simp only [runSteps, named]
  generalize Join g.config.TargetDir g.config.ProjectName = root
  rcases MkdirAll fs root with ⟨fs1, _ | e⟩ <;> try dsimp only
  all_goals (rcases g.generateStructure root fs1 with ⟨fs2, _ | e⟩ <;> try dsimp only)
  all_goals (rcases g.arch.GenerateFiles env ord root g.config fs2 with ⟨fs3, _ | e⟩ <;>
    try dsimp only)
  all_goals (rcases g.fileGen.GenerateCommonFiles root fs3 with ⟨fs4, _ | e⟩ <;>
    try dsimp only)
  all_goals (try rw [GenerateOptionalFiles_eq_git])
  all_goals (rcases g.fileGen.optionalFilesBeforeGit env root fs4 with ⟨fs5, _ | e⟩ <;>
    try dsimp only)
  all_goals (rcases g.fileGen.gitStep env root fs5 with ⟨fs6, _ | e⟩ <;> try rfl)

theorem Agree_phasesBeforeGit (g : Generator) (env : Env) (ord : MapOrder) (s : FS) :
    Agree (runSteps (g.phasesBeforeGit env ord) s) (runOps (g.ops env ord) s) := by
  unfold Generator.phasesBeforeGit Generator.ops
  dsimp only
  refine Agree_runSteps_cons _ _ _ _ (fun s => (Agree_named _ _ s).agree_trans (Agree_MkdirAll _ s))
    (fun s => ?_) s
  refine Agree_runSteps_cons _ _ _ _
    (fun s => (Agree_named _ _ s).agree_trans (Agree_createDirectories _ _ s)) (fun s => ?_) s
  refine Agree_runSteps_cons _ _ _ _
    (fun s => (Agree_named _ _ s).agree_trans (Agree_renderAndWriteLoop _ _ _ _ _ s)) (fun s => ?_) s
  refine Agree_runSteps_cons _ _ _ _
    (fun s => (Agree_named _ _ s).agree_trans (Agree_GenerateCommonFiles _ _ s)) (fun s => ?_) s
  exact Agree_runSteps_cons _ _ _ _
    (fun s => (Agree_named _ _ s).agree_trans (Agree_optionalFilesBeforeGit _ _ _ s))
    Agree_runSteps_nil s

theorem mapSet_new {V : Type} (m : List (String × V)) (k : String) (v : V)
    (h : k ∉ mapKeys m) : mapSet m k v = m ++ [(k, v)] := by
  induction m with
  | nil => rfl
  | cons kv rest ih =>
    obtain ⟨k1, v1⟩ := kv
    simp only [mapKeys, List.map_cons, List.mem_cons, not_or] at h
    have hk : ¬ k1 = k := fun e => h.1 e.symm
    simp only [mapSet, hk, if_false, List.cons_append]
    rw [ih h.2]

theorem foldl_mapSet_nodup (l m : List (String × String))
    (h : (mapKeys m ++ mapKeys l).Nodup) :
    l.foldl (fun m kv => mapSet m kv.1 kv.2) m = m ++ l := by
  induction l generalizing m with
  | nil => simp
  | cons kv rest ih =>
    have hk : kv.1 ∉ mapKeys m := by
      intro hm
      have := (List.nodup_append.mp h).2.2
      exact this hm (by simp [mapKeys])
    simp only [List.foldl_cons]
    rw [mapSet_new m kv.1 kv.2 hk, ih]
    · simp
    · have e : mapKeys (m ++ [(kv.1, kv.2)]) ++ mapKeys rest = mapKeys m ++ mapKeys (kv :: rest) := by
        simp [mapKeys]
      rw [e]
      exact h

theorem mapOfBindings_nodup (l : List (String × String)) (h : (mapKeys l).Nodup) :
    mapOfBindings l = l := by
  unfold mapOfBindings
  rw [foldl_mapSet_nodup l [] (by simpa [mapKeys] using h)]
  rfl

theorem Forall₂_lastElement_mem (ks ns : List String)
    (h : List.Forall₂ lastElementIs ks ns) : ∀ k ∈ ks, ∃ n ∈ ns, lastElementIs k n := by
  induction h with
  | nil => simp
  | cons hkn _ ih =>
    intro k hk
    rcases List.mem_cons.mp hk with e | e
    · subst e
      exact ⟨_, by simp, hkn⟩
    · obtain ⟨n, hn, hl⟩ := ih k e
      exact ⟨n, by simp [hn], hl⟩

/-- Keys whose last elements are plain names none of which ends another are joined to
different paths. -/
theorem nodup_map_Join (root : String) (ks ns : List String)
    (h : List.Forall₂ lastElementIs ks ns) (hp : ∀ n ∈ ns, plainName n = true)
    (hs : ns.Pairwise (fun a b =>
      a.data.isSuffixOf b.data = false ∧ b.data.isSuffixOf a.data = false)) :
    (ks.map (Join root)).Nodup := by
  induction h with
  | nil => simp
  | @cons k n ks1 ns1 hkn hrest ih =>
    rw [List.pairwise_cons] at hs
    rw [List.map_cons, List.nodup_cons]
    refine ⟨?_, ih (fun m hm => hp m (by simp [hm])) hs.2⟩
    intro hmem
    obtain ⟨k1, hk1, he⟩ := List.mem_map.mp hmem
    obtain ⟨n1, hn1, hl1⟩ := Forall₂_lastElement_mem ks1 ns1 hrest k1 hk1
    have hsuf := hs.1 n1 hn1
    refine Join_ne root k k1 n n1 (hp n (by simp)) (hp n1 (by simp [hn1])) hkn hl1 ?_ ?_ he.symm
    · intro hc
      rw [← List.isSuffixOf_iff_suffix] at hc
      rw [hsuf.1] at hc
      cases hc
    · intro hc
      rw [← List.isSuffixOf_iff_suffix] at hc
      rw [hsuf.2] at hc
      cases hc

theorem fileBindings_fileNames (a : Architecture) (config : Config) :
    List.Forall₂ lastElementIs (mapKeys (a.fileBindings config) ++ topLevelNames)
      (a.fileNames ++ topLevelNames) := by
  have hmain := lastElementIs_main config.ProjectName
  cases a <;>
    simp only [Architecture.fileBindings, Architecture.fileNames, mapKeys, topLevelNames,
      List.map_cons, List.map_nil, List.cons_append, List.nil_append] <;>
    refine List.Forall₂.cons hmain ?_ <;>
    repeat (first
      | exact List.Forall₂.nil
      | refine List.Forall₂.cons (by unfold lastElementIs; decide) ?_)

theorem fileNames_plain (a : Architecture) :
    (∀ n ∈ a.fileNames ++ topLevelNames, plainName n = true) ∧
    (a.fileNames ++ topLevelNames).Pairwise (fun a b =>
      a.data.isSuffixOf b.data = false ∧ b.data.isSuffixOf a.data = false) := by
  cases a <;> simp only [Architecture.fileNames] <;> exact ⟨by decide, by decide⟩

/-- The output paths of the architecture files and of the emitters are all different. -/
theorem outputPaths_nodup (a : Architecture) (config : Config) (root : String) :
    ((mapKeys (a.fileBindings config) ++ topLevelNames).map (Join root)).Nodup :=
  nodup_map_Join root _ _ (fileBindings_fileNames a config) (fileNames_plain a).1
    (fileNames_plain a).2

/-- The keys of each map literal are different, so that the map has the bindings of the
literal. -/
theorem mapOfBindings_fileBindings (a : Architecture) (config : Config) :
    mapOfBindings (a.fileBindings config) = a.fileBindings config := by
  apply mapOfBindings_nodup
  have h := outputPaths_nodup a config "."
  rw [List.map_append] at h
  exact ((List.nodup_append.mp h).1).of_map _

theorem writeNames_append (a b : List Op) : writeNames (a ++ b) = writeNames a ++ writeNames b := by
  unfold writeNames
  rw [List.filterMap_append]

theorem writeNames_mkdirs (f : String → String) (l : List String) :
    writeNames (l.map (fun d => Op.mkdir (f d))) = [] := by
  induction l with
  | nil => rfl
  | cons d rest ih =>
    rw [List.map_cons, writeNames_cons]
    exact ih

theorem writeNames_renderOps (env : Env) (tm : TemplateManager) (root : String)
    (data : TemplateData) (files : List (String × String)) :
    (writeNames (renderOps env tm root data files)).Sublist
      (files.map (fun kv => Join root kv.1)) := by
  induction files with
  | nil => exact List.Sublist.slnil
  | cons kv rest ih =>
    unfold renderOps
    rw [writeNames_append, List.map_cons]
    unfold entryOps
    rcases RenderTemplate env tm kv.2 data with ⟨c, _ | e⟩
    · exact List.Sublist.cons₂ _ ih
    · exact List.Sublist.cons _ ih

theorem writeNames_emitters (fg : FileGenerator) (env : Env) (root : String) :
    (writeNames (commonOps fg root ++ (optionalOps fg env root ++ []))).Sublist
      (topLevelNames.map (Join root)) := by
  have hd : (writeNames (dockerOps fg root)).Sublist
      [Join root "Dockerfile", Join root "docker-compose.yml", Join root ".dockerignore"] := by
    unfold dockerOps
    by_cases h : fg.config.WithDocker = true
    · rw [if_pos h]
      exact List.Sublist.refl _
    · rw [if_neg h]
      exact List.nil_sublist _
  have hl : (writeNames (licenseOps fg env root)).Sublist [Join root "LICENSE"] := by
    unfold licenseOps
    by_cases h : fg.config.License ≠ "None" ∧ fg.config.License ≠ ""
    · rw [if_pos h]
      rcases licenseContent fg.config env.year with _ | body
      · exact List.nil_sublist _
      · exact List.Sublist.refl _
    · rw [if_neg h]
      exact List.nil_sublist _
  unfold optionalOps
  rw [writeNames_append, writeNames_append, writeNames_append, writeNames_append,
    writeNames_append]
  have e : topLevelNames.map (Join root) =
      [Join root "go.mod", Join root "README.md", Join root ".gitignore"] ++
        (([Join root "Makefile"] ++
          ([Join root "Dockerfile", Join root "docker-compose.yml", Join root ".dockerignore"] ++
            ([Join root "LICENSE"] ++ []))) ++ []) := rfl
  rw [e]
  exact (List.Sublist.refl _).append (((List.Sublist.refl _).append
    (hd.append (hl.append (List.Sublist.refl _)))).append (List.Sublist.refl _))

/-- No file is written twice in a run of `Generate`. -/
theorem writeNames_ops_nodup (g : Generator) (env : Env) (ord : MapOrder) :
    (writeNames (g.ops env ord)).Nodup := by
  unfold Generator.ops
  dsimp only
  rw [writeNames_append, writeNames_append, writeNames_append,
    writeNames_mkdirs (fun d => Join (Join g.config.TargetDir g.config.ProjectName) d)]
  have hsub := (writeNames_renderOps env g.arch.templateManager
    (Join g.config.TargetDir g.config.ProjectName) (NewTemplateData env g.config)
    (ord.visit (mapOfBindings (g.arch.fileBindings g.config)))).append
    (writeNames_emitters g.fileGen env (Join g.config.TargetDir g.config.ProjectName))
  refine List.Nodup.sublist hsub ?_
  have hp : ((ord.visit (mapOfBindings (g.arch.fileBindings g.config))).map
      (fun kv => Join (Join g.config.TargetDir g.config.ProjectName) kv.1) ++
      topLevelNames.map (Join (Join g.config.TargetDir g.config.ProjectName))).Perm
      ((mapKeys (g.arch.fileBindings g.config) ++ topLevelNames).map
        (Join (Join g.config.TargetDir g.config.ProjectName))) := by
    rw [List.map_append]
    refine List.Perm.append_right _ ?_
    have := (ord.perm (mapOfBindings (g.arch.fileBindings g.config))).map
      (fun kv => Join (Join g.config.TargetDir g.config.ProjectName) kv.1)
    rw [mapOfBindings_fileBindings] at this ⊢
    refine this.trans ?_
    unfold mapKeys
    rw [List.map_map]
    exact List.Perm.refl _
  exact hp.nodup_iff.mpr (outputPaths_nodup _ _ _)

theorem mem_renderOps (env : Env) (tm : TemplateManager) (root : String) (data : TemplateData)
    (files : List (String × String)) (op : Op) :
    op ∈ renderOps env tm root data files ↔ ∃ kv ∈ files, op ∈ entryOps env tm root data kv := by
  induction files with
  | nil => simp [renderOps]
  | cons kv rest ih =>
    unfold renderOps
    rw [List.mem_append, ih]
    simp

/-- The operations of a run are the same whatever the order of the map. -/
theorem mem_ops_order (g : Generator) (env : Env) (ord1 ord2 : MapOrder) (op : Op)
    (h : op ∈ g.ops env ord1) : op ∈ g.ops env ord2 := by
  unfold Generator.ops at h ⊢
  dsimp only at h ⊢
  simp only [List.mem_append, mem_renderOps] at h ⊢
  rcases h with h | h | ⟨kv, hkv, h⟩ | h
  · exact Or.inl h
  · exact Or.inr (Or.inl h)
  · exact Or.inr (Or.inr (Or.inl ⟨kv, (ord2.perm _).mem_iff.mpr ((ord1.perm _).mem_iff.mp hkv), h⟩))
  · exact Or.inr (Or.inr (Or.inr h))

/-- A successful run of `Generate` is a successful run of its operations, followed by the
git step. -/
theorem Generate_ok_ops (g : Generator) (env : Env) (ord : MapOrder) (fs f : FS)
    (h : g.Generate env ord fs = (f, none)) :
    ∃ s, runOps (g.ops env ord) fs = (s, none) ∧
      g.fileGen.gitStep env (Join g.config.TargetDir g.config.ProjectName) s = (f, none) := by
  rw [Generate_eq_git] at h
  have ha := Agree_phasesBeforeGit g env ord fs
  rcases hr : runSteps (g.phasesBeforeGit env ord) fs with ⟨s, _ | e⟩
  · rw [hr] at h ha
    dsimp only at h
    refine ⟨s, ?_, ?_⟩
    · rcases ho : runOps (g.ops env ord) fs with ⟨s1, r⟩
      rw [ho] at ha
      obtain ⟨h1, h2⟩ := ha
      dsimp only at h1 h2
      rw [← h1, h2.mp rfl]
    · unfold named at h
      rcases hg : g.fileGen.gitStep env (Join g.config.TargetDir g.config.ProjectName) s with
        ⟨s1, _ | e⟩
      · rw [hg] at h
        exact h
      · rw [hg] at h
        simp at h
  · rw [hr] at h
    simp at h

/-- When its operations and the git step succeed, so does `Generate`. -/
theorem Generate_of_ops (g : Generator) (env : Env) (ord : MapOrder) (fs s f : FS)
    (h1 : runOps (g.ops env ord) fs = (s, none))
    (h2 : g.fileGen.gitStep env (Join g.config.TargetDir g.config.ProjectName) s = (f, none)) :
    g.Generate env ord fs = (f, none) := by
  rw [Generate_eq_git]
  have ha := Agree_phasesBeforeGit g env ord fs
  rw [h1] at ha
  rcases hr : runSteps (g.phasesBeforeGit env ord) fs with ⟨s1, r⟩
  rw [hr] at ha
  obtain ⟨k1, k2⟩ := ha
  dsimp only at k1 k2
  rw [k1, k2.mpr rfl]
  dsimp only
  unfold named
  rw [h2]

/-- C16: for one generator (configuration and template store) and one environment (clock
year, template engine), two successful runs of `Generate` that start from the same file
tree end in the same file tree, whatever the orders `ord1` and `ord2` in which the two runs
visit the path-to-template map; the git step, which is not part of the source, is assumed
to depend on the file tree only. -/
theorem Generate_deterministic (g : Generator) (env : Env) (ord1 ord2 : MapOrder)
    (fsA fsB fA fB : FS) (hs : SameTree fsA fsB)
    (hgit : g.fileGen.config.WithGit = true → ∀ s s1, SameTree s s1 →
      SameTree
        (env.gitInitialize g.fileGen.config (Join g.config.TargetDir g.config.ProjectName) s).1
        (env.gitInitialize g.fileGen.config (Join g.config.TargetDir g.config.ProjectName) s1).1)
    (hA : g.Generate env ord1 fsA = (fA, none)) (hB : g.Generate env ord2 fsB = (fB, none)) :
    SameTree fA fB := by
  obtain ⟨sA, rA, gA⟩ := Generate_ok_ops g env ord1 fsA fA hA
  obtain ⟨sB, rB, gB⟩ := Generate_ok_ops g env ord2 fsB fB hB
  have hS : SameTree sA sB :=
    SameTree_runOps _ _ fsA fsB sA sB
      (fun op => ⟨mem_ops_order g env ord1 ord2 op, mem_ops_order g env ord2 ord1 op⟩)
      (writeNames_ops_nodup g env ord1) (writeNames_ops_nodup g env ord2) hs rA rB
  unfold FileGenerator.gitStep at gA gB
  by_cases hg : g.fileGen.config.WithGit = true
  · rw [if_pos hg] at gA gB
    have k := hgit hg sA sB hS
    rcases h1 : env.gitInitialize g.fileGen.config
      (Join g.config.TargetDir g.config.ProjectName) sA with ⟨a, _ | e⟩
    · rcases h2 : env.gitInitialize g.fileGen.config
        (Join g.config.TargetDir g.config.ProjectName) sB with ⟨b, _ | e⟩
      · rw [h1] at gA k
        rw [h2] at gB k
        dsimp only at gA gB k
        rw [← (Prod.mk.inj gA).1, ← (Prod.mk.inj gB).1]
        exact k
      · rw [h2] at gB
        simp at gB
    · rw [h1] at gA
      simp at gA
  · rw [if_neg hg] at gA gB
    rw [← (Prod.mk.inj gA).1, ← (Prod.mk.inj gB).1]
    exact hS

/-- C17: when a run of `Generate` without git has succeeded and left the state `f`, a
second run of the same generator in the same environment on `f` succeeds and leaves `f` as
it is, whatever the order in which it visits the map. -/
theorem Generate_idempotent (g : Generator) (env : Env) (ord1 ord2 : MapOrder) (fs f : FS)
    (hgit : g.fileGen.config.WithGit = false)
    (h : g.Generate env ord1 fs = (f, none)) : g.Generate env ord2 f = (f, none) := by
  obtain ⟨s, hr, hg⟩ := Generate_ok_ops g env ord1 fs f h
  rw [gitStep_off _ _ _ _ hgit] at hg
  have e : s = f := (Prod.mk.inj hg).1
  subst e
  have hset := Settled_runOps _ fs s hr (writeNames_ops_nodup g env ord1)
  have hrun : runOps (g.ops env ord2) s = (s, none) :=
    runOps_of_settled _ s (fun op hop => hset op (mem_ops_order g env ord2 ord1 op hop))
  exact Generate_of_ops g env ord2 s s s hrun (gitStep_off _ _ _ _ hgit)

set_option maxRecDepth 100000 in
theorem sampleGenerator_Generate_backwards_ok :
    (sampleGenerator.Generate sampleEnv MapOrder.backwards sampleFS).2 = none := by rfl

/-- The sample run visiting the map in stored order and the one visiting it backwards
end in the same tree. -/
theorem Generate_deterministic_witness :
    SameTree (sampleGenerator.Generate sampleEnv MapOrder.stored sampleFS).1
      (sampleGenerator.Generate sampleEnv MapOrder.backwards sampleFS).1 :=
  Generate_deterministic sampleGenerator sampleEnv MapOrder.stored MapOrder.backwards
    sampleFS sampleFS _ _ ⟨fun _ => rfl, fun _ => rfl⟩ (fun _ _ _ h => h)
    (Prod.ext rfl sampleGenerator_Generate_ok)
    (Prod.ext rfl sampleGenerator_Generate_backwards_ok)

/-- The sample run, run again (visiting the map backwards) on the state it left: success,
and the same state. -/
theorem Generate_idempotent_witness :
    sampleGenerator.Generate sampleEnv MapOrder.backwards
        (sampleGenerator.Generate sampleEnv MapOrder.stored sampleFS).1 =
      ((sampleGenerator.Generate sampleEnv MapOrder.stored sampleFS).1, none) :=
  Generate_idempotent sampleGenerator sampleEnv MapOrder.stored MapOrder.backwards sampleFS _
    rfl (Prod.ext rfl sampleGenerator_Generate_ok)

/-! ### C18, C19: the template data -/

theorem titleRunes_length (u : UnicodeTables) (prev : Char) (l : List Char) :
    (titleRunes u prev l).length = l.length := by
  induction l generalizing prev with
  | nil => rfl
  | cons r rest ih => simp [titleRunes, ih]

/-- The rune at each place of a title: the title case of the rune there when the rune before
is a separator, the start counting as one, and the rune itself otherwise. -/
theorem titleRunes_getD (u : UnicodeTables) (prev : Char) (l : List Char) (i : Nat)
    (h : i < l.length) :
    (titleRunes u prev l).getD i ' ' =
      if isSeparator u ((prev :: l).getD i ' ') then ToTitle u (l.getD i ' ')
      else l.getD i ' ' := by
  induction l generalizing prev i with
  | nil => simp at h
  | cons r rest ih =>
    cases i with
    | zero => simp [titleRunes]
    | succ k =>
      have hk : k < rest.length := by simpa using h
      simpa [titleRunes] using ih r k hk

/-- C18: `NewTemplateData` is a total function; in the context it returns the title is
`strings.Title` of the project name, which has the runes of the name with the title case
(for an ASCII letter the capital) in place of every rune that starts the name or follows a
separator; the main package path is `cmd/` followed by the project name, the module name
is the project name itself, the year is the year of the clock, and the project name,
architecture, license and the three flags are those of the configuration. -/
theorem NewTemplateData_fields (env : Env) (config : Config) :
    (NewTemplateData env config).ProjectTitle = Title env.unicode config.ProjectName ∧
    (NewTemplateData env config).ProjectTitle.data.length = config.ProjectName.data.length ∧
    (∀ i, i < config.ProjectName.data.length →
      (NewTemplateData env config).ProjectTitle.data.getD i ' ' =
        if isSeparator env.unicode ((' ' :: config.ProjectName.data).getD i ' ') then
          ToTitle env.unicode (config.ProjectName.data.getD i ' ')
        else config.ProjectName.data.getD i ' ') ∧
    (∀ r : Char, 'a' ≤ r → r ≤ 'z' → ToTitle env.unicode r = Char.ofNat (r.toNat - 32)) ∧
    (NewTemplateData env config).MainPackagePath = "cmd/" ++ config.ProjectName ∧
    (NewTemplateData env config).ModuleName = config.ProjectName ∧
    (NewTemplateData env config).Year = env.year ∧
    (NewTemplateData env config).ProjectName = config.ProjectName ∧
    (NewTemplateData env config).Architecture = config.Architecture ∧
    (NewTemplateData env config).License = config.License ∧
    (NewTemplateData env config).WithDocker = config.WithDocker ∧
    (NewTemplateData env config).WithMakefile = config.WithMakefile ∧
    (NewTemplateData env config).WithGit = config.WithGit := by
  refine ⟨rfl, titleRunes_length _ _ _, fun i hi => titleRunes_getD _ _ _ i hi, ?_,
    rfl, rfl, rfl, rfl, rfl, rfl, rfl, rfl, rfl⟩
  intro r h1 h2
  have h3 : r.toNat ≤ 0x7F := by
    have : r.toNat ≤ 'z'.toNat := h2
    exact le_trans this (by decide)
  simp [ToTitle, h1, h2, h3]

/-- The context of the sample configuration, and the title of a name of several words. -/
theorem NewTemplateData_fields_witness :
    (NewTemplateData sampleEnv sampleConfig).ProjectTitle = "Shopcart" ∧
    (NewTemplateData sampleEnv sampleConfig).MainPackagePath = "cmd/shopcart" ∧
    (NewTemplateData sampleEnv sampleConfig).ModuleName = "shopcart" ∧
    (NewTemplateData sampleEnv sampleConfig).Year = 2024 ∧
    (NewTemplateData sampleEnv { sampleConfig with ProjectName := "my-shop_api.v2" }).ProjectTitle =
      "My-Shop_api.V2" :=
  ⟨(NewTemplateData_fields sampleEnv sampleConfig).1.trans (by decide),
   (NewTemplateData_fields sampleEnv sampleConfig).2.2.2.2.1,
   (NewTemplateData_fields sampleEnv sampleConfig).2.2.2.2.2.1,
   (NewTemplateData_fields sampleEnv sampleConfig).2.2.2.2.2.2.1,
   (NewTemplateData_fields sampleEnv { sampleConfig with ProjectName := "my-shop_api.v2" }).1.trans
     (by decide)⟩

/-- C19: the sub-record `ArchData` depends on the architecture name alone: `hexagonal`,
`clean`, `mvc` and `basic` give the fixed catalog of their kind, every other name gives
none, and two configurations with the same architecture name give the same sub-record in
whatever environment. -/
theorem NewTemplateData_ArchData (env : Env) (config : Config) :
    (config.Architecture = "hexagonal" →
      (NewTemplateData env config).ArchData =
        some (.hexagonal ⟨["Repository", "Cache", "Logger"], ["HTTP", "Database", "Cache"],
          ["AppService"]⟩)) ∧
    (config.Architecture = "clean" →
      (NewTemplateData env config).ArchData =
        some (.clean ⟨["Entity"], ["EntityUseCase"], ["EntityHandler"]⟩)) ∧
    (config.Architecture = "mvc" →
      (NewTemplateData env config).ArchData =
        some (.mvc ⟨["BaseController", "HealthController"], ["BaseModel"], ["Response"]⟩)) ∧
    (config.Architecture = "basic" →
      (NewTemplateData env config).ArchData =
        some (.basic ⟨["HealthHandler"], ["Service"]⟩)) ∧
    (config.Architecture ∉ knownArchitectures → (NewTemplateData env config).ArchData = none) ∧
    (∀ (env2 : Env) (config2 : Config), config2.Architecture = config.Architecture →
      (NewTemplateData env2 config2).ArchData = (NewTemplateData env config).ArchData) := by
  refine ⟨?_, ?_, ?_, ?_, ?_, ?_⟩
  · intro h; simp [NewTemplateData, h, NewHexagonalData]
  · intro h; simp [NewTemplateData, h, NewCleanData]
  · intro h; simp [NewTemplateData, h, NewMVCData]
  · intro h; simp [NewTemplateData, h, NewBasicData]
  · intro h
    simp only [knownArchitectures, List.mem_cons, List.mem_singleton, List.not_mem_nil, or_false,
      not_or] at h
    simp [NewTemplateData, h.1, h.2.1, h.2.2.1, h.2.2.2]
  · intro env2 config2 h
    simp [NewTemplateData, h, NewHexagonalData, NewCleanData, NewMVCData, NewBasicData]

/-- The basic catalog, no catalog for the unknown name `onion`, and the same catalog for
another configuration with the same architecture. -/
theorem NewTemplateData_ArchData_witness :
    (NewTemplateData sampleEnv sampleConfig).ArchData =
      some (.basic ⟨["HealthHandler"], ["Service"]⟩) ∧
    (NewTemplateData sampleEnv { sampleConfig with Architecture := "onion" }).ArchData = none ∧
    (NewTemplateData noTemplatesEnv
        { sampleConfig with ProjectName := "other", License := "GPL", WithDocker := true }).ArchData
      = (NewTemplateData sampleEnv sampleConfig).ArchData :=
  ⟨(NewTemplateData_ArchData sampleEnv sampleConfig).2.2.2.1 rfl,
   (NewTemplateData_ArchData sampleEnv { sampleConfig with Architecture := "onion" }).2.2.2.2.1
     (by decide),
   (NewTemplateData_ArchData sampleEnv sampleConfig).2.2.2.2.2 noTemplatesEnv _ rfl⟩

/-! ### C20: the settings document -/

theorem validateTargetDirectory_flags (fl : Flags) (fs : FS) :
    (validateTargetDirectory fl fs).1 = withTargetDir fl := by
  unfold validateTargetDirectory withTargetDir
  by_cases h : fl.targetDir = ""
  · simp [h]
  · simp only [h, if_false]
    split
    · rfl
    · split <;> rfl

theorem validateInputs_flags (fl : Flags) (name : String) (stdin : List String) (fs : FS)
    (h : (validateInputs fl name stdin fs).2.2.2 = none) :
    (validateInputs fl name stdin fs).1 = withTargetDir fl := by
  unfold validateInputs at h ⊢
  have ht := validateTargetDirectory_flags fl fs
  rcases h1 : validateProjectName name with _ | e1
  · rw [h1] at h
    dsimp only at h ⊢
    rcases h2 : validateArchitecture fl with _ | e2
    · rw [h2] at h
      dsimp only at h ⊢
      rcases h3 : validateTargetDirectory fl fs with ⟨fl1, fs1, _ | e3⟩
      · rw [h3] at h ht
        dsimp only at h ht ⊢
        rcases h4 : checkProjectExists fl1 name stdin fs1 with ⟨stdin1, fs2, _ | e4⟩
        · exact ht
        · exact ht
      · rw [h3] at h
        simp at h
    · rw [h2] at h
      simp at h
  · rw [h1] at h
    simp at h

theorem loadFirstConfig_none (cenv : ConfigEnv) (fs : FS) (paths : List String)
    (h : ∀ p ∈ paths, pathExists fs p = false) :
    loadFirstConfig cenv fs paths = .ok getDefaultConfig := by
  induction paths with
  | nil => rfl
  | cons p rest ih =>
    unfold loadFirstConfig
    rw [h p (by simp)]
    simp only [Bool.false_eq_true, if_false]
    exact ih (fun q hq => h q (by simp [hq]))

theorem loadFirstConfig_first (cenv : ConfigEnv) (fs : FS) (pre post : List String) (p : String)
    (hpre : ∀ q ∈ pre, pathExists fs q = false) (hp : pathExists fs p = true) :
    loadFirstConfig cenv fs (pre ++ p :: post) = loadConfigFromFile cenv fs p := by
  induction pre with
  | nil => simp [loadFirstConfig, hp]
  | cons q rest ih =>
    simp only [List.cons_append, loadFirstConfig]
    rw [hpre q (by simp)]
    simp only [Bool.false_eq_true, if_false]
    exact ih (fun r hr => hpre r (by simp [hr]))

/-- C20, amended: the configuration `runProjectCommand` builds is made of the flag
variables alone, whatever files there are: without the interactive mode it is
`configOfFlags` of the flags given (an empty target directory read as `.`), with it the
flags are those the interactive mode leaves; flags at their defaults give `basic`, `MIT` and
no Docker, Makefile or git.  `LoadConfig`, which `runProjectCommand` does not call, returns
the built-in defaults when no file of the search path exists, the parsed document of the
first file that exists, and an error naming that file when it does not parse or, being a
directory, cannot be read. -/
theorem settings_document_and_config (cenv : ConfigEnv) (fs : FS) (fl : Flags) (name : String)
    (stdin : List String) :
    (∀ fl1 stdin1 fs1 config,
      buildProjectConfig fl name stdin fs = (fl1, stdin1, fs1, .ok config) →
      config = configOfFlags fl1 config.ProjectName ∧
      (fl.interactive = false → config = configOfFlags (withTargetDir fl) name) ∧
      (fl.interactive = true → ∃ answers,
        runInteractiveMode (withTargetDir fl) name answers =
          (fl1, config.ProjectName, stdin1, none))) ∧
    configOfFlags defaultFlags name =
      { ProjectName := name, Architecture := "basic", TargetDir := ".", WithDocker := false,
        WithMakefile := false, WithGit := false, License := "MIT", AutoYes := false } ∧
    ((∀ p ∈ configPaths cenv, pathExists fs p = false) →
      LoadConfig cenv fs = .ok getDefaultConfig ∧
      getDefaultConfig.Defaults = ⟨"basic", "MIT", false, false, false⟩) ∧
    (∀ pre p post data, configPaths cenv = pre ++ p :: post →
      (∀ q ∈ pre, pathExists fs q = false) → readFile fs p = some data →
      (∀ c, cenv.unmarshal data = .ok c → LoadConfig cenv fs = .ok c) ∧
      (∀ err, cenv.unmarshal data = .error err →
        LoadConfig cenv fs = .error ("failed to parse config file " ++ p ++ ": " ++ err))) ∧
    (∀ pre p post, configPaths cenv = pre ++ p :: post →
      (∀ q ∈ pre, pathExists fs q = false) → pathExists fs p = true → readFile fs p = none →
      LoadConfig cenv fs =
        .error ("failed to read config file " ++ p ++ ": " ++
          ("read " ++ p ++ ": is a directory"))) := by
  refine ⟨?_, rfl, ?_, ?_, ?_⟩
  · intro fl1 stdin1 fs1 config h
    unfold buildProjectConfig at h
    have hv := validateInputs_flags fl name stdin fs
    rcases h1 : validateInputs fl name stdin fs with ⟨fl0, stdin0, fs0, _ | e⟩
    · rw [h1] at h hv
      dsimp only at h hv
      have hfl := hv rfl
      subst hfl
      by_cases hi : fl.interactive = true
      · have hi2 : (withTargetDir fl).interactive = true := hi
        rw [if_pos hi2] at h
        rcases h2 : runInteractiveMode (withTargetDir fl) name stdin0 with ⟨fl2, name2, stdin2, _ | e2⟩
        · rw [h2] at h
          dsimp only at h
          simp only [Prod.mk.injEq, Except.ok.injEq] at h
          obtain ⟨rfl, rfl, rfl, rfl⟩ := h
          refine ⟨rfl, fun hf => ?_, fun _ => ⟨stdin0, h2⟩⟩
          rw [hi] at hf
          cases hf
        · rw [h2] at h
          simp at h
      · have hi2 : ¬ (withTargetDir fl).interactive = true := hi
        rw [if_neg hi2] at h
        simp only [Prod.mk.injEq, Except.ok.injEq] at h
        obtain ⟨rfl, rfl, rfl, rfl⟩ := h
        refine ⟨rfl, fun _ => rfl, fun hf => absurd hf hi⟩
    · rw [h1] at h
      simp at h
  · intro hnone
    exact ⟨loadFirstConfig_none cenv fs _ hnone, rfl⟩
  · intro pre p post data hpaths hpre hdata
    have hp : pathExists fs p = true := by
      unfold pathExists isFile
      unfold readFile at hdata
      rw [hdata]
      simp
    have e : LoadConfig cenv fs = loadConfigFromFile cenv fs p := by
      unfold LoadConfig
      rw [hpaths]
      exact loadFirstConfig_first cenv fs pre post p hpre hp
    rw [e]
    unfold loadConfigFromFile ReadFile
    rw [hdata]
    refine ⟨fun c hc => ?_, fun err herr => ?_⟩
    · simp [hc]
    · simp [herr]
  · intro pre p post hpaths hpre hp hnone
    have e : LoadConfig cenv fs = loadConfigFromFile cenv fs p := by
      unfold LoadConfig
      rw [hpaths]
      exact loadFirstConfig_first cenv fs pre post p hpre hp
    have hd : isDir fs p = true := by
      unfold pathExists isFile at hp
      unfold readFile at hnone
      rw [hnone] at hp
      simpa using hp
    rw [e]
    unfold loadConfigFromFile ReadFile
    rw [hnone]
    simp [hd]

/-- A working directory with a broken `.gomake.yml`: the configuration built is the
default one; `LoadConfig` fails there, reads the document where it is well formed, and
falls back to the defaults where there is none. -/
theorem settings_document_and_config_witness :
    (buildProjectConfig defaultFlags "shopcart" [] brokenSettingsFS).2.2.2 =
      .ok { ProjectName := "shopcart", Architecture := "basic", TargetDir := ".",
            WithDocker := false, WithMakefile := false, WithGit := false, License := "MIT",
            AutoYes := false } ∧
    LoadConfig settingsEnv settingsFS = .ok settingsFile ∧
    LoadConfig settingsEnv brokenSettingsFS =
      .error "failed to parse config file .gomake.yml: yaml: unmarshal errors" ∧
    LoadConfig settingsEnv sampleFS = .ok getDefaultConfig :=
  have h := settings_document_and_config settingsEnv brokenSettingsFS defaultFlags "shopcart" []
  have k := settings_document_and_config settingsEnv settingsFS defaultFlags "shopcart" []
  have d := settings_document_and_config settingsEnv sampleFS defaultFlags "shopcart" []
  ⟨(congrArg Except.ok ((h.1 defaultFlags [] brokenSettingsFS
      (configOfFlags defaultFlags "shopcart") (by rfl)).2.1 rfl)).symm ▸ (by rfl),
   (k.2.2.2.1 [] ".gomake.yml" _ settingsText (by rfl) (by simp) (by rfl)).1 settingsFile (by rfl),
   (h.2.2.2.1 [] ".gomake.yml" _ "defaults: [" (by rfl) (by simp) (by rfl)).2
      "yaml: unmarshal errors" (by rfl),
   (d.2.2.1 (by decide)).1⟩

/-- C20 as stated fails: with a settings file that parses and declares `hexagonal`, `GPL`
and all three options, and no flag on the command line, the configuration built still has
`basic`, `MIT` and no option. -/
theorem settings_file_is_not_consulted :
    LoadConfig settingsEnv settingsFS = .ok settingsFile ∧
    settingsFile.Defaults = ⟨"hexagonal", "GPL", true, true, true⟩ ∧
    (buildProjectConfig defaultFlags "shopcart" [] settingsFS).2.2.2 =
      .ok { ProjectName := "shopcart", Architecture := "basic", TargetDir := ".",
            WithDocker := false, WithMakefile := false, WithGit := false, License := "MIT",
            AutoYes := false } :=
  ⟨by rfl, by rfl, by rfl⟩

/-! ### C23, C24, C25, C27, C28: the validation of the project name -/

theorem matchTail_spec (l : List Char) (h : matchTail l = true) :
    ∃ init last, l = init ++ [last] ∧ isAlnum last = true ∧ ∀ c ∈ init, isNameChar c = true := by
  induction l with
  | nil => simp [matchTail] at h
  | cons c rest ih =>
    cases rest with
    | nil =>
      simp only [matchTail] at h
      exact ⟨[], c, rfl, h, by simp⟩
    | cons c2 r =>
      simp only [matchTail, Bool.and_eq_true] at h
      obtain ⟨init, last, he, hl, hi⟩ := ih h.2
      refine ⟨c :: init, last, by rw [he]; rfl, hl, ?_⟩
      intro x hx
      rcases List.mem_cons.mp hx with e | e
      · rw [e]; exact h.1
      · exact hi x e

/-- What a match of `moduleNameRegex` looks like: a letter, name characters, and a final
letter or digit. -/
theorem moduleNameRegexMatch_spec (name : String) (h : moduleNameRegexMatch name = true) :
    ∃ c init last, name.data = c :: (init ++ [last]) ∧ isLetter c = true ∧
      isAlnum last = true ∧ ∀ x ∈ init, isNameChar x = true := by
  unfold moduleNameRegexMatch at h
  rcases hd : name.data with _ | ⟨c, rest⟩
  · rw [hd] at h
    simp at h
  · rw [hd] at h
    simp only [Bool.and_eq_true] at h
    obtain ⟨init, last, he, hl, hi⟩ := matchTail_spec rest h.2
    exact ⟨c, init, last, by rw [he], h.1, hl, hi⟩

theorem not_letter_dot_hyphen : isLetter '.' = false ∧ isLetter '-' = false ∧
    isAlnum '.' = false ∧ isAlnum '-' = false := by decide

/-- A name that matches `moduleNameRegex` neither starts nor ends with a dot or a hyphen. -/
theorem moduleNameRegexMatch_ends (name : String) (h : moduleNameRegexMatch name = true) :
    HasPrefix name "." = false ∧ HasSuffix name "." = false ∧
    HasPrefix name "-" = false ∧ HasSuffix name "-" = false ∧ 2 ≤ name.data.length := by
  obtain ⟨c, init, last, hd, hc, hl, _⟩ := moduleNameRegexMatch_spec name h
  have hpre : ∀ x : Char, isLetter x = false → HasPrefix name (String.mk [x]) = false := by
    intro x hx
    unfold HasPrefix
    rw [hd]
    simp only [List.isPrefixOf, Bool.and_true, beq_eq_false_iff_ne, ne_eq]
    intro e
    rw [← e, hx] at hc
    cases hc
  have hsuf : ∀ x : Char, isAlnum x = false → HasSuffix name (String.mk [x]) = false := by
    intro x hx
    unfold HasSuffix
    rw [hd]
    by_contra hcon
    have hs : [x] <:+ c :: (init ++ [last]) := by
      rw [← List.isSuffixOf_iff_suffix]
      simpa using hcon
    have h2 : [x] <:+ (c :: init) ++ [last] := by simpa using hs
    have h3 := List.suffix_or_suffix_of_suffix h2 (List.suffix_append (c :: init) [last])
    have h4 : x = last := by
      rcases h3 with k | k
      · have := List.IsSuffix.eq_of_length k rfl
        simpa using this
      · have := List.IsSuffix.eq_of_length k rfl
        simpa using this.symm
    rw [h4, hl] at hx
    cases hx
  refine ⟨hpre '.' not_letter_dot_hyphen.1, hsuf '.' not_letter_dot_hyphen.2.2.1,
    hpre '-' not_letter_dot_hyphen.2.1, hsuf '-' not_letter_dot_hyphen.2.2.2, ?_⟩
  rw [hd]
  simp

set_option maxRecDepth 100000 in
/-- C23: a name of exactly one hundred letters passes `validateProjectName`, whose check
is `len(name) > 100`, although its message asks for fewer than one hundred. -/
theorem validateProjectName_accepts_hundred :
    hundredLetters.data.length = 100 ∧ hundredLetters.utf8ByteSize = 100 ∧
    validateProjectName hundredLetters = none := by
  refine ⟨by rfl, by rfl, by rfl⟩

/-- C24: the name `a/b` passes `validateProjectName`, whose pattern has `/` in its
character class, although its message names letters, numbers, dots, underscores and
hyphens only. -/
theorem validateProjectName_accepts_slash :
    validateProjectName "a/b" = none ∧ '/' ∈ "a/b".data ∧
    isAlnum '/' = false ∧ '/' ≠ '.' ∧ '/' ≠ '_' ∧ '/' ≠ '-' := by
  refine ⟨by rfl, by decide, by decide, by decide, by decide, by decide⟩

/-- C25: the name `a/../../b` passes `validateProjectName`; joined with the target
directory `out` it is the path `b`, which is not below `out`, and that is the directory
`Generate` starts by creating. -/
theorem accepted_name_escapes_target :
    validateProjectName "a/../../b" = none ∧
    Join "out" "a/../../b" = "b" ∧ isUnder "out" (Join "out" "a/../../b") = false ∧
    (MkdirAll sampleFS (Join "out" "a/../../b")).1.dirs = ["out", "b"] := by
  refine ⟨by rfl, by rfl, by rfl, by rfl⟩

theorem dot_message_ne (name : String) :
    (∀ m ∈ ["project name cannot start or end with a dot",
        "project name cannot start or end with a hyphen"],
      "project name cannot be a Go keyword: " ++ name ≠ m) ∧
    (∀ m ∈ ["project name cannot start or end with a dot",
        "project name cannot start or end with a hyphen"],
      "invalid project name: " ++ name ++
        ". Must contain only letters, numbers, dots, underscores, and hyphens" ≠ m) := by
  have h1 : HasPrefix ("project name cannot be a Go keyword: " ++ name)
      "project name cannot b" = true := HasPrefix_append_right _ _ _ (by decide)
  have h2 : HasPrefix ("invalid project name: " ++ name ++
      ". Must contain only letters, numbers, dots, underscores, and hyphens") "i" = true :=
    HasPrefix_append_right _ _ _ (HasPrefix_append_right _ _ _ (by decide))
  constructor
  · intro m hm e
    rw [e] at h1
    simp only [List.mem_cons, List.mem_singleton, List.not_mem_nil, or_false] at hm
    rcases hm with k | k <;> rw [k] at h1 <;> revert h1 <;> decide
  · intro m hm e
    rw [e] at h2
    simp only [List.mem_cons, List.mem_singleton, List.not_mem_nil, or_false] at hm
    rcases hm with k | k <;> rw [k] at h2 <;> revert h2 <;> decide

/-- C28: `validateProjectName` returns neither the error about a leading or trailing dot
nor the one about a leading or trailing hyphen, for any name: a name that matches
`moduleNameRegex` has at least two characters, starts with a letter and ends with a letter
or digit, so it neither starts nor ends with a dot or a hyphen. -/
theorem trailing_checks_unreachable (name : String) :
    validateProjectName name ≠ some "project name cannot start or end with a dot" ∧
    validateProjectName name ≠ some "project name cannot start or end with a hyphen" ∧
    (moduleNameRegexMatch name = true →
      (∃ c init last, name.data = c :: (init ++ [last]) ∧ isLetter c = true ∧
        isAlnum last = true) ∧
      2 ≤ name.data.length ∧
      HasPrefix name "." = false ∧ HasSuffix name "." = false ∧
      HasPrefix name "-" = false ∧ HasSuffix name "-" = false) := by
  have key : ∀ m ∈ ["project name cannot start or end with a dot",
      "project name cannot start or end with a hyphen"], validateProjectName name ≠ some m := by
    intro m hm
    have hk := (dot_message_ne name).1 m hm
    have hi := (dot_message_ne name).2 m hm
    have hm2 := hm
    simp only [List.mem_cons, List.mem_singleton, List.not_mem_nil, or_false] at hm2
    unfold validateProjectName
    split_ifs with h1 h2 h3 h4 h5 h6 h7
    · rcases hm2 with k | k <;> rw [k] <;> decide
    · rcases hm2 with k | k <;> rw [k] <;> decide
    · rcases hm2 with k | k <;> rw [k] <;> decide
    · exact fun e => hk (Option.some.inj e)
    · exact fun e => hi (Option.some.inj e)
    · have hr : moduleNameRegexMatch name = true := by simpa using h5
      have he := moduleNameRegexMatch_ends name hr
      rw [he.1, he.2.1] at h6
      simp at h6
    · have hr : moduleNameRegexMatch name = true := by simpa using h5
      have he := moduleNameRegexMatch_ends name hr
      rw [he.2.2.1, he.2.2.2.1] at h7
      simp at h7
    · simp
  refine ⟨key _ (by simp), key _ (by simp), fun h => ?_⟩
  obtain ⟨c, init, last, hd, hc, hl, _⟩ := moduleNameRegexMatch_spec name h
  have he := moduleNameRegexMatch_ends name h
  exact ⟨⟨c, init, last, hd, hc, hl⟩, he.2.2.2.2, he.1, he.2.1, he.2.2.1, he.2.2.2.1⟩

theorem trailing_checks_unreachable_witness :
    validateProjectName "shopcart" ≠ some "project name cannot start or end with a dot" ∧
    HasSuffix "shopcart" "-" = false ∧
    validateProjectName "-shop." ≠ some "project name cannot start or end with a hyphen" :=
  ⟨(trailing_checks_unreachable "shopcart").1,
   ((trailing_checks_unreachable "shopcart").2.2 (by rfl)).2.2.2.2.2,
   (trailing_checks_unreachable "-shop.").2.1⟩

set_option maxRecDepth 100000 in
/-- C27: in the interactive mode the name typed in place of the one given is handed to the
generator without validation: the run for `shopcart` in which the user types `../escape`
builds a configuration with the project name `../escape`, which `validateProjectName`
refuses; the name given on the command line had been validated. -/
theorem interactive_name_is_not_validated :
    validateProjectName "shopcart" = none ∧
    (buildProjectConfig interactiveFlags "shopcart" renamingAnswers sampleFS).2.2.2 =
      .ok { ProjectName := "../escape", Architecture := "hexagonal", TargetDir := "out",
            WithDocker := false, WithMakefile := false, WithGit := false, License := "MIT",
            AutoYes := false } ∧
    validateProjectName "../escape" =
      some ("invalid project name: ../escape" ++
        ". Must contain only letters, numbers, dots, underscores, and hyphens") := by
  refine ⟨by rfl, by rfl, by rfl⟩

/-! ### C22, C26: the architecture name and the map of each variant -/

theorem validateArchitecture_iff (fl : Flags) :
    validateArchitecture fl = none ↔ fl.architecture ∈ knownArchitectures := by
  unfold validateArchitecture
  by_cases h : fl.architecture ∈ knownArchitectures
  · have ha : availableArchs.any (fun arch => arch = fl.architecture) = true := by
      simp only [knownArchitectures, List.mem_cons, List.mem_singleton, List.not_mem_nil,
        or_false] at h
      rcases h with k | k | k | k <;> rw [k] <;> decide
    simp [ha, h]
  · have ha : availableArchs.any (fun arch => arch = fl.architecture) = false := by
      simp only [knownArchitectures, List.mem_cons, List.mem_singleton, List.not_mem_nil,
        or_false, not_or] at h
      simp only [availableArchs, List.any_cons, List.any_nil, Bool.or_false, Bool.or_eq_false_iff,
        decide_eq_false_iff_not]
      exact ⟨fun e => h.1 e.symm, fun e => h.2.1 e.symm, fun e => h.2.2.1 e.symm,
        fun e => h.2.2.2 e.symm⟩
    simp [ha, h]

/-- C26, amended: `validateArchitecture` accepts the architecture flag exactly when it is
one of the four names `createArchitecture` knows, that is exactly when `createArchitecture`
does not return the unsupported-architecture error.  For an accepted name
`createArchitecture` returns the architecture of that name when the template store loads,
and panics when it does not; so `generator.New` never returns an architecture error for a
configuration that passed validation. -/
theorem validateArchitecture_agrees (env : Env) (fl : Flags) :
    (validateArchitecture fl = none ↔ fl.architecture ∈ knownArchitectures) ∧
    (validateArchitecture fl = none ↔
      createArchitecture env fl.architecture ≠
        .error ("unsupported architecture: " ++ fl.architecture)) ∧
    (validateArchitecture fl = none → ∀ tm, NewTemplateManager env = .ok tm →
      ∃ a, createArchitecture env fl.architecture = .ok a ∧ a.GetName = fl.architecture) ∧
    (validateArchitecture fl = none → ∀ err, NewTemplateManager env = .error err →
      createArchitecture env fl.architecture = .panic (templateManagerPanic err)) ∧
    (validateArchitecture fl = none → ∀ (config : Config) (logger : Option Logger),
      config.Architecture = fl.architecture →
      ∀ msg, New env (some config) logger ≠ .error ("failed to create architecture: " ++ msg)) := by
  have hiff := validateArchitecture_iff fl
  have hknown : fl.architecture ∈ knownArchitectures →
      ∀ msg, createArchitecture env fl.architecture ≠ .error msg := by
    intro hk msg
    cases htm : NewTemplateManager env with
    | ok tm =>
      obtain ⟨a, ha, _⟩ := createArchitecture_known_ok env _ tm hk htm
      rw [ha]
      exact fun e => by cases e
    | error err =>
      rw [createArchitecture_known_panic env _ err hk htm]
      exact fun e => by cases e
  refine ⟨hiff, ?_, ?_, ?_, ?_⟩
  · constructor
    · intro h
      exact hknown (hiff.mp h) _
    · intro h
      by_contra hn
      exact h (createArchitecture_unknown env _ (fun hk => hn (hiff.mpr hk)))
  · intro h tm htm
    obtain ⟨a, ha, hn, _⟩ := createArchitecture_known_ok env _ tm (hiff.mp h) htm
    exact ⟨a, ha, hn⟩
  · intro h err htm
    exact createArchitecture_known_panic env _ err (hiff.mp h) htm
  · intro h config logger hc msg
    have hk := hknown (hiff.mp h)
    rw [← hc] at hk
    unfold New
    dsimp only
    cases logger with
    | none =>
      intro e
      have e2 : "logger cannot be nil" = "failed to create architecture: " ++ msg :=
        Outcome.error.inj e
      have h3 := congrArg (fun s => s.data.head?) e2
      simp [String.data_append] at h3
    | some lg =>
      dsimp only
      cases hca : createArchitecture env config.Architecture with
      | ok a =>
        dsimp only
        unfold NewFileGenerator
        dsimp only
        exact fun e => by cases e
      | error err => exact absurd hca (hk err)
      | panic err =>
        dsimp only
        exact fun e => by cases e

theorem validateArchitecture_agrees_witness :
    (∃ a, createArchitecture sampleEnv "basic" = .ok a ∧ a.GetName = "basic") ∧
    createArchitecture sampleEnv "onion" = .error ("unsupported architecture: " ++ "onion") :=
  ⟨(validateArchitecture_agrees sampleEnv defaultFlags).2.2.1 (by rfl) sampleStore
      sampleEnv_loads,
   Classical.not_not.mp (fun h =>
     absurd ((validateArchitecture_agrees sampleEnv
       { defaultFlags with architecture := "onion" }).2.1.mpr h) (by decide))⟩

/-- C26 as stated fails where the template store does not load: the validator accepts
`basic`, and `createArchitecture` returns no architecture for it but panics. -/
theorem accepted_architecture_may_panic :
    validateArchitecture defaultFlags = none ∧
    defaultFlags.architecture = "basic" ∧
    ¬ (∃ a, createArchitecture noTemplatesEnv defaultFlags.architecture = .ok a) ∧
    createArchitecture noTemplatesEnv defaultFlags.architecture =
      .panic ("Failed to create template manager: failed to load templates: " ++
        "lstat templates: no such file or directory") := by
  refine ⟨by rfl, rfl, ?_, by rfl⟩
  rintro ⟨a, ha⟩
  have h : createArchitecture noTemplatesEnv defaultFlags.architecture =
      .panic ("Failed to create template manager: failed to load templates: " ++
        "lstat templates: no such file or directory") := by rfl
  rw [h] at ha
  cases ha

/-- C22: for every project name and each of the four variants the keys of the map literal
of `GenerateFiles` are pairwise different, the key of the main entry being none of the
fixed ones; so the map built from the literal has every binding of the literal, none
replaced: seven for hexagonal, six for clean, mvc and basic, and each key is bound to
exactly one template identifier. -/
theorem fileBindings_map (a : Architecture) (config : Config) :
    (mapKeys (a.fileBindings config)).Nodup ∧
    mapOfBindings (a.fileBindings config) = a.fileBindings config ∧
    (mapOfBindings (a.fileBindings config)).length =
      (if a.GetName = "hexagonal" then 7 else 6) ∧
    (∀ k ∈ [".env", "internal/adapters/cache/cache.go", "pkg/logger/logger.go",
        "pkg/utils/utils.go", "pkg/database/database.go", "configs/config.go"],
      "cmd/" ++ config.ProjectName ++ "/main.go" ≠ k) ∧
    (∀ k t1 t2, (k, t1) ∈ mapOfBindings (a.fileBindings config) →
      (k, t2) ∈ mapOfBindings (a.fileBindings config) → t1 = t2) := by
  have hn : (mapKeys (a.fileBindings config)).Nodup := by
    have h := outputPaths_nodup a config "."
    rw [List.map_append] at h
    exact ((List.nodup_append.mp h).1).of_map _
  have he := mapOfBindings_fileBindings a config
  refine ⟨hn, he, ?_, ?_, ?_⟩
  · rw [he]
    cases a <;> simp [Architecture.fileBindings, Architecture.GetName]
  · intro k hk e
    have hfix : ∀ k ∈ [".env", "internal/adapters/cache/cache.go", "pkg/logger/logger.go",
        "pkg/utils/utils.go", "pkg/database/database.go", "configs/config.go"],
        ¬ lastElementIs k "main.go" := by
      unfold lastElementIs
      decide
    have hl := lastElementIs_main config.ProjectName
    rw [e] at hl
    exact hfix k hk hl
  · intro k t1 t2 h1 h2
    rw [he] at h1 h2
    have hinj : ∀ (l : List (String × String)), (mapKeys l).Nodup →
        (k, t1) ∈ l → (k, t2) ∈ l → t1 = t2 := by
      intro l
      induction l with
      | nil => simp
      | cons kv rest ih =>
        intro hnd m1 m2
        simp only [mapKeys, List.map_cons, List.nodup_cons] at hnd
        rcases List.mem_cons.mp m1 with e1 | e1 <;> rcases List.mem_cons.mp m2 with e2 | e2
        · rw [← e1] at e2
          exact (Prod.mk.inj e2).2.symm
        · exfalso
          apply hnd.1
          rw [← e1]
          exact List.mem_map.mpr ⟨(k, t2), e2, rfl⟩
        · exfalso
          apply hnd.1
          rw [← e2]
          exact List.mem_map.mpr ⟨(k, t1), e1, rfl⟩
        · exact ih hnd.2 e1 e2
    exact hinj _ hn h1 h2

/-! ### C21: the end-to-end scenario -/

theorem mkdirChain_ok (chain : List String) (fs : FS) (hd : fs.denied = [])
    (hf : ∀ q ∈ chain, isFile fs q = false) : (mkdirChain fs chain).2 = none := by
  induction chain generalizing fs with
  | nil => rfl
  | cons p ps ih =>
    have h1 := mkdirOne_spec fs p
    have hok : (mkdirOne fs p).2 = none := by
      unfold mkdirOne
      by_cases hdir : isDir fs p = true
      · simp [hdir]
      · simp [hdir, hf p (by simp), hd]
    rcases hm : mkdirOne fs p with ⟨fs1, r⟩
    rw [hm] at h1 hok
    dsimp only at hok
    subst hok
    simp only [mkdirChain, hm]
    apply ih fs1 (h1.2.1.trans hd)
    intro q hq
    unfold isFile at *
    rw [h1.1]
    exact hf q (by simp [hq])

theorem MkdirAll_ok (fs : FS) (p : String) (hd : fs.denied = []) (hp : p ≠ "")
    (hf : ∀ q ∈ ancestorsOrSelf p, isFile fs q = false) : (MkdirAll fs p).2 = none := by
  unfold MkdirAll
  rw [if_neg hp]
  exact mkdirChain_ok _ fs hd hf

theorem WriteFile_ok_of (fs : FS) (n d : String) (h1 : isDir fs n = false)
    (h2 : isFile fs (Dir n) = false) (h3 : isDir fs (Dir n) = true) (h4 : n ∉ fs.denied) :
    WriteFile fs n d = ({ fs with files := setFile fs.files n d }, none) := by
  unfold WriteFile
  simp [h1, h2, h3, h4]

theorem safeOps_mono (D W : List String) (ops : List Op) (K K1 : List String) (hk : K ⊆ K1)
    (h : safeOps D W K ops = true) : safeOps D W K1 ops = true := by
  induction ops generalizing K K1 with
  | nil => rfl
  | cons op rest ih =>
    cases op with
    | mkdir p =>
      simp only [safeOps, Bool.and_eq_true] at h ⊢
      refine ⟨h.1, ih _ _ ?_ h.2⟩
      intro x hx
      rcases List.mem_append.mp hx with k | k
      · exact List.mem_append_left _ (hk k)
      · exact List.mem_append_right _ k
    | write n d =>
      simp only [safeOps, writeSafe, Bool.and_eq_true, decide_eq_true_eq] at h ⊢
      exact ⟨⟨h.1.1, hk h.1.2⟩, ih _ _ hk h.2⟩
    | abort => simp [safeOps] at h

theorem safeOps_append (D W : List String) (a b : List Op) (K : List String)
    (ha : safeOps D W K a = true) (hb : safeOps D W K b = true) :
    safeOps D W K (a ++ b) = true := by
  induction a generalizing K with
  | nil => exact hb
  | cons op rest ih =>
    cases op with
    | mkdir p =>
      simp only [List.cons_append, safeOps, Bool.and_eq_true] at ha ⊢
      exact ⟨ha.1, ih _ ha.2 (safeOps_mono D W b K _ (List.subset_append_left _ _) hb)⟩
    | write n d =>
      simp only [List.cons_append, safeOps, Bool.and_eq_true] at ha ⊢
      exact ⟨ha.1, ih _ ha.2 hb⟩
    | abort => simp [safeOps] at ha

/-- Operations that are safe for a state all succeed in it. -/
theorem runOps_safe (D W : List String) (ops : List Op) (K : List String) (fs : FS)
    (hw : Within D W K fs) (h : safeOps D W K ops = true) : (runOps ops fs).2 = none := by
  induction ops generalizing K fs with
  | nil => rfl
  | cons op rest ih =>
    obtain ⟨hd, hD, hW, hK⟩ := hw
    cases op with
    | mkdir p =>
      simp only [safeOps, mkdirSafe, Bool.and_eq_true, decide_eq_true_eq, List.all_eq_true,
        Bool.not_eq_true', decide_eq_false_iff_not] at h
      obtain ⟨⟨hp, hq⟩, hrest⟩ := h
      have hok := MkdirAll_ok fs p hd hp (fun q hq1 => by
        by_contra hc
        exact (hq q hq1).2 (hW q (by simpa using hc)))
      have hs := MkdirAll_spec fs p
      rcases hm : MkdirAll fs p with ⟨fs1, r⟩
      rw [hm] at hok hs
      dsimp only at hok
      subst hok
      rw [runOps_cons_ok _ _ _ _ (show (Op.mkdir p).run fs = (fs1, none) from hm)]
      apply ih _ fs1 _ hrest
      refine ⟨hs.2.1.trans hd, ?_, ?_, ?_⟩
      · intro d hd1
        rcases hs.2.2.2.1 d hd1 with k | k
        · exact hD d k
        · exact (hq d k).1
      · intro x hx
        unfold isFile at hx
        rw [hs.1] at hx
        exact hW x hx
      · intro k hk
        rcases List.mem_append.mp hk with k1 | k1
        · exact isDir_mono fs fs1 k hs.2.2.1 (hK k k1)
        · exact (Settled.of_run (show (Op.mkdir p).run fs = (fs1, none) from hm)).2 k k1
    | write n d =>
      simp only [safeOps, writeSafe, Bool.and_eq_true, decide_eq_true_eq,
        Bool.not_eq_true', decide_eq_false_iff_not] at h
      obtain ⟨⟨⟨⟨⟨hnW, hnD⟩, hni⟩, hdW⟩, hdK⟩, hrest⟩ := h
      have h1 : isDir fs n = false := by
        unfold isDir
        simp only [Bool.or_eq_false_iff, decide_eq_false_iff_not]
        exact ⟨fun hc => hnD (hD n hc), hni⟩
      have h2 : isFile fs (Dir n) = false := by
        by_contra hc
        exact hdW (hW _ (by simpa using hc))
      have hw := WriteFile_ok_of fs n d h1 h2 (hK _ hdK) (by rw [hd]; simp)
      rw [runOps_cons_ok _ _ _ _ (show (Op.write n d).run fs = _ from hw)]
      apply ih _ _ _ hrest
      refine ⟨hd, hD, ?_, hK⟩
      intro x hx
      by_cases hxn : x = n
      · rw [hxn]; exact hnW
      · apply hW
        unfold isFile at hx ⊢
        rw [show (setFile fs.files n d).lookup x = fs.files.lookup x from
          lookup_setFile_ne _ _ _ _ hxn] at hx
        exact hx
    | abort => simp [safeOps] at h

theorem safeOps_renderOps (D W : List String) (env : Env) (tm : TemplateManager) (root : String)
    (data : TemplateData) (files : List (String × String)) (K : List String)
    (h : ∀ kv ∈ files, (RenderTemplate env tm kv.2 data).2 = none ∧
      mkdirSafe D W (Dir (Join root kv.1)) = true ∧
      writeSafe D W (ancestorsOrSelf (Dir (Join root kv.1))) (Join root kv.1) = true) :
    safeOps D W K (renderOps env tm root data files) = true := by
  induction files with
  | nil => rfl
  | cons kv rest ih =>
    unfold renderOps
    apply safeOps_append
    · obtain ⟨hr, hm, hw⟩ := h kv (by simp)
      unfold entryOps
      rcases hrt : RenderTemplate env tm kv.2 data with ⟨c, r⟩
      rw [hrt] at hr
      dsimp only at hr
      subst hr
      dsimp only
      simp only [safeOps, Bool.and_eq_true, Bool.and_true]
      refine ⟨hm, ?_⟩
      have := safeOps_mono D W [Op.write (Join root kv.1) c]
        (ancestorsOrSelf (Dir (Join root kv.1))) (K ++ ancestorsOrSelf (Dir (Join root kv.1)))
        (List.subset_append_right _ _) (by simp [safeOps, hw])
      simpa [safeOps] using this
    · exact ih (fun kv1 hkv1 => h kv1 (by simp [hkv1]))

theorem Contains_trans (s m k : String) (h1 : Contains s m) (h2 : Contains m k) :
    Contains s k := by
  unfold Contains at *
  exact List.IsInfix.trans h2 h1

theorem readmeContent_names (config : Config) :
    Contains (readmeContent config) config.ProjectName ∧
    Contains (readmeContent config) config.Architecture := by
  unfold readmeContent
  constructor
  · iterate 60 apply Contains_append_right
    exact Contains_tail _ _
  · iterate 56 apply Contains_append_right
    exact Contains_tail _ _

theorem generateMITLicense_names (config : Config) (year : Int) :
    Contains (generateMITLicense config year) "MIT" ∧
    Contains (generateMITLicense config year) (toString year) := by
  constructor
  · unfold generateMITLicense
    iterate 24 apply Contains_append_right
    exact ⟨[], " License\n".data, rfl⟩
  · refine Contains_trans _ _ _ (generateMITLicense_shape config year).2 ?_
    iterate 3 apply Contains_append_right
    exact Contains_tail _ _

set_option maxRecDepth 100000 in
theorem scenario_entries_safe (m y : Bool) :
    ∀ kv ∈ Architecture.fileBindings (.basic ⟨⟨[]⟩⟩) (scenarioConfig m y),
      kv.2 ∈ basicTemplates ∧
      mkdirSafe scenarioDirs scenarioFiles (Dir (Join (Join "out" "shopcart") kv.1)) = true ∧
      writeSafe scenarioDirs scenarioFiles
        (ancestorsOrSelf (Dir (Join (Join "out" "shopcart") kv.1)))
        (Join (Join "out" "shopcart") kv.1) = true := by
  cases m <;> cases y <;> decide

set_option maxRecDepth 100000 in
/-- The operations of the end-to-end scenario are safe in the empty target directory. -/
theorem scenario_ops_safe (env : Env) (ord : MapOrder) (g : Generator) (m y : Bool)
    (hcfg : g.config = scenarioConfig m y) (hfg : g.fileGen.config = scenarioConfig m y)
    (harch : g.arch.GetName = "basic")
    (hrender : ∀ t ∈ basicTemplates,
      (RenderTemplate env g.arch.templateManager t
        (NewTemplateData env (scenarioConfig m y))).2 = none) :
    safeOps scenarioDirs scenarioFiles [] (g.ops env ord) = true := by
  obtain ⟨cfg, lg, arch, ⟨fcfg, flg⟩⟩ := g
  dsimp only at hcfg hfg harch hrender
  subst hcfg hfg
  cases arch with
  | hexagonal h => simp [Architecture.GetName] at harch
  | clean c => simp [Architecture.GetName] at harch
  | mvc k => simp [Architecture.GetName] at harch
  | basic b =>
    have hroot : Join (scenarioConfig m y).TargetDir (scenarioConfig m y).ProjectName =
        "out/shopcart" := by
      show Join "out" "shopcart" = "out/shopcart"
      decide
    have hdirs : (Architecture.basic b).GetStructure.Directories =
        (Architecture.basic ⟨⟨[]⟩⟩).GetStructure.Directories := rfl
    unfold Generator.ops
    dsimp only
    rw [hroot, hdirs]
    show safeOps scenarioDirs scenarioFiles [] (Op.mkdir "out/shopcart" :: ([] ++ _)) = true
    rw [safeOps, Bool.and_eq_true]
    refine ⟨by decide, ?_⟩
    apply safeOps_append
    · rfl
    apply safeOps_append
    · decide
    apply safeOps_append
    · apply safeOps_renderOps
      intro kv hkv
      have hm : kv ∈ Architecture.fileBindings (.basic b) (scenarioConfig m y) := by
        have := (ord.perm _).mem_iff.mp hkv
        rw [mapOfBindings_fileBindings] at this
        exact this
      have hs := scenario_entries_safe m y kv hm
      have e : Join "out" "shopcart" = "out/shopcart" := by decide
      rw [e] at hs
      exact ⟨hrender kv.2 hs.1, hs.2.1, hs.2.2⟩
    · rfl

theorem Within_sampleFS : Within scenarioDirs scenarioFiles [] sampleFS := by
  refine ⟨rfl, by decide, ?_, by simp⟩
  intro x hx
  simp [isFile, sampleFS] at hx

theorem ops_mem_declared (g : Generator) (env : Env) (ord : MapOrder) (d : String)
    (h : d ∈ g.arch.GetStructure.Directories) :
    Op.mkdir (Join (Join g.config.TargetDir g.config.ProjectName) d) ∈ g.ops env ord := by
  unfold Generator.ops
  dsimp only
  simp only [List.mem_append]
  exact Or.inr (Or.inl (List.mem_map.mpr ⟨d, h, rfl⟩))

theorem ops_mem_entry (g : Generator) (env : Env) (ord : MapOrder) (kv : String × String)
    (op : Op) (h : kv ∈ g.arch.fileBindings g.config)
    (hop : op ∈ entryOps env g.arch.templateManager
      (Join g.config.TargetDir g.config.ProjectName) (NewTemplateData env g.config) kv) :
    op ∈ g.ops env ord := by
  unfold Generator.ops
  dsimp only
  simp only [List.mem_append, mem_renderOps]
  refine Or.inr (Or.inr (Or.inl ⟨kv, (ord.perm _).mem_iff.mpr ?_, hop⟩))
  rw [mapOfBindings_fileBindings]
  exact h

theorem ops_mem_common (g : Generator) (env : Env) (ord : MapOrder) (op : Op)
    (h : op ∈ commonOps g.fileGen (Join g.config.TargetDir g.config.ProjectName)) :
    op ∈ g.ops env ord := by
  unfold Generator.ops
  dsimp only
  simp only [List.mem_append]
  exact Or.inr (Or.inr (Or.inr (Or.inl h)))

theorem ops_mem_optional (g : Generator) (env : Env) (ord : MapOrder) (op : Op)
    (h : op ∈ optionalOps g.fileGen env (Join g.config.TargetDir g.config.ProjectName)) :
    op ∈ g.ops env ord := by
  unfold Generator.ops
  dsimp only
  simp only [List.mem_append]
  exact Or.inr (Or.inr (Or.inr (Or.inr (Or.inl h))))

theorem self_mem_ancestorsOrSelf (p : String) : p ∈ ancestorsOrSelf p := by
  simp [ancestorsOrSelf]

theorem scenarioDeclared_paths :
    ∀ d ∈ scenarioDeclared, d ∈ (Architecture.basic ⟨⟨[]⟩⟩).GetStructure.Directories ∧
      Join (Join "out" "shopcart") d = "out/shopcart/" ++ d := by
  decide

/-- C21: the end-to-end scenario. For a config with project name `shopcart`, architecture
`basic`, license `MIT`, Docker and git off and target directory `out`, and a generator
`New` built for it whose store renders the six templates of the basic variant, `Generate`
run in a filesystem holding only the empty directory `out` succeeds, whatever the order in
which the map is visited; in the resulting tree the file `cmd/shopcart/main.go` holds the
rendering of `basic/main.go`, the eleven directories listed exist, `go.mod`, `.gitignore`
and `Makefile` hold their texts, `README.md` contains `shopcart` and `basic`, and `LICENSE`
contains `MIT` and the current year. -/
theorem end_to_end_scenario (env : Env) (ord : MapOrder) (config : Config)
    (logger : Option Logger) (g : Generator)
    (hname : config.ProjectName = "shopcart") (harch : config.Architecture = "basic")
    (hlicense : config.License = "MIT") (hdocker : config.WithDocker = false)
    (hgit : config.WithGit = false) (htarget : config.TargetDir = "out")
    (hnew : New env (some config) logger = .ok g)
    (hrender : ∀ t ∈ basicTemplates,
      (RenderTemplate env g.arch.templateManager t (NewTemplateData env config)).2 = none) :
    (g.Generate env ord sampleFS).2 = none ∧
    readFile (g.Generate env ord sampleFS).1 "out/shopcart/cmd/shopcart/main.go" =
      some (RenderTemplate env g.arch.templateManager "basic/main.go"
        (NewTemplateData env config)).1 ∧
    (∀ d ∈ scenarioDeclared,
      isDir (g.Generate env ord sampleFS).1 ("out/shopcart/" ++ d) = true) ∧
    readFile (g.Generate env ord sampleFS).1 "out/shopcart/go.mod" =
      some (goModContent config) ∧
    (∃ readme, readFile (g.Generate env ord sampleFS).1 "out/shopcart/README.md" = some readme ∧
      Contains readme "shopcart" ∧ Contains readme "basic") ∧
    readFile (g.Generate env ord sampleFS).1 "out/shopcart/.gitignore" =
      some gitignoreContent ∧
    readFile (g.Generate env ord sampleFS).1 "out/shopcart/Makefile" =
      some (makefileContent config) ∧
    (∃ license, readFile (g.Generate env ord sampleFS).1 "out/shopcart/LICENSE" = some license ∧
      Contains license "MIT" ∧ Contains license (toString env.year)) := by
  obtain ⟨hc, hfc, hgn, -⟩ := New_ok env config logger g hnew
  obtain ⟨name, archn, target, docker, m, git, lic, y⟩ := config
  dsimp only at hname harch hlicense hdocker hgit htarget
  subst hname harch hlicense hdocker hgit htarget
  have hcfg : g.config = scenarioConfig m y := hc
  have hfcfg : g.fileGen.config = scenarioConfig m y := hfc
  have hsafe := scenario_ops_safe env ord g m y hcfg hfcfg hgn hrender
  have hrun := runOps_safe _ _ _ [] sampleFS Within_sampleFS hsafe
  rcases hr : runOps (g.ops env ord) sampleFS with ⟨s, r⟩
  rw [hr] at hrun
  dsimp only at hrun
  subst hrun
  have hroot : Join g.config.TargetDir g.config.ProjectName = Join "out" "shopcart" := by
    rw [hcfg]
    rfl
  have hG := Generate_of_ops g env ord sampleFS s s hr
    (gitStep_off _ _ _ _ (by rw [hfcfg]; rfl))
  rw [hG]
  dsimp only
  have hset := Settled_runOps _ _ _ hr (writeNames_ops_nodup g env ord)
  have hwrite : ∀ n d, Op.write n d ∈ g.ops env ord → readFile s n = some d :=
    fun n d h => (hset _ h).2.2.2.2
  have hcommon : ∀ op ∈ commonOps ⟨scenarioConfig m y, g.fileGen.logger⟩ (Join "out" "shopcart"),
      op ∈ g.ops env ord := by
    intro op hop
    apply ops_mem_common
    rw [hroot]
    have e : g.fileGen = ⟨scenarioConfig m y, g.fileGen.logger⟩ := by
      rw [← hfcfg]
    rw [e]
    exact hop
  have hoptional : ∀ op ∈ optionalOps ⟨scenarioConfig m y, g.fileGen.logger⟩ env
      (Join "out" "shopcart"), op ∈ g.ops env ord := by
    intro op hop
    apply ops_mem_optional
    rw [hroot]
    have e : g.fileGen = ⟨scenarioConfig m y, g.fileGen.logger⟩ := by
      rw [← hfcfg]
    rw [e]
    exact hop
  have hbasic : ∃ b, g.arch = .basic b := by
    cases ha : g.arch with
    | hexagonal h => rw [ha] at hgn; simp [Architecture.GetName, scenarioConfig] at hgn
    | clean c => rw [ha] at hgn; simp [Architecture.GetName, scenarioConfig] at hgn
    | mvc k => rw [ha] at hgn; simp [Architecture.GetName, scenarioConfig] at hgn
    | basic b => exact ⟨b, rfl⟩
  obtain ⟨b, hb⟩ := hbasic
  refine ⟨rfl, ?_, ?_, ?_, ?_, ?_, ?_, ?_⟩
  · apply hwrite
    apply ops_mem_entry g env ord ("cmd/shopcart/main.go", "basic/main.go")
    · rw [hb, hcfg]
      simp [Architecture.fileBindings, scenarioConfig]
    · rw [hroot, hcfg]
      unfold entryOps
      have h1 := hrender "basic/main.go" (by decide)
      rcases hrt : RenderTemplate env g.arch.templateManager "basic/main.go"
        (NewTemplateData env (scenarioConfig m y)) with ⟨c, r⟩
      have hrt1 : RenderTemplate env g.arch.templateManager "basic/main.go"
        (NewTemplateData env ⟨"shopcart", "basic", "out", false, m, false, "MIT", y⟩) =
          (c, r) := hrt
      rw [hrt1] at h1 ⊢
      dsimp only at h1 ⊢
      subst h1
      dsimp only
      have e : Join (Join "out" "shopcart") "cmd/shopcart/main.go" =
        "out/shopcart/cmd/shopcart/main.go" := by decide
      rw [e]
      simp
  · intro d hd
    obtain ⟨h1, h2⟩ := scenarioDeclared_paths d hd
    rw [← h2, ← hroot]
    refine (hset _ (ops_mem_declared g env ord d ?_)).2 _ (self_mem_ancestorsOrSelf _)
    rw [hb]
    exact h1
  · have h1 : Op.write "out/shopcart/go.mod" (goModContent (scenarioConfig m y)) ∈
        commonOps ⟨scenarioConfig m y, g.fileGen.logger⟩ (Join "out" "shopcart") :=
      List.mem_cons_self _ _
    exact hwrite _ _ (hcommon _ h1)
  · refine ⟨readmeContent (scenarioConfig m y), ?_, ?_⟩
    · have h1 : Op.write "out/shopcart/README.md" (readmeContent (scenarioConfig m y)) ∈
          commonOps ⟨scenarioConfig m y, g.fileGen.logger⟩ (Join "out" "shopcart") :=
        List.mem_cons_of_mem _ (List.mem_cons_self _ _)
      exact hwrite _ _ (hcommon _ h1)
    · exact readmeContent_names (scenarioConfig m y)
  · have h1 : Op.write "out/shopcart/.gitignore" gitignoreContent ∈
        commonOps ⟨scenarioConfig m y, g.fileGen.logger⟩ (Join "out" "shopcart") :=
      List.mem_cons_of_mem _ (List.mem_cons_of_mem _ (List.mem_cons_self _ _))
    exact hwrite _ _ (hcommon _ h1)
  · exact hwrite _ _ (hoptional _ (by
      have : Op.write "out/shopcart/Makefile" (makefileContent (scenarioConfig m y)) ∈
          optionalOps ⟨scenarioConfig m y, g.fileGen.logger⟩ env (Join "out" "shopcart") :=
        List.mem_append_left _ (List.mem_singleton.mpr (by
          show Op.write _ _ = Op.write _ _
          rfl))
      exact this))
  · refine ⟨generateMITLicense (scenarioConfig m y) env.year, ?_, ?_⟩
    · exact hwrite _ _ (hoptional _ (by
        have : Op.write "out/shopcart/LICENSE" (generateMITLicense (scenarioConfig m y) env.year) ∈
            optionalOps ⟨scenarioConfig m y, g.fileGen.logger⟩ env (Join "out" "shopcart") :=
          List.mem_append_right _ (List.mem_append_right _ (List.mem_append_left _
            (List.mem_singleton.mpr (by rfl))))
        exact this))
    · exact generateMITLicense_names (scenarioConfig m y) env.year

set_option maxRecDepth 100000 in
theorem end_to_end_scenario_witness :
    New sampleEnv (some sampleConfig) (some ⟨false⟩) = .ok sampleGenerator ∧
    (sampleGenerator.Generate sampleEnv MapOrder.backwards sampleFS).2 = none ∧
    readFile (sampleGenerator.Generate sampleEnv MapOrder.backwards sampleFS).1
      "out/shopcart/cmd/shopcart/main.go" =
      some "package templates/basic/main.go.tmpl // shopcart" ∧
    isDir (sampleGenerator.Generate sampleEnv MapOrder.backwards sampleFS).1
      "out/shopcart/pkg/logger" = true :=
  have h := end_to_end_scenario sampleEnv MapOrder.backwards sampleConfig (some ⟨false⟩)
    sampleGenerator rfl rfl rfl rfl rfl rfl (by rfl) (by decide)
  ⟨by rfl, h.1, h.2.1.trans (by rfl), h.2.2.1 "pkg/logger" (by decide)⟩

/-! ### `os.Stat`, `fmt.Scanln`, `os.WriteFile` and `strings.Title` on sample inputs -/

/-- A target directory written with a trailing slash, a leading `./` or a trailing `/.` is
found; a path through a missing directory is not, even where cleaning it would give an
existing one; a path that goes on below a regular file is `ENOTDIR`. -/
theorem Stat_samples :
    Stat sampleFS "out/" = .dir ∧ Stat sampleFS "./out" = .dir ∧ Stat sampleFS "out/." = .dir ∧
    Stat sampleFS "out/../out" = .dir ∧ Stat sampleFS "missing" = .notExist ∧
    Stat sampleFS "missing/../out" = .notExist ∧ Stat fileFS "f" = .file ∧
    Stat fileFS "f/" = .notDir ∧ Stat fileFS "f/sub" = .notDir := by
  decide

/-- The flag `out/` passes `validateTargetDirectory` and leaves no trace; a path below a
regular file is reported as not writable, a missing one as missing. -/
theorem validateTargetDirectory_samples :
    validateTargetDirectory { defaultFlags with targetDir := "out/" } sampleFS =
      ({ defaultFlags with targetDir := "out/" }, sampleFS, none) ∧
    (validateTargetDirectory { defaultFlags with targetDir := "f/sub" } fileFS).2.2 =
      some "target directory is not writable: f/sub" ∧
    (validateTargetDirectory { defaultFlags with targetDir := "f" } fileFS).2.2 =
      some "target directory is not writable: f" ∧
    (validateTargetDirectory { defaultFlags with targetDir := "nope" } fileFS).2.2 =
      some "target directory does not exist: nope" := by
  decide

/-- What `fmt.Scanln` stores and leaves: after `y extra` the input goes on with `xtra`. -/
theorem Scanln_samples :
    Scanln ["y extra", "n"] = ("y", ["xtra", "n"]) ∧ Scanln ["", "x"] = ("", ["x"]) ∧
    Scanln ["  yes  ", "x"] = ("yes", ["x"]) ∧ Scanln [] = ("", []) := by
  decide

/-- The error of a write below a regular file, and below a missing directory. -/
theorem WriteFile_samples :
    (WriteFile fileFS "f/sub/x.go" "d").2 = some "open f/sub/x.go: not a directory" ∧
    (WriteFile fileFS "f/x.go" "d").2 = some "open f/x.go: not a directory" ∧
    (WriteFile fileFS "g/sub/x.go" "d").2 =
      some "open g/sub/x.go: no such file or directory" := by
  decide

/-- Titles of ASCII names: the underscore and the digits are no separators. -/
theorem Title_samples :
    Title asciiTables "hello world" = "Hello World" ∧ Title asciiTables "my_app" = "My_app" ∧
    Title asciiTables "a1b-c.d/e" = "A1b-C.D/E" ∧ Title asciiTables "Shop" = "Shop" ∧
    Title asciiTables "" = "" := by
  decide

end GoMake
